import Mathlib

/-!
DesireYourLove backend: the Like/Match engine and the conversation gate

A shallow embedding of the storage schema of `src/config/database.js` and of the
request handlers of `src/routes/matches.js`, of `start-conversation` in
`src/routes/messages.js`, of the profile read and the route table of
`src/routes/users.js` and of the read flags of `src/routes/notifications.js`.

* A table is the list of its rows, oldest row first.  Only the columns that the
  modelled handlers read or write are kept; `created_at` columns and `ORDER BY`
  are not modelled.
* Identifiers are natural numbers (`INT AUTO_INCREMENT` keys, the `id` of the
  verified token, the `parseInt` of a path parameter).
* `db.execute` of a statement either succeeds or throws; a throw is an
  `Except.error`.  A handler runs its statements one after another against the
  pool without a transaction, so what was written before a throw stays written
  and the `catch` block answers with status 500.
* A handler is a function from the store and the request to the store after the
  request together with the HTTP response.
-/

namespace DesireYourLove

/-! ## Schema (`Database.createTables`) -/

/-- Column `users.profile_visibility`: `ENUM('public', 'matches', 'private')`. -/
inductive Visibility
  | public_ | matches_ | private_
  deriving DecidableEq, Repr

/-- Row of table `users` (the columns read by the modelled handlers). -/
structure User where
  id : Nat
  first_name : String
  profile_image : Option String
  profile_visibility : Visibility
  deriving DecidableEq, Repr

/-- Row of table `likes`. -/
structure Like where
  id : Nat
  liker_id : Nat
  liked_id : Nat
  deriving DecidableEq, Repr

/-- Row of table `matches`. -/
structure Match where
  id : Nat
  user1_id : Nat
  user2_id : Nat
  deriving DecidableEq, Repr

/-- Row of table `conversations`. -/
structure Conversation where
  id : Nat
  user1_id : Nat
  user2_id : Nat
  deriving DecidableEq, Repr

/-- Values that column `notifications.type`, declared
`ENUM('like', 'match', 'message')`, can hold.  `empty` is the error value `''`
that the server stores for a string outside the enumeration when it does not
run in strict SQL mode. -/
inductive NotifKind
  | like | match_ | message | empty
  deriving DecidableEq, Repr

/-- Row of table `notifications`. -/
structure Notification where
  id : Nat
  user_id : Nat
  type : NotifKind
  from_user_id : Option Nat
  message : String
  is_read : Bool
  deriving DecidableEq, Repr

/-- The store; `matches_` is table `matches`.  `strict` is the SQL mode of the
server (strict is the server's default and the repository does not set it),
the `next_*` fields are the `AUTO_INCREMENT` counters. -/
structure DB where
  strict : Bool
  users : List User
  likes : List Like
  matches_ : List Match
  conversations : List Conversation
  notifications : List Notification
  next_like_id : Nat
  next_match_id : Nat
  next_conversation_id : Nat
  next_notification_id : Nat
  deriving DecidableEq, Repr

/-- Reasons for which the server rejects a statement. -/
inductive SqlError
  | foreignKey | duplicateEntry | dataTruncated
  deriving DecidableEq, Repr

/-! ## Statements -/

/-- Some row of `users` has this id (the target of every foreign key). -/
def userExists (db : DB) (id : Nat) : Bool :=
  db.users.any (fun u => u.id == id)

/-- Statement `SELECT ... FROM users WHERE id = ?`. -/
def selectUser (db : DB) (id : Nat) : List User :=
  db.users.filter (fun u => u.id == id)

/-- Statement `SELECT id FROM likes WHERE liker_id = ? AND liked_id = ?`. -/
def selectLike (db : DB) (liker liked : Nat) : List Like :=
  db.likes.filter (fun l => l.liker_id == liker && l.liked_id == liked)

/-- Statement `INSERT INTO likes (liker_id, liked_id) VALUES (?, ?)`, under the
two foreign keys and `UNIQUE KEY unique_like (liker_id, liked_id)`. -/
def insertLike (db : DB) (liker liked : Nat) : Except SqlError DB :=
  if !(userExists db liker && userExists db liked) then .error .foreignKey
  else if !(selectLike db liker liked).isEmpty then .error .duplicateEntry
  else .ok { db with
    likes := db.likes ++ [⟨db.next_like_id, liker, liked⟩]
    next_like_id := db.next_like_id + 1 }

/-- Statement `SELECT id FROM matches WHERE user1_id = ? AND user2_id = ?`. -/
def selectMatch (db : DB) (u1 u2 : Nat) : List Match :=
  db.matches_.filter (fun m => m.user1_id == u1 && m.user2_id == u2)

/-- Statement `SELECT id FROM matches WHERE (user1_id = ? AND user2_id = ?) OR
(user1_id = ? AND user2_id = ?)` with parameters `[a, b, b, a]`: the rows of
the unordered pair. -/
def selectMatchPair (db : DB) (a b : Nat) : List Match :=
  db.matches_.filter (fun m =>
    (m.user1_id == a && m.user2_id == b) || (m.user1_id == b && m.user2_id == a))

/-- Statement `INSERT IGNORE INTO matches (user1_id, user2_id) VALUES (?, ?)`:
with `IGNORE` a row that breaks a foreign key or
`UNIQUE KEY unique_match (user1_id, user2_id)` is dropped with a warning. -/
def insertIgnoreMatch (db : DB) (u1 u2 : Nat) : DB :=
  if !(userExists db u1 && userExists db u2) then db
  else if !(selectMatch db u1 u2).isEmpty then db
  else { db with
    matches_ := db.matches_ ++ [⟨db.next_match_id, u1, u2⟩]
    next_match_id := db.next_match_id + 1 }

/-- Statement `DELETE FROM matches WHERE id = ?`. -/
def deleteMatch (db : DB) (id : Nat) : DB :=
  { db with matches_ := db.matches_.filter (fun m => !(m.id == id)) }

/-- Conversion of a string to column `notifications.type`; `none` when the
string is not one of the three members of the enumeration. -/
def NotifKind.ofString (s : String) : Option NotifKind :=
  if s = "like" then some .like
  else if s = "match" then some .match_
  else if s = "message" then some .message
  else none

/-- Statement `INSERT INTO notifications (user_id, type, from_user_id, message)
VALUES (?, ?, ?, ?)`, under the two foreign keys (`from_user_id` is nullable)
and the enumeration of `type`: a string outside it is rejected in strict mode
and stored as `''` otherwise. -/
def insertNotification (db : DB) (user_id : Nat) (type : String)
    (from_user_id : Option Nat) (message : String) : Except SqlError DB :=
  if !(userExists db user_id && (from_user_id.all (userExists db))) then
    .error .foreignKey
  else
    match NotifKind.ofString type with
    | some k => .ok { db with
        notifications := db.notifications ++
          [⟨db.next_notification_id, user_id, k, from_user_id, message, false⟩]
        next_notification_id := db.next_notification_id + 1 }
    | none =>
      if db.strict then .error .dataTruncated
      else .ok { db with
        notifications := db.notifications ++
          [⟨db.next_notification_id, user_id, .empty, from_user_id, message, false⟩]
        next_notification_id := db.next_notification_id + 1 }

/-- Statement `SELECT id FROM conversations WHERE (user1_id = ? AND user2_id = ?)
OR (user1_id = ? AND user2_id = ?)` with parameters `[a, b, b, a]`. -/
def selectConversation (db : DB) (a b : Nat) : List Conversation :=
  db.conversations.filter (fun c =>
    (c.user1_id == a && c.user2_id == b) || (c.user1_id == b && c.user2_id == a))

/-- Statement `INSERT INTO conversations (user1_id, user2_id) VALUES (?, ?)`,
under the two foreign keys and `UNIQUE KEY unique_conversation
(user1_id, user2_id)`; returns the store and `insertId`. -/
def insertConversation (db : DB) (u1 u2 : Nat) : Except SqlError (DB × Nat) :=
  if !(userExists db u1 && userExists db u2) then .error .foreignKey
  else if db.conversations.any (fun c => c.user1_id == u1 && c.user2_id == u2) then
    .error .duplicateEntry
  else .ok ({ db with
    conversations := db.conversations ++ [⟨db.next_conversation_id, u1, u2⟩]
    next_conversation_id := db.next_conversation_id + 1 }, db.next_conversation_id)

/-! ## Responses -/

/-- Columns `id, first_name, profile_image` of a user, as selected for
`matchedUser`. -/
structure UserSummary where
  id : Nat
  first_name : String
  profile_image : Option String
  deriving DecidableEq, Repr

/-- Projection `SELECT id, first_name, profile_image`. -/
def User.summary (u : User) : UserSummary := ⟨u.id, u.first_name, u.profile_image⟩

/-- JSON bodies of the modelled handlers. -/
inductive Body
  /-- Body `{ success: false, message }`. -/
  | failure (message : String)
  /-- Body `{ success: true, isMatch, matchedUser }`. -/
  | liked (isMatch : Bool) (matchedUser : Option UserSummary)
  /-- Body `{ success: true }`. -/
  | success
  /-- Body `{ success: true, conversationId }`. -/
  | conversation (conversationId : Nat)
  deriving DecidableEq, Repr

/-- HTTP response: status code and JSON body. -/
structure Response where
  status : Nat
  body : Body
  deriving DecidableEq, Repr

/-- Expression `row?.first_name || 'Someone'`: the placeholder stands in when
no row was found or the name is the empty string. -/
def firstNameOrSomeone (row : Option User) : String :=
  match row with
  | some u => if u.first_name = "" then "Someone" else u.first_name
  | none => "Someone"

/-! ## Handlers -/

/-- Handler `router.post('/like/:userId')` of `routes/matches.js`. -/
def like (db : DB) (likerId likedId : Nat) : DB × Response :=
  if likerId = likedId then (db, ⟨400, .failure "Cannot like yourself"⟩)
  else if !(selectLike db likerId likedId).isEmpty then
    (db, ⟨400, .failure "Already liked this user"⟩)
  else
    match insertLike db likerId likedId with
    | .error _ => (db, ⟨500, .failure "Failed to like user"⟩)
    | .ok db1 =>
      if !(selectLike db1 likedId likerId).isEmpty then
        let db2 := insertIgnoreMatch db1 (min likerId likedId) (max likerId likedId)
        let matchedUser := (selectUser db2 likedId).head?.map User.summary
        match insertNotification db2 likedId "match" (some likerId)
            "You have a new match!" with
        | .error _ => (db2, ⟨500, .failure "Failed to like user"⟩)
        | .ok db3 =>
          match insertNotification db3 likerId "match" (some likedId)
              "You have a new match!" with
          | .error _ => (db3, ⟨500, .failure "Failed to like user"⟩)
          | .ok db4 => (db4, ⟨200, .liked true matchedUser⟩)
      else
        let likerFirstName := firstNameOrSomeone (selectUser db1 likerId).head?
        match insertNotification db1 likedId "like" (some likerId)
            (likerFirstName ++ " liked your profile!") with
        | .error _ => (db1, ⟨500, .failure "Failed to like user"⟩)
        | .ok db2 => (db2, ⟨200, .liked false none⟩)

/-- Handler `router.post('/dislike/:userId')` of `routes/matches.js`. -/
def dislike (db : DB) (dislikerId dislikedId : Nat) : DB × Response :=
  if dislikerId = dislikedId then (db, ⟨400, .failure "Cannot dislike yourself"⟩)
  else (db, ⟨200, .success⟩)

/-- Handler `router.post('/unmatch/:userId')` of `routes/matches.js`. -/
def unmatch (db : DB) (userId otherId : Nat) : DB × Response :=
  if userId = otherId then (db, ⟨400, .failure "Cannot unmatch yourself"⟩)
  else
    match selectMatch db (min userId otherId) (max userId otherId) with
    | [] => (db, ⟨400, .failure "No match found"⟩)
    | m :: _ =>
      let db1 := deleteMatch db m.id
      let firstName := firstNameOrSomeone (selectUser db1 userId).head?
      match insertNotification db1 otherId "unmatch" (some userId)
          (firstName ++ " unmatched with you") with
      | .error _ => (db1, ⟨500, .failure "Failed to unmatch user"⟩)
      | .ok db2 => (db2, ⟨200, .success⟩)

/-- Handler `router.post('/start-conversation/:userId')` of
`routes/messages.js`. -/
def startConversation (db : DB) (userId otherUserId : Nat) : DB × Response :=
  if userId = otherUserId then
    (db, ⟨400, .failure "Cannot start conversation with yourself"⟩)
  else
    match selectConversation db userId otherUserId with
    | c :: _ => (db, ⟨200, .conversation c.id⟩)
    | [] =>
      if (selectMatchPair db userId otherUserId).isEmpty then
        (db, ⟨403, .failure "You can only message matched users"⟩)
      else
        match insertConversation db userId otherUserId with
        | .error _ => (db, ⟨500, .failure "Failed to start conversation"⟩)
        | .ok (db1, insertId) => (db1, ⟨201, .conversation insertId⟩)

/-! ## Histories -/

/-- State-changing requests of the core. -/
inductive Op
  | like (likerId likedId : Nat)
  | unmatch (userId otherId : Nat)
  | startConversation (userId otherUserId : Nat)
  deriving DecidableEq, Repr

/-- Store after one request. -/
def Op.run (db : DB) : Op → DB
  | .like a b => (DesireYourLove.like db a b).1
  | .unmatch a b => (DesireYourLove.unmatch db a b).1
  | .startConversation a b => (DesireYourLove.startConversation db a b).1

/-- The empty store over a user table: no like, match, conversation or
notification yet, counters at their first value. -/
def emptyStore (strict : Bool) (users : List User) : DB :=
  { strict := strict, users := users, likes := [], matches_ := [], conversations := [],
    notifications := [], next_like_id := 1, next_match_id := 1,
    next_conversation_id := 1, next_notification_id := 1 }

/-- Store after a history of requests applied one after another. -/
def runOps (db : DB) (ops : List Op) : DB := ops.foldl Op.run db

/-- States reachable from an empty store, over a user table with pairwise
distinct ids, by sequences of `like`, `unmatch` and `startConversation`. -/
inductive Reachable : DB → Prop
  | empty (strict : Bool) (users : List User) (hpk : (users.map User.id).Nodup) :
      Reachable (emptyStore strict users)
  | step {db : DB} (op : Op) : Reachable db → Reachable (op.run db)

/-- There is a Like row from `a` to `b`. -/
def hasLike (db : DB) (a b : Nat) : Bool := !(selectLike db a b).isEmpty

/-- There is a Match row for the unordered pair of `a` and `b`. -/
def hasMatch (db : DB) (a b : Nat) : Bool := !(selectMatchPair db a b).isEmpty

/-- There is a Conversation row for the unordered pair of `a` and `b`. -/
def hasConversation (db : DB) (a b : Nat) : Bool := !(selectConversation db a b).isEmpty

/-- `isMatch` of a response, when its body carries one. -/
def Response.isMatch (r : Response) : Option Bool :=
  match r.body with
  | .liked b _ => some b
  | _ => none

/-- `matchedUser` of a response, when its body carries one that is not null. -/
def Response.matchedUser (r : Response) : Option UserSummary :=
  match r.body with
  | .liked _ u => u
  | _ => none

/-- Constraints that the schema of `createTables` puts on a store: primary
keys, unique keys and foreign keys, with every `AUTO_INCREMENT` counter beyond
the ids in use. -/
structure DB.WF (db : DB) : Prop where
  users_pk : (db.users.map User.id).Nodup
  likes_pk : (db.likes.map Like.id).Nodup
  likes_lt : ∀ l ∈ db.likes, l.id < db.next_like_id
  likes_fk : ∀ l ∈ db.likes, userExists db l.liker_id = true ∧ userExists db l.liked_id = true
  likes_unique : (db.likes.map (fun l => (l.liker_id, l.liked_id))).Nodup
  matches_pk : (db.matches_.map Match.id).Nodup
  matches_lt : ∀ m ∈ db.matches_, m.id < db.next_match_id
  matches_fk : ∀ m ∈ db.matches_,
    userExists db m.user1_id = true ∧ userExists db m.user2_id = true
  matches_unique : (db.matches_.map (fun m => (m.user1_id, m.user2_id))).Nodup
  conversations_pk : (db.conversations.map Conversation.id).Nodup
  conversations_lt : ∀ c ∈ db.conversations, c.id < db.next_conversation_id
  conversations_fk : ∀ c ∈ db.conversations,
    userExists db c.user1_id = true ∧ userExists db c.user2_id = true
  conversations_unique : (db.conversations.map (fun c => (c.user1_id, c.user2_id))).Nodup
  notifications_pk : (db.notifications.map Notification.id).Nodup
  notifications_lt : ∀ n ∈ db.notifications, n.id < db.next_notification_id
  notifications_fk : ∀ n ∈ db.notifications,
    userExists db n.user_id = true ∧ n.from_user_id.all (userExists db) = true

/-- What the handlers keep true on top of the schema: a Like never points at
its own author, a Match row is stored smaller id first and both of its Likes
are there. -/
structure DB.Inv (db : DB) : Prop where
  wf : db.WF
  likes_irrefl : ∀ l ∈ db.likes, l.liker_id ≠ l.liked_id
  matches_lt_pair : ∀ m ∈ db.matches_, m.user1_id < m.user2_id
  matches_likes : ∀ m ∈ db.matches_,
    hasLike db m.user1_id m.user2_id = true ∧ hasLike db m.user2_id m.user1_id = true

/-! ## Read handlers

The read handlers run one `SELECT` and write nothing, so they are functions of
the store alone.  The list of a joined result holds the rows of the answer,
each as often as the answer has it, in the order of the nested loops over the
tables.  The answer itself comes `ORDER BY created_at DESC`; the store keeps no
`created_at`, so the answer is some permutation of the list, and what is stated
of a list below is stated up to the order of its rows. -/

/-- Column `can_view` of the query of `router.get('/:id')` in
`routes/users.js`: `1` for a public profile, for a profile of visibility
`matches` when `EXISTS(SELECT 1 FROM likes l1 JOIN likes l2 ON l1.liker_id =
l2.liked_id AND l1.liked_id = l2.liker_id WHERE l1.liker_id = ? AND l1.liked_id
= u.id)`, and `0` otherwise. -/
def canView (db : DB) (currentUserId : Nat) (u : User) : Bool :=
  match u.profile_visibility with
  | .public_ => true
  | .matches_ =>
    db.likes.any (fun l1 => db.likes.any (fun l2 =>
      (l1.liker_id == l2.liked_id && l1.liked_id == l2.liker_id) &&
      (l1.liker_id == currentUserId && l1.liked_id == u.id)))
  | .private_ => false

/-- Answer of `router.get('/:id')`. -/
inductive ProfileReply
  /-- Status 200 with body `{ success: true, user }`. -/
  | user (u : User)
  /-- Body `{ success: false, message }` under the given status. -/
  | failure (status : Nat) (message : String)
  deriving DecidableEq, Repr

/-- Handler `router.get('/:id')` of `routes/users.js` (get user by id). -/
def getUserById (db : DB) (currentUserId userId : Nat) : ProfileReply :=
  if userId = currentUserId then .failure 400 "Cannot view your own profile this way"
  else
    match selectUser db userId with
    | [] => .failure 404 "User not found"
    | u :: _ =>
      if !(canView db currentUserId u) then
        .failure 403
          "This profile is private. Try liking them to create a match and unlock their full profile!"
      else .user u

/-- Handler `router.get('/my-matches')` of `routes/matches.js`: `FROM matches m
JOIN users u ON (u.id = m.user1_id OR u.id = m.user2_id) WHERE (m.user1_id = ?
OR m.user2_id = ?) AND u.id != ?`; a result row is the user columns. -/
def listMatches (db : DB) (userId : Nat) : List User :=
  db.matches_.flatMap (fun m =>
    (db.users.filter (fun u => u.id == m.user1_id || u.id == m.user2_id)).filter
      (fun u => (m.user1_id == userId || m.user2_id == userId) && !(u.id == userId)))

/-- Result row of `router.get('/my-likes')`: the user columns and `matched`. -/
structure SentLikeRow where
  user : User
  matched : Bool
  deriving DecidableEq, Repr

/-- Handler `router.get('/my-likes')` of `routes/matches.js`: `FROM likes l
JOIN users u ON u.id = l.liked_id LEFT JOIN matches m ON (m.user1_id =
LEAST(l.liker_id, l.liked_id) AND m.user2_id = GREATEST(l.liker_id,
l.liked_id)) WHERE l.liker_id = ?`, with `matched` set when `m.id IS NOT NULL`.
A left join gives one row per partner row and one row with `NULL`s when there
is no partner.  The rows of the answer; its `ORDER BY l.created_at DESC` is
left open. -/
def listSentLikes (db : DB) (userId : Nat) : List SentLikeRow :=
  (db.likes.filter (fun l => l.liker_id == userId)).flatMap (fun l =>
    (db.users.filter (fun u => u.id == l.liked_id)).flatMap (fun u =>
      match selectMatch db (min l.liker_id l.liked_id) (max l.liker_id l.liked_id) with
      | [] => [⟨u, false⟩]
      | m :: ms => (m :: ms).map (fun _ => ⟨u, true⟩)))

/-- Result row of `router.get('/likes-me')`: the user columns and
`liked_back`. -/
structure ReceivedLikeRow where
  user : User
  liked_back : Bool
  deriving DecidableEq, Repr

/-- Handler `router.get('/likes-me')` of `routes/matches.js`: `FROM likes l
JOIN users u ON u.id = l.liker_id WHERE l.liked_id = ?`, with `liked_back` the
value of `EXISTS(SELECT 1 FROM likes WHERE liker_id = ? AND liked_id = u.id)`.
The rows of the answer; its `ORDER BY l.created_at DESC` is left open. -/
def listReceivedLikes (db : DB) (userId : Nat) : List ReceivedLikeRow :=
  (db.likes.filter (fun l => l.liked_id == userId)).flatMap (fun l =>
    (db.users.filter (fun u => u.id == l.liker_id)).map (fun u =>
      ⟨u, db.likes.any (fun k => k.liker_id == userId && k.liked_id == u.id)⟩))

/-! ## Failing storage

A statement can also throw for a reason that the schema does not explain (lost
connection, timeout).  `fault k` says that statement number `k` of the request,
counted from `0` in the order of execution, throws in that way; a statement
that throws writes nothing. -/

/-- Handler `router.post('/like/:userId')` under a plan of storage faults.
Statements: `0` the duplicate check, `1` the Like insert, `2` the reciprocal
check; then with a reciprocal Like `3` the Match insert, `4` the user lookup,
`5` and `6` the two notification inserts, and without one `3` the name lookup
and `4` the notification insert. -/
def likeWith (fault : Nat → Bool) (db : DB) (likerId likedId : Nat) : DB × Response :=
  if likerId = likedId then (db, ⟨400, .failure "Cannot like yourself"⟩)
  else if fault 0 then (db, ⟨500, .failure "Failed to like user"⟩)
  else if !(selectLike db likerId likedId).isEmpty then
    (db, ⟨400, .failure "Already liked this user"⟩)
  else if fault 1 then (db, ⟨500, .failure "Failed to like user"⟩)
  else
    match insertLike db likerId likedId with
    | .error _ => (db, ⟨500, .failure "Failed to like user"⟩)
    | .ok db1 =>
      if fault 2 then (db1, ⟨500, .failure "Failed to like user"⟩)
      else if !(selectLike db1 likedId likerId).isEmpty then
        if fault 3 then (db1, ⟨500, .failure "Failed to like user"⟩)
        else
          let db2 := insertIgnoreMatch db1 (min likerId likedId) (max likerId likedId)
          if fault 4 then (db2, ⟨500, .failure "Failed to like user"⟩)
          else
            let matchedUser := (selectUser db2 likedId).head?.map User.summary
            if fault 5 then (db2, ⟨500, .failure "Failed to like user"⟩)
            else
              match insertNotification db2 likedId "match" (some likerId)
                  "You have a new match!" with
              | .error _ => (db2, ⟨500, .failure "Failed to like user"⟩)
              | .ok db3 =>
                if fault 6 then (db3, ⟨500, .failure "Failed to like user"⟩)
                else
                  match insertNotification db3 likerId "match" (some likedId)
                      "You have a new match!" with
                  | .error _ => (db3, ⟨500, .failure "Failed to like user"⟩)
                  | .ok db4 => (db4, ⟨200, .liked true matchedUser⟩)
      else
        if fault 3 then (db1, ⟨500, .failure "Failed to like user"⟩)
        else
          let likerFirstName := firstNameOrSomeone (selectUser db1 likerId).head?
          if fault 4 then (db1, ⟨500, .failure "Failed to like user"⟩)
          else
            match insertNotification db1 likedId "like" (some likerId)
                (likerFirstName ++ " liked your profile!") with
            | .error _ => (db1, ⟨500, .failure "Failed to like user"⟩)
            | .ok db2 => (db2, ⟨200, .liked false none⟩)

/-! ## Notification read flags (`routes/notifications.js`) -/

/-- Answer `{ success: true, message }` of the two read-flag handlers. -/
structure Ack where
  status : Nat
  message : String
  deriving DecidableEq, Repr

/-- Handler `router.put('/:notificationId/read')`: `UPDATE notifications SET
is_read = 1 WHERE id = ? AND user_id = ?`, answered with status 200 whatever
the number of rows met. -/
def markRead (db : DB) (userId notificationId : Nat) : DB × Ack :=
  ({ db with
      notifications := db.notifications.map (fun n =>
        if n.id == notificationId && n.user_id == userId then { n with is_read := true }
        else n) },
   ⟨200, "Notification marked as read"⟩)

/-- Handler `router.put('/read-all')`: `UPDATE notifications SET is_read = 1
WHERE user_id = ?`. -/
def markAllRead (db : DB) (userId : Nat) : DB × Ack :=
  ({ db with
      notifications := db.notifications.map (fun n =>
        if n.user_id == userId then { n with is_read := true } else n) },
   ⟨200, "All notifications marked as read"⟩)

/-- Handler `router.get('/unread-count')`: `SELECT COUNT(*) FROM notifications
WHERE user_id = ? AND is_read = 0`. -/
def unreadCount (db : DB) (userId : Nat) : Nat :=
  (db.notifications.filter (fun n => n.user_id == userId && n.is_read == false)).length

/-! ## Statement by statement

The `like` handler as a machine that executes one statement per step, for two
requests that run at the same time on the pool: every `await db.execute` is one
step, and the steps of the two requests interleave in any order. -/

/-- Point of a running `like` request: the statement it is about to execute,
with the local values it holds, or the response it has sent. -/
inductive LikePoint
  /-- Before `SELECT id FROM likes` for the Like to add. -/
  | checkDuplicate
  /-- Before `INSERT INTO likes`. -/
  | insertLike
  /-- Before `SELECT id FROM likes` for the reverse Like. -/
  | checkReciprocal
  /-- Before `INSERT IGNORE INTO matches`. -/
  | insertMatch
  /-- Before `SELECT id, first_name, profile_image FROM users`. -/
  | selectMatchedUser
  /-- Before the notification insert for the liked user. -/
  | notifyLiked (matchedUser : Option UserSummary)
  /-- Before the notification insert for the liker. -/
  | notifyLiker (matchedUser : Option UserSummary)
  /-- Before `SELECT first_name FROM users`. -/
  | selectLiker
  /-- Before the insert of the `like` notification. -/
  | notifyLike (likerFirstName : String)
  /-- Response sent. -/
  | done (r : Response)
  deriving DecidableEq, Repr

/-- Start of a `like` request: the self check runs before any statement. -/
def likeStart (likerId likedId : Nat) : LikePoint :=
  if likerId = likedId then .done ⟨400, .failure "Cannot like yourself"⟩
  else .checkDuplicate

/-- One statement of a `like` request on the store as it is at that moment. -/
def likeStep (likerId likedId : Nat) (db : DB) : LikePoint → DB × LikePoint
  | .checkDuplicate =>
    if !(selectLike db likerId likedId).isEmpty then
      (db, .done ⟨400, .failure "Already liked this user"⟩)
    else (db, .insertLike)
  | .insertLike =>
    match insertLike db likerId likedId with
    | .error _ => (db, .done ⟨500, .failure "Failed to like user"⟩)
    | .ok db1 => (db1, .checkReciprocal)
  | .checkReciprocal =>
    if !(selectLike db likedId likerId).isEmpty then (db, .insertMatch)
    else (db, .selectLiker)
  | .insertMatch =>
    (insertIgnoreMatch db (min likerId likedId) (max likerId likedId), .selectMatchedUser)
  | .selectMatchedUser =>
    (db, .notifyLiked ((selectUser db likedId).head?.map User.summary))
  | .notifyLiked matchedUser =>
    match insertNotification db likedId "match" (some likerId) "You have a new match!" with
    | .error _ => (db, .done ⟨500, .failure "Failed to like user"⟩)
    | .ok db1 => (db1, .notifyLiker matchedUser)
  | .notifyLiker matchedUser =>
    match insertNotification db likerId "match" (some likedId) "You have a new match!" with
    | .error _ => (db, .done ⟨500, .failure "Failed to like user"⟩)
    | .ok db1 => (db1, .done ⟨200, .liked true matchedUser⟩)
  | .selectLiker =>
    (db, .notifyLike (firstNameOrSomeone (selectUser db likerId).head?))
  | .notifyLike likerFirstName =>
    match insertNotification db likedId "like" (some likerId)
        (likerFirstName ++ " liked your profile!") with
    | .error _ => (db, .done ⟨500, .failure "Failed to like user"⟩)
    | .ok db1 => (db1, .done ⟨200, .liked false none⟩)
  | .done r => (db, .done r)

/-- Bound on the number of statements that a request at this point still
executes before its response. -/
def LikePoint.rank : LikePoint → Nat
  | .checkDuplicate => 7
  | .insertLike => 6
  | .checkReciprocal => 5
  | .insertMatch => 4
  | .selectMatchedUser => 3
  | .notifyLiked _ => 2
  | .notifyLiker _ => 1
  | .selectLiker => 2
  | .notifyLike _ => 1
  | .done _ => 0

/-- A `like` request run alone for a number of steps. -/
def likeRun (likerId likedId : Nat) : Nat → DB × LikePoint → DB × LikePoint
  | 0, s => s
  | n + 1, s => likeRun likerId likedId n (likeStep likerId likedId s.1 s.2)

/-- Two requests in flight on one store: `like(a,b)` and `like(b,a)`. -/
structure Race where
  db : DB
  first : LikePoint
  second : LikePoint
  deriving DecidableEq, Repr

/-- One step of the race: the first request moves when `turn` is true, the
second one otherwise. -/
def raceStep (a b : Nat) (s : Race) (turn : Bool) : Race :=
  if turn then
    { s with db := (likeStep a b s.db s.first).1, first := (likeStep a b s.db s.first).2 }
  else
    { s with db := (likeStep b a s.db s.second).1, second := (likeStep b a s.db s.second).2 }

/-- The race of `like(a,b)` and `like(b,a)` under a schedule of turns. -/
def race (a b : Nat) (db : DB) (schedule : List Bool) : Race :=
  schedule.foldl (raceStep a b) ⟨db, likeStart a b, likeStart b a⟩

/-- Both requests have sent their response. -/
def Race.finished (s : Race) : Bool :=
  (match s.first with | .done _ => true | _ => false) &&
  (match s.second with | .done _ => true | _ => false)

/-! ## Dispatch in the users router (`routes/users.js`)

Express offers a request to the routes of a router in the order of their
registration; the first route whose method and path accept the request handles
it, and the handlers below all answer themselves without passing on. -/

/-- HTTP methods used by the users router. -/
inductive Method
  | get | put | delete
  deriving DecidableEq, Repr

/-- Route paths of the users router: `'/'`, a literal segment such as
`'/profile'`, or one parameter such as `'/:id'`. -/
inductive RoutePath
  | root
  | literal (segment : String)
  | param (name : String)
  deriving DecidableEq, Repr

/-- Handlers of the users router, by the comment that heads each. -/
inductive UsersHandler
  | getAllUsers | getUserProfile | updateUserProfile | getUserById
  | getPotentialMatches | updateUserPassword | deleteUserAccount
  deriving DecidableEq, Repr

/-- The routes of `routes/users.js` in the order in which the file registers
them. -/
def usersRouter : List (Method × RoutePath × UsersHandler) :=
  [ (.get, .root, .getAllUsers),
    (.get, .literal "profile", .getUserProfile),
    (.put, .literal "profile", .updateUserProfile),
    (.get, .param "id", .getUserById),
    (.get, .literal "matches", .getPotentialMatches),
    (.put, .literal "password", .updateUserPassword),
    (.delete, .literal "account", .deleteUserAccount) ]

/-- A route path accepts a request path, given by its segments: `'/'` the empty
path, a literal its own segment, a parameter any one non-empty segment. -/
def RoutePath.accepts : RoutePath → List String → Bool
  | .root, [] => true
  | .literal s, [x] => x == s
  | .param _, [x] => x != ""
  | _, _ => false

/-- The handler that answers a request: the first registered route that
accepts it. -/
def dispatch (router : List (Method × RoutePath × UsersHandler)) (m : Method)
    (path : List String) : Option UsersHandler :=
  (router.find? (fun r => r.1 == m && r.2.1.accepts path)).map (fun r => r.2.2)

/-! ## Example stores -/

/-- First example user. -/
def ada : User := ⟨1, "Ada", none, .public_⟩

/-- Second example user. -/
def bob : User := ⟨2, "Bob", some "bob.png", .matches_⟩

/-- Example store: users 1 and 2, nothing else, strict SQL mode. -/
def store0 : DB := emptyStore true [ada, bob]

/-- Example store: user 1 has liked user 2. -/
def storeLiked : DB := (like store0 1 2).1

/-- Example store: users 1 and 2 have liked each other. -/
def storeMatched : DB := (like storeLiked 2 1).1

/-- Example store: the matched users 1 and 2 have a conversation. -/
def storeConversing : DB := (startConversation storeMatched 1 2).1

/-- Example store: users 1 and 2 were matched and user 1 has unmatched. -/
def storeUnmatched : DB := (unmatch storeMatched 1 2).1

/-- Example store: users 1 and 2 had a conversation and user 1 has
unmatched. -/
def storeConversingUnmatched : DB := (unmatch storeConversing 1 2).1

/-- Schedule in which the two requests alternate, statement by statement. -/
def alternating : List Bool :=
  [true, false, true, false, true, false, true, false, true, false, true, false, true, false]

/-! ## Statements: basic facts -/

theorem ofString_like : NotifKind.ofString "like" = some .like := by decide

theorem ofString_match : NotifKind.ofString "match" = some .match_ := by decide

theorem ofString_unmatch : NotifKind.ofString "unmatch" = none := by decide

theorem selectLike_append (db : DB) (l : Like) (a b : Nat) (n : Nat) :
    selectLike { db with likes := db.likes ++ [l], next_like_id := n } a b =
      selectLike db a b ++ (if l.liker_id = a ∧ l.liked_id = b then [l] else []) := by
  simp [selectLike, List.filter_append, List.filter_cons]

theorem insertIgnoreMatch_users (db : DB) (a b : Nat) :
    (insertIgnoreMatch db a b).users = db.users := by
  unfold insertIgnoreMatch; split
  · rfl
  · split <;> rfl

theorem insertIgnoreMatch_likes (db : DB) (a b : Nat) :
    (insertIgnoreMatch db a b).likes = db.likes := by
  unfold insertIgnoreMatch; split
  · rfl
  · split <;> rfl

theorem insertIgnoreMatch_notifications (db : DB) (a b : Nat) :
    (insertIgnoreMatch db a b).notifications = db.notifications := by
  unfold insertIgnoreMatch; split
  · rfl
  · split <;> rfl

theorem insertIgnoreMatch_next_notification_id (db : DB) (a b : Nat) :
    (insertIgnoreMatch db a b).next_notification_id = db.next_notification_id := by
  unfold insertIgnoreMatch; split
  · rfl
  · split <;> rfl

theorem selectUser_head_of_exists (db : DB) (a : Nat) (h : userExists db a = true) :
    ∃ u, (selectUser db a).head? = some u := by
  simp only [userExists, List.any_eq_true] at h
  obtain ⟨u, hu, hid⟩ := h
  have hmem : u ∈ selectUser db a := by
    simp only [selectUser, List.mem_filter]; exact ⟨hu, hid⟩
  cases hs : selectUser db a with
  | nil => rw [hs] at hmem; cases hmem
  | cons v t => exact ⟨v, rfl⟩

theorem firstName_infix (u : User) (s : String) :
    u.first_name.data <:+: (firstNameOrSomeone (some u) ++ s).data := by
  simp only [firstNameOrSomeone]
  split
  · rename_i h; rw [h]; exact List.nil_infix
  · rw [String.data_append]; exact List.infix_append' [] _ _

/-- A row selected by the ordered pair `(min a b, max a b)` is a row of the
unordered pair. -/
theorem selectMatch_min_max_eq_nil (db : DB) (a b : Nat)
    (h : selectMatchPair db a b = []) : selectMatch db (min a b) (max a b) = [] := by
  simp only [selectMatchPair, selectMatch, List.filter_eq_nil_iff] at h ⊢
  intro m hm hsel
  apply h m hm
  simp only [Bool.and_eq_true, beq_iff_eq, Bool.or_eq_true] at hsel ⊢
  rcases Nat.le_total a b with hab | hab
  · rw [Nat.min_eq_left hab, Nat.max_eq_right hab] at hsel; exact Or.inl hsel
  · rw [Nat.min_eq_right hab, Nat.max_eq_left hab] at hsel; exact Or.inr hsel

/-! ## The two successful branches of `like` -/

/-- The plain branch of `like`: the Like is new and there is no reverse Like. -/
theorem like_plain (db : DB) (liker liked : Nat) (u : User)
    (hliker : userExists db liker = true) (hliked : userExists db liked = true)
    (hne : liker ≠ liked)
    (h1 : hasLike db liker liked = false) (h2 : hasLike db liked liker = false)
    (hu : (selectUser db liker).head? = some u) :
    like db liker liked =
      ({ db with
          likes := db.likes ++ [⟨db.next_like_id, liker, liked⟩]
          next_like_id := db.next_like_id + 1
          notifications := db.notifications ++
            [⟨db.next_notification_id, liked, .like, some liker,
              firstNameOrSomeone (some u) ++ " liked your profile!", false⟩]
          next_notification_id := db.next_notification_id + 1 },
       ⟨200, .liked false none⟩) := by
  simp only [hasLike, Bool.not_eq_false', List.isEmpty_eq_true] at h1 h2
  simp only [userExists] at hliker hliked
  simp only [selectUser] at hu
  simp [like, hne, h1, insertLike, userExists, hliker, hliked, selectLike_append, h2,
    insertNotification, ofString_like, selectUser, hu]

/-- The reciprocal branch of `like`: the Like is new and the reverse Like is
there. -/
theorem like_mutual (db : DB) (liker liked : Nat)
    (hliker : userExists db liker = true) (hliked : userExists db liked = true)
    (hne : liker ≠ liked)
    (h1 : hasLike db liker liked = false) (h2 : hasLike db liked liker = true) :
    like db liker liked =
      ({ insertIgnoreMatch { db with
            likes := db.likes ++ [⟨db.next_like_id, liker, liked⟩]
            next_like_id := db.next_like_id + 1 } (min liker liked) (max liker liked) with
          notifications := db.notifications ++
            [⟨db.next_notification_id, liked, .match_, some liker,
              "You have a new match!", false⟩,
             ⟨db.next_notification_id + 1, liker, .match_, some liked,
              "You have a new match!", false⟩]
          next_notification_id := db.next_notification_id + 1 + 1 },
       ⟨200, .liked true ((selectUser db liked).head?.map User.summary)⟩) := by
  simp only [hasLike, Bool.not_eq_false', Bool.not_eq_true', List.isEmpty_eq_true] at h1 h2
  have h2' : ¬ selectLike db liked liker = [] := by
    intro h; rw [h] at h2; simp at h2
  simp only [userExists] at hliker hliked
  simp [like, hne, h1, insertLike, userExists, hliker, hliked, selectLike_append, h2',
    insertNotification, ofString_match, selectUser, insertIgnoreMatch_users,
    insertIgnoreMatch_notifications, insertIgnoreMatch_next_notification_id]

/-- A repeated Like is turned down before anything is written. -/
theorem like_again (db : DB) (a b : Nat) (hne : a ≠ b) (h : hasLike db a b = true) :
    like db a b = (db, ⟨400, .failure "Already liked this user"⟩) := by
  simp only [hasLike] at h
  simp [like, hne, h]

/-! ## Statements: what a successful write did -/

theorem insertLike_ok_inv {db db1 : DB} {a b : Nat} (h : insertLike db a b = .ok db1) :
    db1 = { db with
      likes := db.likes ++ [⟨db.next_like_id, a, b⟩]
      next_like_id := db.next_like_id + 1 } ∧
    userExists db a = true ∧ userExists db b = true ∧ selectLike db a b = [] := by
  unfold insertLike at h
  split at h
  · cases h
  · split at h
    · cases h
    · rename_i h1 h2
      have h1 : userExists db a = true ∧ userExists db b = true := by simpa using h1
      have h2 : selectLike db a b = [] := by simpa using h2
      injection h with h
      exact ⟨h.symm, h1.1, h1.2, h2⟩

theorem insertNotification_ok_inv {db db1 : DB} {u : Nat} {t : String} {f : Option Nat}
    {msg : String} (h : insertNotification db u t f msg = .ok db1) :
    ∃ k, db1 = { db with
        notifications := db.notifications ++ [⟨db.next_notification_id, u, k, f, msg, false⟩]
        next_notification_id := db.next_notification_id + 1 } ∧
      userExists db u = true ∧ f.all (userExists db) = true ∧
      (NotifKind.ofString t = some k ∨
        (NotifKind.ofString t = none ∧ db.strict = false ∧ k = .empty)) := by
  unfold insertNotification at h
  split at h
  · cases h
  · rename_i h1
    have h1 : userExists db u = true ∧ f.all (userExists db) = true := by simpa using h1
    split at h
    · rename_i k hk
      injection h with h
      exact ⟨k, h.symm, h1.1, h1.2, Or.inl hk⟩
    · rename_i hk
      split at h
      · cases h
      · rename_i hs
        injection h with h
        exact ⟨.empty, h.symm, h1.1, h1.2, Or.inr ⟨hk, by simpa using hs, rfl⟩⟩

theorem insertConversation_ok_inv {db db1 : DB} {a b n : Nat}
    (h : insertConversation db a b = .ok (db1, n)) :
    db1 = { db with
      conversations := db.conversations ++ [⟨db.next_conversation_id, a, b⟩]
      next_conversation_id := db.next_conversation_id + 1 } ∧
    n = db.next_conversation_id ∧
    userExists db a = true ∧ userExists db b = true ∧
    ∀ c ∈ db.conversations, ¬ (c.user1_id = a ∧ c.user2_id = b) := by
  unfold insertConversation at h
  split at h
  · cases h
  · split at h
    · cases h
    · rename_i h1 h2
      have h1 : userExists db a = true ∧ userExists db b = true := by simpa using h1
      injection h with h
      injection h with h3 h4
      refine ⟨h3.symm, h4.symm, h1.1, h1.2, ?_⟩
      intro c hc hcc
      apply h2
      simp only [List.any_eq_true, Bool.and_eq_true, beq_iff_eq]
      exact ⟨c, hc, hcc⟩

/-! ## Case analysis of the handlers -/

/-- Every run of `like` ends in one of eight ways. -/
theorem like_cases (db : DB) (a b : Nat) (P : DB × Response → Prop)
    (hself : a = b → P (db, ⟨400, .failure "Cannot like yourself"⟩))
    (hdup : a ≠ b → hasLike db a b = true →
      P (db, ⟨400, .failure "Already liked this user"⟩))
    (hins : ∀ e, a ≠ b → hasLike db a b = false → insertLike db a b = .error e →
      P (db, ⟨500, .failure "Failed to like user"⟩))
    (hm1 : ∀ db1 e, a ≠ b → hasLike db a b = false → insertLike db a b = .ok db1 →
      hasLike db1 b a = true →
      insertNotification (insertIgnoreMatch db1 (min a b) (max a b)) b "match" (some a)
        "You have a new match!" = .error e →
      P (insertIgnoreMatch db1 (min a b) (max a b), ⟨500, .failure "Failed to like user"⟩))
    (hm2 : ∀ db1 db3 e, a ≠ b → hasLike db a b = false → insertLike db a b = .ok db1 →
      hasLike db1 b a = true →
      insertNotification (insertIgnoreMatch db1 (min a b) (max a b)) b "match" (some a)
        "You have a new match!" = .ok db3 →
      insertNotification db3 a "match" (some b) "You have a new match!" = .error e →
      P (db3, ⟨500, .failure "Failed to like user"⟩))
    (hm3 : ∀ db1 db3 db4, a ≠ b → hasLike db a b = false → insertLike db a b = .ok db1 →
      hasLike db1 b a = true →
      insertNotification (insertIgnoreMatch db1 (min a b) (max a b)) b "match" (some a)
        "You have a new match!" = .ok db3 →
      insertNotification db3 a "match" (some b) "You have a new match!" = .ok db4 →
      P (db4, ⟨200, .liked true
        ((selectUser (insertIgnoreMatch db1 (min a b) (max a b)) b).head?.map User.summary)⟩))
    (hl1 : ∀ db1 e, a ≠ b → hasLike db a b = false → insertLike db a b = .ok db1 →
      hasLike db1 b a = false →
      insertNotification db1 b "like" (some a)
        (firstNameOrSomeone (selectUser db1 a).head? ++ " liked your profile!") = .error e →
      P (db1, ⟨500, .failure "Failed to like user"⟩))
    (hl2 : ∀ db1 db2, a ≠ b → hasLike db a b = false → insertLike db a b = .ok db1 →
      hasLike db1 b a = false →
      insertNotification db1 b "like" (some a)
        (firstNameOrSomeone (selectUser db1 a).head? ++ " liked your profile!") = .ok db2 →
      P (db2, ⟨200, .liked false none⟩)) :
    P (like db a b) := by
  unfold like
  by_cases hab : a = b
  · rw [if_pos hab]; exact hself hab
  rw [if_neg hab]
  by_cases hl : hasLike db a b = true
  · have hl0 := hl
    unfold hasLike at hl
    rw [if_pos hl]; exact hdup hab hl0
  have hl0 : hasLike db a b = false := by simpa using hl
  unfold hasLike at hl
  rw [if_neg hl]
  cases h1 : insertLike db a b with
  | error e => exact hins e hab hl0 h1
  | ok db1 =>
    simp only
    by_cases hr : hasLike db1 b a = true
    · have hr0 := hr
      unfold hasLike at hr
      rw [if_pos hr]
      cases h2 : insertNotification (insertIgnoreMatch db1 (min a b) (max a b)) b "match"
          (some a) "You have a new match!" with
      | error e => exact hm1 db1 e hab hl0 h1 hr0 h2
      | ok db3 =>
        simp only
        cases h3 : insertNotification db3 a "match" (some b) "You have a new match!" with
        | error e => exact hm2 db1 db3 e hab hl0 h1 hr0 h2 h3
        | ok db4 => exact hm3 db1 db3 db4 hab hl0 h1 hr0 h2 h3
    · have hr0 : hasLike db1 b a = false := by simpa using hr
      unfold hasLike at hr
      rw [if_neg hr]
      cases h2 : insertNotification db1 b "like" (some a)
          (firstNameOrSomeone (selectUser db1 a).head? ++ " liked your profile!") with
      | error e => exact hl1 db1 e hab hl0 h1 hr0 h2
      | ok db2 => exact hl2 db1 db2 hab hl0 h1 hr0 h2

/-- Every run of `unmatch` ends in one of four ways. -/
theorem unmatch_cases (db : DB) (a b : Nat) (P : DB × Response → Prop)
    (hself : a = b → P (db, ⟨400, .failure "Cannot unmatch yourself"⟩))
    (hnone : a ≠ b → selectMatch db (min a b) (max a b) = [] →
      P (db, ⟨400, .failure "No match found"⟩))
    (herr : ∀ m ms e, a ≠ b → selectMatch db (min a b) (max a b) = m :: ms →
      insertNotification (deleteMatch db m.id) b "unmatch" (some a)
        (firstNameOrSomeone (selectUser (deleteMatch db m.id) a).head? ++
          " unmatched with you") = .error e →
      P (deleteMatch db m.id, ⟨500, .failure "Failed to unmatch user"⟩))
    (hok : ∀ m ms db2, a ≠ b → selectMatch db (min a b) (max a b) = m :: ms →
      insertNotification (deleteMatch db m.id) b "unmatch" (some a)
        (firstNameOrSomeone (selectUser (deleteMatch db m.id) a).head? ++
          " unmatched with you") = .ok db2 →
      P (db2, ⟨200, .success⟩)) :
    P (unmatch db a b) := by
  unfold unmatch
  by_cases hab : a = b
  · rw [if_pos hab]; exact hself hab
  rw [if_neg hab]
  cases hs : selectMatch db (min a b) (max a b) with
  | nil => exact hnone hab hs
  | cons m ms =>
    simp only
    cases h2 : insertNotification (deleteMatch db m.id) b "unmatch" (some a)
        (firstNameOrSomeone (selectUser (deleteMatch db m.id) a).head? ++
          " unmatched with you") with
    | error e => exact herr m ms e hab hs h2
    | ok db2 => exact hok m ms db2 hab hs h2

/-- Every run of `startConversation` ends in one of five ways. -/
theorem startConversation_cases (db : DB) (a b : Nat) (P : DB × Response → Prop)
    (hself : a = b →
      P (db, ⟨400, .failure "Cannot start conversation with yourself"⟩))
    (hold : ∀ c cs, a ≠ b → selectConversation db a b = c :: cs →
      P (db, ⟨200, .conversation c.id⟩))
    (hgate : a ≠ b → selectConversation db a b = [] → hasMatch db a b = false →
      P (db, ⟨403, .failure "You can only message matched users"⟩))
    (herr : ∀ e, a ≠ b → selectConversation db a b = [] → hasMatch db a b = true →
      insertConversation db a b = .error e →
      P (db, ⟨500, .failure "Failed to start conversation"⟩))
    (hnew : ∀ db1 n, a ≠ b → selectConversation db a b = [] → hasMatch db a b = true →
      insertConversation db a b = .ok (db1, n) →
      P (db1, ⟨201, .conversation n⟩)) :
    P (startConversation db a b) := by
  unfold startConversation
  by_cases hab : a = b
  · rw [if_pos hab]; exact hself hab
  rw [if_neg hab]
  cases hs : selectConversation db a b with
  | cons c cs => exact hold c cs hab hs
  | nil =>
    simp only
    by_cases hm : (selectMatchPair db a b).isEmpty = true
    · rw [if_pos hm]
      exact hgate hab hs (by simp [hasMatch, hm])
    · rw [if_neg hm]
      have hm0 : hasMatch db a b = true := by simpa [hasMatch] using hm
      cases hi : insertConversation db a b with
      | error e => exact herr e hab hs hm0 hi
      | ok r =>
        obtain ⟨db1, n⟩ := r
        exact hnew db1 n hab hs hm0 hi

/-! ## Like and like back -/

theorem userExists_min (db : DB) (a b : Nat) (ha : userExists db a = true)
    (hb : userExists db b = true) : userExists db (min a b) = true := by
  rcases Nat.le_total a b with h | h
  · rw [Nat.min_eq_left h]; exact ha
  · rw [Nat.min_eq_right h]; exact hb

theorem userExists_max (db : DB) (a b : Nat) (ha : userExists db a = true)
    (hb : userExists db b = true) : userExists db (max a b) = true := by
  rcases Nat.le_total a b with h | h
  · rw [Nat.max_eq_right h]; exact hb
  · rw [Nat.max_eq_left h]; exact ha

theorem selectMatchPair_comm (db : DB) (a b : Nat) :
    selectMatchPair db a b = selectMatchPair db b a := by
  unfold selectMatchPair
  congr 1
  funext m
  exact Bool.or_comm _ _

theorem hasMatch_comm (db : DB) (a b : Nat) : hasMatch db a b = hasMatch db b a := by
  unfold hasMatch; rw [selectMatchPair_comm]

theorem selectLike_snoc (db db1 : DB) (l : Like) (h : db1.likes = db.likes ++ [l])
    (a b : Nat) :
    selectLike db1 a b =
      selectLike db a b ++ (if l.liker_id = a ∧ l.liked_id = b then [l] else []) := by
  simp [selectLike, h, List.filter_append, List.filter_cons]

theorem selectLike_congr (db db1 : DB) (h : db1.likes = db.likes) (a b : Nat) :
    selectLike db1 a b = selectLike db a b := by
  simp [selectLike, h]

/-- A first Like answered by the reverse Like, on a pair without Match row. -/
theorem like_like_back (db : DB) (a b : Nat)
    (ha : userExists db a = true) (hb : userExists db b = true) (hne : a ≠ b)
    (h1 : hasLike db a b = false) (h2 : hasLike db b a = false)
    (hm : hasMatch db a b = false) :
    ∃ msg,
      (like (like db a b).1 b a).1.matches_ =
        db.matches_ ++ [⟨db.next_match_id, min b a, max b a⟩] ∧
      (like (like db a b).1 b a).1.notifications = db.notifications ++
        [⟨db.next_notification_id, b, .like, some a, msg, false⟩,
         ⟨db.next_notification_id + 1, a, .match_, some b, "You have a new match!", false⟩,
         ⟨db.next_notification_id + 1 + 1, b, .match_, some a, "You have a new match!", false⟩] := by
  obtain ⟨u, hu⟩ := selectUser_head_of_exists db a ha
  refine ⟨firstNameOrSomeone (some u) ++ " liked your profile!", ?_⟩
  rw [like_plain db a b u ha hb hne h1 h2 hu]
  have hsm : selectMatch db (min b a) (max b a) = [] := by
    apply selectMatch_min_max_eq_nil
    rw [selectMatchPair_comm]
    simpa [hasMatch] using hm
  have hmin := userExists_min db b a hb ha
  have hmax := userExists_max db b a hb ha
  simp only [hasLike, Bool.not_eq_false', List.isEmpty_eq_true] at h1 h2
  rw [like_mutual _ b a (by simpa [userExists] using hb) (by simpa [userExists] using ha)
    (Ne.symm hne)
    (by unfold hasLike; rw [selectLike_snoc db _ ⟨db.next_like_id, a, b⟩ rfl]; simp [h2, hne])
    (by unfold hasLike; rw [selectLike_snoc db _ ⟨db.next_like_id, a, b⟩ rfl]; simp [h1])]
  simp only [userExists, selectMatch] at hmin hmax hsm
  simp [insertIgnoreMatch, userExists, hmin, hmax, selectMatch, hsm]

theorem selectMatchPair_snoc_min_max (db db1 : DB) (n a b : Nat)
    (h : db1.matches_ = db.matches_ ++ [⟨n, min a b, max a b⟩])
    (hm : hasMatch db a b = false) : (selectMatchPair db1 a b).length = 1 := by
  have hm0 : selectMatchPair db a b = [] := by simpa [hasMatch] using hm
  unfold selectMatchPair at hm0 ⊢
  rw [h, List.filter_append, hm0]
  rcases Nat.le_total a b with hab | hab
  · simp [List.filter_cons, Nat.min_eq_left hab, Nat.max_eq_right hab]
  · simp [List.filter_cons, Nat.min_eq_right hab, Nat.max_eq_left hab]

/-- After a `like` answered with status 200 the Like row is there. -/
theorem hasLike_of_like_ok (db : DB) (a b : Nat) (h : (like db a b).2.status = 200) :
    hasLike (like db a b).1 a b = true := by
  revert h
  apply like_cases db a b (fun r => r.2.status = 200 → hasLike r.1 a b = true)
  · intro _ h; simp at h
  · intro _ _ h; simp at h
  · intro _ _ _ _ h; simp at h
  · intro _ _ _ _ _ _ _ h; simp at h
  · intro _ _ _ _ _ _ _ _ _ h; simp at h
  · intro db1 db3 db4 _ _ h1 _ h3 h4 _
    obtain ⟨rfl, -, -, -⟩ := insertLike_ok_inv h1
    obtain ⟨k3, rfl, -⟩ := insertNotification_ok_inv h3
    obtain ⟨k4, rfl, -⟩ := insertNotification_ok_inv h4
    show hasLike _ a b = true
    unfold hasLike
    rw [selectLike_snoc db _ ⟨db.next_like_id, a, b⟩ (by simp [insertIgnoreMatch_likes])]
    simp
  · intro _ _ _ _ _ _ _ h; simp at h
  · intro db1 db2 _ _ h1 _ h2 _
    obtain ⟨rfl, -, -, -⟩ := insertLike_ok_inv h1
    obtain ⟨k2, rfl, -⟩ := insertNotification_ok_inv h2
    show hasLike _ a b = true
    unfold hasLike
    rw [selectLike_snoc db _ ⟨db.next_like_id, a, b⟩ rfl]
    simp

/-! ## Lists of rows -/

theorem nodup_map_snoc {α β : Type} (f : α → β) (l : List α) (x : α)
    (hnd : (l.map f).Nodup) (hx : ∀ y ∈ l, f y ≠ f x) : ((l ++ [x]).map f).Nodup := by
  rw [List.map_append, List.nodup_append]
  refine ⟨hnd, by simp, ?_⟩
  intro z hz hz2
  simp only [List.map_cons, List.map_nil, List.mem_singleton] at hz2
  obtain ⟨y, hy, rfl⟩ := List.mem_map.mp hz
  exact hx y hy hz2

theorem nodup_map_snoc_fresh {α : Type} (f : α → Nat) (l : List α) (x : α) (n : Nat)
    (hnd : (l.map f).Nodup) (hlt : ∀ y ∈ l, f y < n) (hx : f x = n) :
    ((l ++ [x]).map f).Nodup := by
  apply nodup_map_snoc f l x hnd
  intro y hy h
  have := hlt y hy
  omega

theorem lt_succ_of_snoc {α : Type} (f : α → Nat) (l : List α) (x : α) (n : Nat)
    (hlt : ∀ y ∈ l, f y < n) (hx : f x = n) : ∀ y ∈ l ++ [x], f y < n + 1 := by
  intro y hy
  rcases List.mem_append.mp hy with h | h
  · have := hlt y h; omega
  · simp only [List.mem_singleton] at h; subst h; omega

theorem nodup_map_filter {α β : Type} (f : α → β) (p : α → Bool) (l : List α)
    (hnd : (l.map f).Nodup) : ((l.filter p).map f).Nodup :=
  hnd.sublist ((List.filter_sublist l).map f)

theorem hasLike_iff (db : DB) (a b : Nat) :
    hasLike db a b = true ↔ ∃ l ∈ db.likes, l.liker_id = a ∧ l.liked_id = b := by
  unfold hasLike selectLike
  constructor
  · intro h
    cases hs : db.likes.filter (fun l => l.liker_id == a && l.liked_id == b) with
    | nil => rw [hs] at h; simp at h
    | cons l t =>
      have hmem : l ∈ db.likes.filter (fun l => l.liker_id == a && l.liked_id == b) := by
        rw [hs]; exact List.mem_cons_self _ _
      rw [List.mem_filter] at hmem
      exact ⟨l, hmem.1, by simpa using hmem.2⟩
  · rintro ⟨l, hl, h1, h2⟩
    have hmem : l ∈ db.likes.filter (fun l => l.liker_id == a && l.liked_id == b) := by
      rw [List.mem_filter]; exact ⟨hl, by simp [h1, h2]⟩
    cases hs : db.likes.filter (fun l => l.liker_id == a && l.liked_id == b) with
    | nil => rw [hs] at hmem; cases hmem
    | cons l t => simp

theorem hasLike_mono (db db1 : DB) (a b : Nat) (h : ∀ l ∈ db.likes, l ∈ db1.likes)
    (hl : hasLike db a b = true) : hasLike db1 a b = true := by
  rw [hasLike_iff] at hl ⊢
  obtain ⟨l, hl, h1, h2⟩ := hl
  exact ⟨l, h l hl, h1, h2⟩

/-! ## The invariant is kept by every statement -/

theorem inv_emptyStore (strict : Bool) (users : List User)
    (hpk : (users.map User.id).Nodup) : (emptyStore strict users).Inv := by
  constructor
  · constructor
    · exact hpk
    all_goals simp [emptyStore]
  all_goals simp [emptyStore]

theorem inv_insertLike {db db1 : DB} {a b : Nat} (h : db.Inv) (hne : a ≠ b)
    (hi : insertLike db a b = .ok db1) : db1.Inv := by
  obtain ⟨rfl, ha, hb, hs⟩ := insertLike_ok_inv hi
  have hmono : ∀ l ∈ db.likes, l ∈ db.likes ++ [(⟨db.next_like_id, a, b⟩ : Like)] :=
    fun l hl => List.mem_append_left _ hl
  exact {
    wf := {
      users_pk := h.wf.users_pk
      likes_pk := nodup_map_snoc_fresh Like.id db.likes _ db.next_like_id
        h.wf.likes_pk h.wf.likes_lt rfl
      likes_lt := lt_succ_of_snoc Like.id db.likes _ db.next_like_id h.wf.likes_lt rfl
      likes_fk := by
        intro l hl
        rcases List.mem_append.mp hl with hl | hl
        · exact h.wf.likes_fk l hl
        · simp only [List.mem_singleton] at hl; subst hl; exact ⟨ha, hb⟩
      likes_unique := by
        apply nodup_map_snoc _ _ _ h.wf.likes_unique
        intro y hy heq
        have hmem : y ∈ selectLike db a b := by
          simp only [selectLike, List.mem_filter]
          simp only [Prod.mk.injEq] at heq
          exact ⟨hy, by simp [heq.1, heq.2]⟩
        rw [hs] at hmem; cases hmem
      matches_pk := h.wf.matches_pk
      matches_lt := h.wf.matches_lt
      matches_fk := h.wf.matches_fk
      matches_unique := h.wf.matches_unique
      conversations_pk := h.wf.conversations_pk
      conversations_lt := h.wf.conversations_lt
      conversations_fk := h.wf.conversations_fk
      conversations_unique := h.wf.conversations_unique
      notifications_pk := h.wf.notifications_pk
      notifications_lt := h.wf.notifications_lt
      notifications_fk := h.wf.notifications_fk }
    likes_irrefl := by
      intro l hl
      rcases List.mem_append.mp hl with hl | hl
      · exact h.likes_irrefl l hl
      · simp only [List.mem_singleton] at hl; subst hl; exact hne
    matches_lt_pair := h.matches_lt_pair
    matches_likes := fun m hm =>
      ⟨hasLike_mono db _ _ _ hmono (h.matches_likes m hm).1,
       hasLike_mono db _ _ _ hmono (h.matches_likes m hm).2⟩ }

theorem inv_insertIgnoreMatch {db : DB} {u1 u2 : Nat} (h : db.Inv) (hlt : u1 < u2)
    (h12 : hasLike db u1 u2 = true) (h21 : hasLike db u2 u1 = true) :
    (insertIgnoreMatch db u1 u2).Inv := by
  unfold insertIgnoreMatch
  split
  · exact h
  rename_i hfk
  have hfk : userExists db u1 = true ∧ userExists db u2 = true := by simpa using hfk
  split
  · exact h
  rename_i hs
  have hs : selectMatch db u1 u2 = [] := by simpa using hs
  exact {
    wf := {
      users_pk := h.wf.users_pk
      likes_pk := h.wf.likes_pk
      likes_lt := h.wf.likes_lt
      likes_fk := h.wf.likes_fk
      likes_unique := h.wf.likes_unique
      matches_pk := nodup_map_snoc_fresh Match.id db.matches_ _ db.next_match_id
        h.wf.matches_pk h.wf.matches_lt rfl
      matches_lt := lt_succ_of_snoc Match.id db.matches_ _ db.next_match_id
        h.wf.matches_lt rfl
      matches_fk := by
        intro m hm
        rcases List.mem_append.mp hm with hm | hm
        · exact h.wf.matches_fk m hm
        · simp only [List.mem_singleton] at hm; subst hm; exact hfk
      matches_unique := by
        apply nodup_map_snoc _ _ _ h.wf.matches_unique
        intro y hy heq
        have hmem : y ∈ selectMatch db u1 u2 := by
          simp only [selectMatch, List.mem_filter]
          simp only [Prod.mk.injEq] at heq
          exact ⟨hy, by simp [heq.1, heq.2]⟩
        rw [hs] at hmem; cases hmem
      conversations_pk := h.wf.conversations_pk
      conversations_lt := h.wf.conversations_lt
      conversations_fk := h.wf.conversations_fk
      conversations_unique := h.wf.conversations_unique
      notifications_pk := h.wf.notifications_pk
      notifications_lt := h.wf.notifications_lt
      notifications_fk := h.wf.notifications_fk }
    likes_irrefl := h.likes_irrefl
    matches_lt_pair := by
      intro m hm
      rcases List.mem_append.mp hm with hm | hm
      · exact h.matches_lt_pair m hm
      · simp only [List.mem_singleton] at hm; subst hm; exact hlt
    matches_likes := by
      intro m hm
      rcases List.mem_append.mp hm with hm | hm
      · exact h.matches_likes m hm
      · simp only [List.mem_singleton] at hm; subst hm; exact ⟨h12, h21⟩ }

theorem inv_insertNotification {db db1 : DB} {u : Nat} {t : String} {f : Option Nat}
    {msg : String} (h : db.Inv) (hi : insertNotification db u t f msg = .ok db1) :
    db1.Inv := by
  obtain ⟨k, rfl, hu, hf, -⟩ := insertNotification_ok_inv hi
  exact {
    wf := {
      users_pk := h.wf.users_pk
      likes_pk := h.wf.likes_pk
      likes_lt := h.wf.likes_lt
      likes_fk := h.wf.likes_fk
      likes_unique := h.wf.likes_unique
      matches_pk := h.wf.matches_pk
      matches_lt := h.wf.matches_lt
      matches_fk := h.wf.matches_fk
      matches_unique := h.wf.matches_unique
      conversations_pk := h.wf.conversations_pk
      conversations_lt := h.wf.conversations_lt
      conversations_fk := h.wf.conversations_fk
      conversations_unique := h.wf.conversations_unique
      notifications_pk := nodup_map_snoc_fresh Notification.id db.notifications _
        db.next_notification_id h.wf.notifications_pk h.wf.notifications_lt rfl
      notifications_lt := lt_succ_of_snoc Notification.id db.notifications _
        db.next_notification_id h.wf.notifications_lt rfl
      notifications_fk := by
        intro n hn
        rcases List.mem_append.mp hn with hn | hn
        · exact h.wf.notifications_fk n hn
        · simp only [List.mem_singleton] at hn; subst hn; exact ⟨hu, hf⟩ }
    likes_irrefl := h.likes_irrefl
    matches_lt_pair := h.matches_lt_pair
    matches_likes := h.matches_likes }

theorem inv_deleteMatch {db : DB} (h : db.Inv) (id : Nat) : (deleteMatch db id).Inv :=
  { wf := {
      users_pk := h.wf.users_pk
      likes_pk := h.wf.likes_pk
      likes_lt := h.wf.likes_lt
      likes_fk := h.wf.likes_fk
      likes_unique := h.wf.likes_unique
      matches_pk := nodup_map_filter _ _ _ h.wf.matches_pk
      matches_lt := fun m hm => h.wf.matches_lt m (List.mem_filter.mp hm).1
      matches_fk := fun m hm => h.wf.matches_fk m (List.mem_filter.mp hm).1
      matches_unique := nodup_map_filter _ _ _ h.wf.matches_unique
      conversations_pk := h.wf.conversations_pk
      conversations_lt := h.wf.conversations_lt
      conversations_fk := h.wf.conversations_fk
      conversations_unique := h.wf.conversations_unique
      notifications_pk := h.wf.notifications_pk
      notifications_lt := h.wf.notifications_lt
      notifications_fk := h.wf.notifications_fk }
    likes_irrefl := h.likes_irrefl
    matches_lt_pair := fun m hm => h.matches_lt_pair m (List.mem_filter.mp hm).1
    matches_likes := fun m hm => h.matches_likes m (List.mem_filter.mp hm).1 }

theorem inv_insertConversation {db db1 : DB} {a b n : Nat} (h : db.Inv)
    (hi : insertConversation db a b = .ok (db1, n)) : db1.Inv := by
  obtain ⟨rfl, -, ha, hb, hs⟩ := insertConversation_ok_inv hi
  exact {
    wf := {
      users_pk := h.wf.users_pk
      likes_pk := h.wf.likes_pk
      likes_lt := h.wf.likes_lt
      likes_fk := h.wf.likes_fk
      likes_unique := h.wf.likes_unique
      matches_pk := h.wf.matches_pk
      matches_lt := h.wf.matches_lt
      matches_fk := h.wf.matches_fk
      matches_unique := h.wf.matches_unique
      conversations_pk := nodup_map_snoc_fresh Conversation.id db.conversations _
        db.next_conversation_id h.wf.conversations_pk h.wf.conversations_lt rfl
      conversations_lt := lt_succ_of_snoc Conversation.id db.conversations _
        db.next_conversation_id h.wf.conversations_lt rfl
      conversations_fk := by
        intro c hc
        rcases List.mem_append.mp hc with hc | hc
        · exact h.wf.conversations_fk c hc
        · simp only [List.mem_singleton] at hc; subst hc; exact ⟨ha, hb⟩
      conversations_unique := by
        apply nodup_map_snoc _ _ _ h.wf.conversations_unique
        intro y hy heq
        simp only [Prod.mk.injEq] at heq
        exact hs y hy heq
      notifications_pk := h.wf.notifications_pk
      notifications_lt := h.wf.notifications_lt
      notifications_fk := h.wf.notifications_fk }
    likes_irrefl := h.likes_irrefl
    matches_lt_pair := h.matches_lt_pair
    matches_likes := h.matches_likes }

/-! ## The invariant is kept by every handler -/

theorem inv_like {db : DB} (h : db.Inv) (a b : Nat) : (like db a b).1.Inv := by
  have key : ∀ db1, a ≠ b → insertLike db a b = .ok db1 → hasLike db1 b a = true →
      (insertIgnoreMatch db1 (min a b) (max a b)).Inv := by
    intro db1 hne h1 hr
    have hinv1 := inv_insertLike h hne h1
    obtain ⟨rfl, -, -, -⟩ := insertLike_ok_inv h1
    have hab : hasLike { db with
        likes := db.likes ++ [⟨db.next_like_id, a, b⟩]
        next_like_id := db.next_like_id + 1 } a b = true := by
      rw [hasLike_iff]
      exact ⟨⟨db.next_like_id, a, b⟩, List.mem_append_right _ (List.mem_singleton.mpr rfl),
        rfl, rfl⟩
    rcases Nat.lt_or_gt_of_ne hne with hlt | hlt
    · rw [Nat.min_eq_left (Nat.le_of_lt hlt), Nat.max_eq_right (Nat.le_of_lt hlt)]
      exact inv_insertIgnoreMatch hinv1 hlt hab hr
    · rw [Nat.min_eq_right (Nat.le_of_lt hlt), Nat.max_eq_left (Nat.le_of_lt hlt)]
      exact inv_insertIgnoreMatch hinv1 hlt hr hab
  apply like_cases db a b (fun r => r.1.Inv)
  · intro _; exact h
  · intro _ _; exact h
  · intro _ _ _ _; exact h
  · intro db1 _ hne _ h1 hr _; exact key db1 hne h1 hr
  · intro db1 db3 _ hne _ h1 hr h3 _
    exact inv_insertNotification (key db1 hne h1 hr) h3
  · intro db1 db3 db4 hne _ h1 hr h3 h4
    exact inv_insertNotification (inv_insertNotification (key db1 hne h1 hr) h3) h4
  · intro db1 _ hne _ h1 _ _; exact inv_insertLike h hne h1
  · intro db1 db2 hne _ h1 _ h2
    exact inv_insertNotification (inv_insertLike h hne h1) h2

theorem inv_unmatch {db : DB} (h : db.Inv) (a b : Nat) : (unmatch db a b).1.Inv := by
  apply unmatch_cases db a b (fun r => r.1.Inv)
  · intro _; exact h
  · intro _ _; exact h
  · intro m _ _ _ _ _; exact inv_deleteMatch h m.id
  · intro m _ db2 _ _ h2; exact inv_insertNotification (inv_deleteMatch h m.id) h2

theorem inv_startConversation {db : DB} (h : db.Inv) (a b : Nat) :
    (startConversation db a b).1.Inv := by
  apply startConversation_cases db a b (fun r => r.1.Inv)
  · intro _; exact h
  · intro _ _ _ _; exact h
  · intro _ _ _; exact h
  · intro _ _ _ _ _; exact h
  · intro db1 n _ _ _ hi; exact inv_insertConversation h hi

theorem inv_run {db : DB} (h : db.Inv) (op : Op) : (op.run db).Inv := by
  cases op with
  | like a b => exact inv_like h a b
  | unmatch a b => exact inv_unmatch h a b
  | startConversation a b => exact inv_startConversation h a b

/-- Every reachable store satisfies the schema and the invariant of the
handlers. -/
theorem inv_of_reachable {db : DB} (h : Reachable db) : db.Inv := by
  induction h with
  | empty strict users hpk => exact inv_emptyStore strict users hpk
  | step op _ ih => exact inv_run ih op

/-! ## Match rows under the invariant -/

theorem length_filter_le_one {α β : Type} (key : α → β) (k : β) (p : α → Bool)
    (l : List α) (hnd : (l.map key).Nodup) (hp : ∀ x ∈ l, p x = true → key x = k) :
    (l.filter p).length ≤ 1 := by
  induction l with
  | nil => simp
  | cons x t ih =>
    rw [List.map_cons, List.nodup_cons] at hnd
    have iht := ih hnd.2 (fun y hy => hp y (List.mem_cons_of_mem _ hy))
    by_cases hx : p x = true
    · have ht : t.filter p = [] := by
        rw [List.filter_eq_nil_iff]
        intro y hy hpy
        apply hnd.1
        have h1 := hp x (List.mem_cons_self _ _) hx
        have h2 := hp y (List.mem_cons_of_mem _ hy) hpy
        rw [h1, ← h2]
        exact List.mem_map_of_mem key hy
      simp [List.filter_cons, hx, ht]
    · simp [List.filter_cons, hx, iht]

/-- In a store that keeps the invariant a row of the unordered pair is the row
at `(min a b, max a b)`. -/
theorem pair_row_canonical {db : DB} (h : db.Inv) (a b : Nat) (m : Match)
    (hm : m ∈ db.matches_)
    (hp : ((m.user1_id == a && m.user2_id == b) || (m.user1_id == b && m.user2_id == a))
      = true) :
    (m.user1_id, m.user2_id) = (min a b, max a b) := by
  have hlt := h.matches_lt_pair m hm
  simp only [Bool.or_eq_true, Bool.and_eq_true, beq_iff_eq] at hp
  rcases hp with ⟨h1, h2⟩ | ⟨h1, h2⟩
  · rw [h1, h2] at hlt ⊢
    rw [Nat.min_eq_left (Nat.le_of_lt hlt), Nat.max_eq_right (Nat.le_of_lt hlt)]
  · rw [h1, h2] at hlt ⊢
    rw [Nat.min_eq_right (Nat.le_of_lt hlt), Nat.max_eq_left (Nat.le_of_lt hlt)]

theorem reachable_storeMatched : Reachable storeMatched :=
  Reachable.step (.like 2 1) (Reachable.step (.like 1 2)
    (Reachable.empty true [ada, bob] (by decide)))

theorem hasMatch_iff (db : DB) (a b : Nat) :
    hasMatch db a b = true ↔ ∃ m ∈ db.matches_,
      ((m.user1_id == a && m.user2_id == b) || (m.user1_id == b && m.user2_id == a)) = true := by
  unfold hasMatch selectMatchPair
  constructor
  · intro h
    cases hs : db.matches_.filter (fun m =>
        (m.user1_id == a && m.user2_id == b) || (m.user1_id == b && m.user2_id == a)) with
    | nil => rw [hs] at h; simp at h
    | cons m t =>
      have hmem : m ∈ db.matches_.filter (fun m =>
          (m.user1_id == a && m.user2_id == b) || (m.user1_id == b && m.user2_id == a)) := by
        rw [hs]; exact List.mem_cons_self _ _
      rw [List.mem_filter] at hmem
      exact ⟨m, hmem.1, hmem.2⟩
  · rintro ⟨m, hm, hp⟩
    have hmem : m ∈ db.matches_.filter (fun m =>
        (m.user1_id == a && m.user2_id == b) || (m.user1_id == b && m.user2_id == a)) := by
      rw [List.mem_filter]; exact ⟨hm, hp⟩
    cases hs : db.matches_.filter (fun m =>
        (m.user1_id == a && m.user2_id == b) || (m.user1_id == b && m.user2_id == a)) with
    | nil => rw [hs] at hmem; cases hmem
    | cons l t => simp

/-- Under the invariant, deleting the row found at `(min a b, max a b)` leaves
no row of the pair. -/
theorem hasMatch_deleteMatch {db : DB} (h : db.Inv) (a b : Nat) (m : Match) (ms : List Match)
    (hs : selectMatch db (min a b) (max a b) = m :: ms) :
    hasMatch (deleteMatch db m.id) a b = false := by
  have hm : m ∈ selectMatch db (min a b) (max a b) := by rw [hs]; exact List.mem_cons_self _ _
  simp only [selectMatch, List.mem_filter, Bool.and_eq_true, beq_iff_eq] at hm
  cases hh : hasMatch (deleteMatch db m.id) a b with
  | false => rfl
  | true =>
    exfalso
    rw [hasMatch_iff] at hh
    obtain ⟨m2, hm2, hp⟩ := hh
    simp only [deleteMatch, List.mem_filter, Bool.not_eq_true', beq_eq_false_iff_ne] at hm2
    have hk := pair_row_canonical h a b m2 hm2.1 hp
    have heq : m2 = m := by
      apply List.inj_on_of_nodup_map h.wf.matches_unique hm2.1 hm.1
      rw [hk, hm.2.1, hm.2.2]
    exact hm2.2 (by rw [heq])

theorem unmatch_likes (db : DB) (a b : Nat) : (unmatch db a b).1.likes = db.likes := by
  apply unmatch_cases db a b (fun r => r.1.likes = db.likes)
  · intro _; rfl
  · intro _ _; rfl
  · intro _ _ _ _ _ _; rfl
  · intro m _ db2 _ _ h2
    obtain ⟨k, rfl, -⟩ := insertNotification_ok_inv h2
    rfl

theorem hasLike_congr (db db1 : DB) (h : db1.likes = db.likes) (a b : Nat) :
    hasLike db1 a b = hasLike db a b := by
  unfold hasLike; rw [selectLike_congr db db1 h]

/-- Under the invariant, `unmatch` of a matched pair leaves no Match row of the
pair, whatever becomes of its notification. -/
theorem hasMatch_unmatch {db : DB} (h : db.Inv) (a b : Nat) (hne : a ≠ b) :
    hasMatch (unmatch db a b).1 a b = false := by
  apply unmatch_cases db a b (fun r => hasMatch r.1 a b = false)
  · intro hab; exact absurd hab hne
  · intro _ hs
    cases hh : hasMatch db a b with
    | false => rfl
    | true =>
      exfalso
      rw [hasMatch_iff] at hh
      obtain ⟨m, hm, hp⟩ := hh
      have hk := pair_row_canonical h a b m hm hp
      simp only [Prod.mk.injEq] at hk
      have hmem : m ∈ selectMatch db (min a b) (max a b) := by
        simp only [selectMatch, List.mem_filter, Bool.and_eq_true, beq_iff_eq]
        exact ⟨hm, hk⟩
      rw [hs] at hmem; cases hmem
  · intro m ms _ _ hs _; exact hasMatch_deleteMatch h a b m ms hs
  · intro m ms db2 _ hs h2
    obtain ⟨k, rfl, -⟩ := insertNotification_ok_inv h2
    exact hasMatch_deleteMatch h a b m ms hs

theorem insertIgnoreMatch_has (db : DB) (u1 u2 : Nat) (h1 : userExists db u1 = true)
    (h2 : userExists db u2 = true) :
    ∃ m ∈ (insertIgnoreMatch db u1 u2).matches_, m.user1_id = u1 ∧ m.user2_id = u2 := by
  unfold insertIgnoreMatch
  rw [if_neg (by simp [h1, h2])]
  split
  · rename_i hs
    cases hsel : selectMatch db u1 u2 with
    | nil => rw [hsel] at hs; simp at hs
    | cons m t =>
      have hmem : m ∈ selectMatch db u1 u2 := by rw [hsel]; exact List.mem_cons_self _ _
      simp only [selectMatch, List.mem_filter, Bool.and_eq_true, beq_iff_eq] at hmem
      exact ⟨m, hmem.1, hmem.2⟩
  · exact ⟨⟨db.next_match_id, u1, u2⟩, List.mem_append_right _ (List.mem_singleton.mpr rfl),
      rfl, rfl⟩

/-- The answer `isMatch = true` is only given when the reverse Like was there
before the call. -/
theorem hasLike_of_isMatch (db : DB) (a b : Nat)
    (h : (like db a b).2.isMatch = some true) : hasLike db b a = true := by
  revert h
  apply like_cases db a b (fun r => r.2.isMatch = some true → hasLike db b a = true)
  · intro _ h; simp [Response.isMatch] at h
  · intro _ _ h; simp [Response.isMatch] at h
  · intro _ _ _ _ h; simp [Response.isMatch] at h
  · intro _ _ _ _ _ _ _ h; simp [Response.isMatch] at h
  · intro _ _ _ _ _ _ _ _ _ h; simp [Response.isMatch] at h
  · intro db1 db3 db4 hne _ h1 hr _ _ _
    obtain ⟨rfl, -, -, -⟩ := insertLike_ok_inv h1
    unfold hasLike at hr ⊢
    rw [selectLike_snoc db _ ⟨db.next_like_id, a, b⟩ rfl] at hr
    have hn : ¬ (a = b ∧ b = a) := fun h => hne h.1
    simpa [hn] using hr
  · intro _ _ _ _ _ _ _ h; simp [Response.isMatch] at h
  · intro _ _ _ _ _ _ _ h; simp [Response.isMatch] at h

/-- In strict SQL mode `unmatch` is never answered with status 200: whenever it
gets as far as its notification, the insert is turned down for its kind. -/
theorem unmatch_strict_not_ok (db : DB) (hs : db.strict = true) (a b : Nat) :
    (unmatch db a b).2.status ≠ 200 := by
  apply unmatch_cases db a b (fun r => r.2.status ≠ 200)
  · intro _; simp
  · intro _ _; simp
  · intro _ _ _ _ _ _; simp
  · intro m _ db2 _ _ h2
    obtain ⟨k, -, -, -, hk⟩ := insertNotification_ok_inv h2
    rcases hk with hk | ⟨-, hk, -⟩
    · rw [ofString_unmatch] at hk; cases hk
    · have : db.strict = false := hk
      rw [hs] at this; cases this

theorem reachable_storeLiked : Reachable storeLiked :=
  Reachable.step (.like 1 2) (Reachable.empty true [ada, bob] (by decide))

/-! ## What `unmatch` changes -/

/-- What `unmatch` leaves alone: users, likes and conversations, whatever the
outcome. -/
theorem unmatch_frame (db : DB) (a b : Nat) :
    (unmatch db a b).1.users = db.users ∧ (unmatch db a b).1.likes = db.likes ∧
    (unmatch db a b).1.conversations = db.conversations := by
  apply unmatch_cases db a b (fun r =>
    r.1.users = db.users ∧ r.1.likes = db.likes ∧ r.1.conversations = db.conversations)
  · intro _; exact ⟨rfl, rfl, rfl⟩
  · intro _ _; exact ⟨rfl, rfl, rfl⟩
  · intro _ _ _ _ _ _; exact ⟨rfl, rfl, rfl⟩
  · intro m _ db2 _ _ h2
    obtain ⟨k, rfl, -⟩ := insertNotification_ok_inv h2
    exact ⟨rfl, rfl, rfl⟩

/-- The Match table after `unmatch` of a pair whose row is found: the rows with
another id than the row found, in both outcomes of the notification. -/
theorem unmatch_matches (db : DB) (a b : Nat) (m : Match) (ms : List Match) (hne : a ≠ b)
    (hs : selectMatch db (min a b) (max a b) = m :: ms) :
    (unmatch db a b).1.matches_ = db.matches_.filter (fun x => !(x.id == m.id)) := by
  apply unmatch_cases db a b (fun r =>
    r.1.matches_ = db.matches_.filter (fun x => !(x.id == m.id)))
  · intro hab; exact absurd hab hne
  · intro _ h0; rw [h0] at hs; cases hs
  · intro m2 ms2 _ _ hs2 _
    rw [hs] at hs2; injection hs2 with h1 _; subst h1; rfl
  · intro m2 ms2 db2 _ hs2 h2
    obtain ⟨k, rfl, -⟩ := insertNotification_ok_inv h2
    rw [hs] at hs2; injection hs2 with h1 _; subst h1; rfl

/-- The Match table after `unmatch` does not depend on which of the two users
is the caller. -/
theorem unmatch_matches_comm (db : DB) (a b : Nat) :
    (unmatch db a b).1.matches_ = (unmatch db b a).1.matches_ := by
  by_cases hab : a = b
  · subst hab; rfl
  cases hs : selectMatch db (min a b) (max a b) with
  | nil =>
    have hs2 : selectMatch db (min b a) (max b a) = [] := by
      rw [Nat.min_comm, Nat.max_comm]; exact hs
    simp [unmatch, hab, Ne.symm hab, hs, hs2]
  | cons m ms =>
    have hs2 : selectMatch db (min b a) (max b a) = m :: ms := by
      rw [Nat.min_comm, Nat.max_comm]; exact hs
    rw [unmatch_matches db a b m ms hab hs, unmatch_matches db b a m ms (Ne.symm hab) hs2]

/-! ## Claims -/

/-- C1: for existing users `a ≠ b` with no Like between them in either
direction and no Match row of the pair, `like(a,b)` followed by `like(b,a)`,
and equally `like(b,a)` followed by `like(a,b)`, ends in a store with exactly
one Match row of the pair, and among the notifications added exactly two are of
kind `match`: one to each user with the other one as origin. -/
theorem like_then_like_back_one_match (db : DB) (a b : Nat)
    (ha : userExists db a = true) (hb : userExists db b = true) (hne : a ≠ b)
    (h1 : hasLike db a b = false) (h2 : hasLike db b a = false)
    (hm : hasMatch db a b = false) :
    (∃ added,
      (like (like db a b).1 b a).1.notifications = db.notifications ++ added ∧
      (added.filter (fun n => n.type == NotifKind.match_)).map
        (fun n => (n.user_id, n.from_user_id)) = [(a, some b), (b, some a)] ∧
      (selectMatchPair (like (like db a b).1 b a).1 a b).length = 1) ∧
    (∃ added,
      (like (like db b a).1 a b).1.notifications = db.notifications ++ added ∧
      (added.filter (fun n => n.type == NotifKind.match_)).map
        (fun n => (n.user_id, n.from_user_id)) = [(b, some a), (a, some b)] ∧
      (selectMatchPair (like (like db b a).1 a b).1 a b).length = 1) := by
  constructor
  · obtain ⟨msg, hmat, hnot⟩ := like_like_back db a b ha hb hne h1 h2 hm
    refine ⟨_, hnot, by simp [List.filter_cons], ?_⟩
    rw [selectMatchPair_comm]
    exact selectMatchPair_snoc_min_max db _ _ b a hmat (by rw [hasMatch_comm]; exact hm)
  · obtain ⟨msg, hmat, hnot⟩ :=
      like_like_back db b a hb ha (Ne.symm hne) h2 h1 (by rw [hasMatch_comm]; exact hm)
    refine ⟨_, hnot, by simp [List.filter_cons], ?_⟩
    exact selectMatchPair_snoc_min_max db _ _ a b hmat hm

theorem like_then_like_back_one_match_witness :
    (∃ added,
      (like (like store0 1 2).1 2 1).1.notifications = store0.notifications ++ added ∧
      (added.filter (fun n => n.type == NotifKind.match_)).map
        (fun n => (n.user_id, n.from_user_id)) = [(1, some 2), (2, some 1)] ∧
      (selectMatchPair (like (like store0 1 2).1 2 1).1 1 2).length = 1) ∧
    (∃ added,
      (like (like store0 2 1).1 1 2).1.notifications = store0.notifications ++ added ∧
      (added.filter (fun n => n.type == NotifKind.match_)).map
        (fun n => (n.user_id, n.from_user_id)) = [(2, some 1), (1, some 2)] ∧
      (selectMatchPair (like (like store0 2 1).1 1 2).1 1 2).length = 1) :=
  like_then_like_back_one_match store0 1 2 (by decide) (by decide) (by decide) (by decide)
    (by decide) (by decide)

/-- C2: in a store that satisfies the schema, for `liker ≠ liked` without Like
row from `liker` to `liked`, `like(liker, liked)` answers `isMatch = true`
exactly when the Like row from `liked` to `liker` was there before the call;
and then `matchedUser` is the summary (id, first name, profile image) of the
liked user and the Match row `(min, max)` of the pair is there afterwards. -/
theorem like_isMatch_iff_reciprocal (db : DB) (hwf : db.WF) (liker liked : Nat)
    (hne : liker ≠ liked) (hno : hasLike db liker liked = false) :
    ((like db liker liked).2.isMatch = some true ↔ hasLike db liked liker = true) ∧
    ((like db liker liked).2.isMatch = some true →
      (∃ u ∈ db.users, u.id = liked ∧
        (like db liker liked).2.matchedUser = some ⟨u.id, u.first_name, u.profile_image⟩) ∧
      (∃ m ∈ (like db liker liked).1.matches_,
        m.user1_id = min liker liked ∧ m.user2_id = max liker liked)) := by
  have main : hasLike db liked liker = true →
      (like db liker liked).2.isMatch = some true ∧
      (∃ u ∈ db.users, u.id = liked ∧
        (like db liker liked).2.matchedUser = some ⟨u.id, u.first_name, u.profile_image⟩) ∧
      (∃ m ∈ (like db liker liked).1.matches_,
        m.user1_id = min liker liked ∧ m.user2_id = max liker liked) := by
    intro hr
    obtain ⟨l, hl, hl1, hl2⟩ := (hasLike_iff db liked liker).mp hr
    have hfk := hwf.likes_fk l hl
    rw [hl1, hl2] at hfk
    obtain ⟨hliked, hliker⟩ := hfk
    rw [like_mutual db liker liked hliker hliked hne hno hr]
    refine ⟨rfl, ?_, ?_⟩
    · obtain ⟨u, hu⟩ := selectUser_head_of_exists db liked hliked
      have hmem : u ∈ selectUser db liked := List.mem_of_mem_head? hu
      simp only [selectUser, List.mem_filter, beq_iff_eq] at hmem
      exact ⟨u, hmem.1, hmem.2, by simp [Response.matchedUser, hu, User.summary]⟩
    · exact insertIgnoreMatch_has _ _ _ (userExists_min db _ _ hliker hliked)
        (userExists_max db _ _ hliker hliked)
  exact ⟨⟨hasLike_of_isMatch db liker liked, fun hr => (main hr).1⟩,
    fun h => (main (hasLike_of_isMatch db liker liked h)).2⟩

theorem like_isMatch_iff_reciprocal_witness :
    ((like storeLiked 2 1).2.isMatch = some true ↔ hasLike storeLiked 1 2 = true) ∧
    ((like storeLiked 2 1).2.isMatch = some true →
      (∃ u ∈ storeLiked.users, u.id = 1 ∧
        (like storeLiked 2 1).2.matchedUser = some ⟨u.id, u.first_name, u.profile_image⟩) ∧
      (∃ m ∈ (like storeLiked 2 1).1.matches_,
        m.user1_id = min 2 1 ∧ m.user2_id = max 2 1)) :=
  like_isMatch_iff_reciprocal storeLiked (inv_of_reachable reachable_storeLiked).wf 2 1
    (by decide) (by decide)

/-- C3: for users `liker ≠ liked` with no Like between them in either
direction, `like(liker, liked)` adds exactly the Like row from `liker` to
`liked` and exactly one notification, of kind `like`, to `liked`, with origin
`liker` and a message that contains the first name of the liker; it leaves the
Match table as it was and answers `isMatch = false`, `matchedUser = null`. -/
theorem like_without_reciprocal (db : DB) (liker liked : Nat)
    (hliker : userExists db liker = true) (hliked : userExists db liked = true)
    (hne : liker ≠ liked)
    (h1 : hasLike db liker liked = false) (h2 : hasLike db liked liker = false) :
    ∃ (u : User) (msg : String),
      (selectUser db liker).head? = some u ∧ u.first_name.data <:+: msg.data ∧
      like db liker liked =
        ({ db with
            likes := db.likes ++ [⟨db.next_like_id, liker, liked⟩]
            next_like_id := db.next_like_id + 1
            notifications := db.notifications ++
              [⟨db.next_notification_id, liked, .like, some liker, msg, false⟩]
            next_notification_id := db.next_notification_id + 1 },
         ⟨200, .liked false none⟩) := by
  obtain ⟨u, hu⟩ := selectUser_head_of_exists db liker hliker
  exact ⟨u, firstNameOrSomeone (some u) ++ " liked your profile!", hu, firstName_infix u _,
    like_plain db liker liked u hliker hliked hne h1 h2 hu⟩

theorem like_without_reciprocal_witness :
    ∃ (u : User) (msg : String),
      (selectUser store0 1).head? = some u ∧ u.first_name.data <:+: msg.data ∧
      like store0 1 2 =
        ({ store0 with
            likes := store0.likes ++ [⟨store0.next_like_id, 1, 2⟩]
            next_like_id := store0.next_like_id + 1
            notifications := store0.notifications ++
              [⟨store0.next_notification_id, 2, .like, some 1, msg, false⟩]
            next_notification_id := store0.next_notification_id + 1 },
         ⟨200, .liked false none⟩) :=
  like_without_reciprocal store0 1 2 (by decide) (by decide) (by decide) (by decide)
    (by decide)

/-- C4: when the Like row from `a` to `b` is already there, be it from an
earlier history or from a `like(a,b)` that has just succeeded, `like(a,b)` is
answered with status 400 and `Already liked this user`, and the store (Like,
Match and Notification tables included) is as before the call. -/
theorem like_twice_rejected (db : DB) (a b : Nat) (hne : a ≠ b)
    (h : hasLike db a b = true ∨
      ∃ db0, (like db0 a b).2.status = 200 ∧ db = (like db0 a b).1) :
    like db a b = (db, ⟨400, .failure "Already liked this user"⟩) := by
  rcases h with h | ⟨db0, hok, rfl⟩
  · exact like_again db a b hne h
  · exact like_again _ a b hne (hasLike_of_like_ok db0 a b hok)

theorem like_twice_rejected_witness :
    like (like store0 1 2).1 1 2 =
      ((like store0 1 2).1, ⟨400, .failure "Already liked this user"⟩) :=
  like_twice_rejected (like store0 1 2).1 1 2 (by decide)
    (Or.inr ⟨store0, by decide, rfl⟩)

/-- C5: `like(a,a)`, `unmatch(a,a)` and `startConversation(a,a)` are each
answered with status 400 and leave the whole store unchanged. -/
theorem self_action_rejected (db : DB) (a : Nat) :
    like db a a = (db, ⟨400, .failure "Cannot like yourself"⟩) ∧
    unmatch db a a = (db, ⟨400, .failure "Cannot unmatch yourself"⟩) ∧
    startConversation db a a =
      (db, ⟨400, .failure "Cannot start conversation with yourself"⟩) := by
  simp [like, unmatch, startConversation]

/-- C6: in every store reachable from an empty one by `like`, `unmatch` and
`startConversation`, every Match row has `user1_id < user2_id`, an unordered
pair of users has at most one Match row, and looking the pair up as `(a, b)` or
as `(b, a)` gives the same rows. -/
theorem reachable_matches_canonical (db : DB) (h : Reachable db) :
    (∀ m ∈ db.matches_, m.user1_id < m.user2_id) ∧
    (∀ a b, (selectMatchPair db a b).length ≤ 1) ∧
    (∀ a b, selectMatchPair db a b = selectMatchPair db b a) := by
  have hinv := inv_of_reachable h
  refine ⟨hinv.matches_lt_pair, ?_, fun a b => selectMatchPair_comm db a b⟩
  intro a b
  exact length_filter_le_one (fun m : Match => (m.user1_id, m.user2_id)) (min a b, max a b) _
    db.matches_ hinv.wf.matches_unique (fun m hm hp => pair_row_canonical hinv a b m hm hp)

theorem reachable_matches_canonical_witness :
    (∀ m ∈ storeMatched.matches_, m.user1_id < m.user2_id) ∧
    (∀ a b, (selectMatchPair storeMatched a b).length ≤ 1) ∧
    (∀ a b, selectMatchPair storeMatched a b = selectMatchPair storeMatched b a) :=
  reachable_matches_canonical storeMatched reachable_storeMatched

/-- C7 (the code departs from the claim): on the store in which users 1 and 2
are matched, `unmatch(1,2)` deletes the Match row and then has its notification
of kind `unmatch` turned down by the enumeration of `notifications.type`.  In
strict SQL mode the answer is status 500 and no notification is written; in the
other mode the answer is status 200 and the notification is stored with the
empty kind. -/
theorem unmatch_notification_kind_rejected :
    unmatch storeMatched 1 2 =
      ({ storeMatched with matches_ := [] },
       ⟨500, .failure "Failed to unmatch user"⟩) ∧
    unmatch { storeMatched with strict := false } 1 2 =
      ({ storeMatched with
          strict := false
          matches_ := []
          notifications := storeMatched.notifications ++
            [⟨4, 2, .empty, some 1, "Ada unmatched with you", false⟩]
          next_notification_id := 5 },
       ⟨200, .success⟩) := by
  decide

/-- C8: for `u ≠ o` without Match row of the pair, `unmatch(u,o)` is answered
with status 400 and `No match found`, and the store is unchanged: no Match row
is deleted and no notification is written. -/
theorem unmatch_without_match (db : DB) (u o : Nat) (hne : u ≠ o)
    (hm : hasMatch db u o = false) :
    unmatch db u o = (db, ⟨400, .failure "No match found"⟩) := by
  have h0 : selectMatch db (min u o) (max u o) = [] :=
    selectMatch_min_max_eq_nil db u o (by simpa [hasMatch] using hm)
  simp [unmatch, hne, h0]

theorem unmatch_without_match_witness :
    unmatch storeLiked 1 2 = (storeLiked, ⟨400, .failure "No match found"⟩) :=
  unmatch_without_match storeLiked 1 2 (by decide) (by decide)

/-- C9: for matched users `a ≠ b` of a reachable store, after `unmatch(a,b)`
both Like rows are still there, a following `like(a,b)` is turned down as a
duplicate, and after that `like` there is no Match row of the pair. -/
theorem unmatch_then_like_is_duplicate (db : DB) (h : Reachable db) (a b : Nat)
    (hne : a ≠ b) (hm : hasMatch db a b = true) :
    hasLike (unmatch db a b).1 a b = true ∧
    hasLike (unmatch db a b).1 b a = true ∧
    like (unmatch db a b).1 a b =
      ((unmatch db a b).1, ⟨400, .failure "Already liked this user"⟩) ∧
    hasMatch (like (unmatch db a b).1 a b).1 a b = false := by
  have hinv := inv_of_reachable h
  have hlikes : hasLike db a b = true ∧ hasLike db b a = true := by
    rw [hasMatch_iff] at hm
    obtain ⟨m, hmem, hp⟩ := hm
    have hl := hinv.matches_likes m hmem
    simp only [Bool.or_eq_true, Bool.and_eq_true, beq_iff_eq] at hp
    rcases hp with ⟨h1, h2⟩ | ⟨h1, h2⟩
    · rw [h1, h2] at hl; exact hl
    · rw [h1, h2] at hl; exact ⟨hl.2, hl.1⟩
  have hab : hasLike (unmatch db a b).1 a b = true := by
    rw [hasLike_congr db _ (unmatch_likes db a b)]; exact hlikes.1
  have hba : hasLike (unmatch db a b).1 b a = true := by
    rw [hasLike_congr db _ (unmatch_likes db a b)]; exact hlikes.2
  have hdup := like_again (unmatch db a b).1 a b hne hab
  refine ⟨hab, hba, hdup, ?_⟩
  rw [hdup]
  exact hasMatch_unmatch hinv a b hne

theorem unmatch_then_like_is_duplicate_witness :
    hasLike (unmatch storeMatched 1 2).1 1 2 = true ∧
    hasLike (unmatch storeMatched 1 2).1 2 1 = true ∧
    like (unmatch storeMatched 1 2).1 1 2 =
      ((unmatch storeMatched 1 2).1, ⟨400, .failure "Already liked this user"⟩) ∧
    hasMatch (like (unmatch storeMatched 1 2).1 1 2).1 1 2 = false :=
  unmatch_then_like_is_duplicate storeMatched reachable_storeMatched 1 2 (by decide)
    (by decide)

/-- C10: for `u ≠ o` with neither a conversation nor a Match row of the pair,
`startConversation(u,o)` is answered with status 403 and
`You can only message matched users`, and no conversation is created (the
store is unchanged). -/
theorem startConversation_without_match (db : DB) (u o : Nat) (hne : u ≠ o)
    (hc : hasConversation db u o = false) (hm : hasMatch db u o = false) :
    startConversation db u o =
      (db, ⟨403, .failure "You can only message matched users"⟩) := by
  have hc0 : selectConversation db u o = [] := by simpa [hasConversation] using hc
  have hm0 : selectMatchPair db u o = [] := by simpa [hasMatch] using hm
  simp [startConversation, hne, hc0, hm0]

theorem startConversation_without_match_witness :
    startConversation storeLiked 1 2 =
      (storeLiked, ⟨403, .failure "You can only message matched users"⟩) :=
  startConversation_without_match storeLiked 1 2 (by decide) (by decide) (by decide)

/-! ## The conversation gate -/

theorem selectConversation_comm (db : DB) (a b : Nat) :
    selectConversation db a b = selectConversation db b a := by
  unfold selectConversation
  congr 1
  funext c
  exact Bool.or_comm _ _

/-- With a conversation of the pair in the store, `startConversation` answers
with the id of the first one and writes nothing. -/
theorem startConversation_existing (db : DB) (a b : Nat) (c : Conversation)
    (cs : List Conversation) (hne : a ≠ b) (hs : selectConversation db a b = c :: cs) :
    startConversation db a b = (db, ⟨200, .conversation c.id⟩) := by
  simp [startConversation, hne, hs]

/-- Without a conversation of the pair, with a Match row and both user rows,
`startConversation` creates the conversation `(a, b)`. -/
theorem startConversation_new (db : DB) (a b : Nat) (hne : a ≠ b)
    (ha : userExists db a = true) (hb : userExists db b = true)
    (hs : selectConversation db a b = []) (hm : hasMatch db a b = true) :
    startConversation db a b =
      ({ db with
          conversations := db.conversations ++ [⟨db.next_conversation_id, a, b⟩]
          next_conversation_id := db.next_conversation_id + 1 },
       ⟨201, .conversation db.next_conversation_id⟩) := by
  have hm0 : (selectMatchPair db a b).isEmpty = false := by simpa [hasMatch] using hm
  have hany : db.conversations.any (fun c => c.user1_id == a && c.user2_id == b) = false := by
    rw [Bool.eq_false_iff]
    intro h
    simp only [List.any_eq_true, Bool.and_eq_true, beq_iff_eq] at h
    obtain ⟨c, hc, h1, h2⟩ := h
    have hmem : c ∈ selectConversation db a b := by
      simp only [selectConversation, List.mem_filter]
      exact ⟨hc, by simp [h1, h2]⟩
    rw [hs] at hmem; cases hmem
  simp [startConversation, hne, hs, hm0, insertConversation, ha, hb, hany]

/-- Under the schema the two users of a Match row exist. -/
theorem userExists_of_hasMatch {db : DB} (hwf : db.WF) (a b : Nat)
    (hm : hasMatch db a b = true) : userExists db a = true ∧ userExists db b = true := by
  rw [hasMatch_iff] at hm
  obtain ⟨m, hmem, hp⟩ := hm
  have hfk := hwf.matches_fk m hmem
  simp only [Bool.or_eq_true, Bool.and_eq_true, beq_iff_eq] at hp
  rcases hp with ⟨h1, h2⟩ | ⟨h1, h2⟩
  · rw [h1, h2] at hfk; exact hfk
  · rw [h1, h2] at hfk; exact ⟨hfk.2, hfk.1⟩

theorem reachable_store0 : Reachable store0 :=
  Reachable.empty true [ada, bob] (by decide)

theorem reachable_storeConversingUnmatched : Reachable storeConversingUnmatched :=
  Reachable.step (.unmatch 1 2) (Reachable.step (.startConversation 1 2) reachable_storeMatched)

theorem reachable_storeUnmatched : Reachable storeUnmatched :=
  Reachable.step (.unmatch 1 2) reachable_storeMatched

/-- C11: in a store that satisfies the schema and has a Match row of the pair
`u ≠ o`, `startConversation(u,o)` succeeds with a conversation id (status 200
for a conversation that was there, 201 for a new one); repeated as
`startConversation(u,o)` or as `startConversation(o,u)` it answers with the
same id and leaves the store, hence the conversation table, as it is. -/
theorem startConversation_idempotent (db : DB) (hwf : db.WF) (u o : Nat) (hne : u ≠ o)
    (hm : hasMatch db u o = true) :
    ∃ id,
      ((startConversation db u o).2 = ⟨200, .conversation id⟩ ∨
        (startConversation db u o).2 = ⟨201, .conversation id⟩) ∧
      startConversation (startConversation db u o).1 u o =
        ((startConversation db u o).1, ⟨200, .conversation id⟩) ∧
      startConversation (startConversation db u o).1 o u =
        ((startConversation db u o).1, ⟨200, .conversation id⟩) := by
  cases hs : selectConversation db u o with
  | cons c cs =>
    have h1 := startConversation_existing db u o c cs hne hs
    refine ⟨c.id, Or.inl (by rw [h1]), ?_, ?_⟩
    · rw [h1]; exact h1
    · rw [h1]
      exact startConversation_existing db o u c cs (Ne.symm hne)
        (by rw [selectConversation_comm]; exact hs)
  | nil =>
    obtain ⟨hu, ho⟩ := userExists_of_hasMatch hwf u o hm
    have h1 := startConversation_new db u o hne hu ho hs hm
    have hs1 : selectConversation { db with
        conversations := db.conversations ++ [⟨db.next_conversation_id, u, o⟩]
        next_conversation_id := db.next_conversation_id + 1 } u o =
          [⟨db.next_conversation_id, u, o⟩] := by
      unfold selectConversation at hs ⊢
      simp [List.filter_append, hs, List.filter_cons]
    refine ⟨db.next_conversation_id, Or.inr (by rw [h1]), ?_, ?_⟩
    · rw [h1]
      exact startConversation_existing _ u o _ [] hne hs1
    · rw [h1]
      exact startConversation_existing _ o u _ [] (Ne.symm hne)
        (by rw [selectConversation_comm]; exact hs1)

theorem startConversation_idempotent_witness :
    ∃ id,
      ((startConversation storeMatched 1 2).2 = ⟨200, .conversation id⟩ ∨
        (startConversation storeMatched 1 2).2 = ⟨201, .conversation id⟩) ∧
      startConversation (startConversation storeMatched 1 2).1 1 2 =
        ((startConversation storeMatched 1 2).1, ⟨200, .conversation id⟩) ∧
      startConversation (startConversation storeMatched 1 2).1 2 1 =
        ((startConversation storeMatched 1 2).1, ⟨200, .conversation id⟩) :=
  startConversation_idempotent storeMatched (inv_of_reachable reachable_storeMatched).wf 1 2
    (by decide) (by decide)

/-- C12, as the code has it: for `u ≠ o` without Match row of the pair,
`startConversation(u,o)` creates nothing; it is answered with status 403 and
`You can only message matched users` when the pair has no conversation, and
with status 200 and the id of the conversation when the pair already has
one. -/
theorem startConversation_unmatched (db : DB) (u o : Nat) (hne : u ≠ o)
    (hm : hasMatch db u o = false) :
    (startConversation db u o).1 = db ∧
    (hasConversation db u o = false →
      (startConversation db u o).2 =
        ⟨403, .failure "You can only message matched users"⟩) ∧
    (∀ c cs, selectConversation db u o = c :: cs →
      (startConversation db u o).2 = ⟨200, .conversation c.id⟩) := by
  have hm0 : selectMatchPair db u o = [] := by simpa [hasMatch] using hm
  refine ⟨?_, ?_, ?_⟩
  · cases hs : selectConversation db u o with
    | nil => simp [startConversation, hne, hs, hm0]
    | cons c cs => rw [startConversation_existing db u o c cs hne hs]
  · intro hc
    have hc0 : selectConversation db u o = [] := by simpa [hasConversation] using hc
    simp [startConversation, hne, hc0, hm0]
  · intro c cs hs
    rw [startConversation_existing db u o c cs hne hs]

theorem startConversation_unmatched_witness :
    (startConversation storeConversingUnmatched 1 2).1 = storeConversingUnmatched ∧
    (hasConversation storeConversingUnmatched 1 2 = false →
      (startConversation storeConversingUnmatched 1 2).2 =
        ⟨403, .failure "You can only message matched users"⟩) ∧
    (∀ c cs, selectConversation storeConversingUnmatched 1 2 = c :: cs →
      (startConversation storeConversingUnmatched 1 2).2 = ⟨200, .conversation c.id⟩) :=
  startConversation_unmatched storeConversingUnmatched 1 2 (by decide) (by decide)

/-- C12 fails as stated: after `like(1,2)`, `like(2,1)`,
`startConversation(1,2)` and `unmatch(1,2)` the store is reachable and has no
Match row of users 1 and 2, and `startConversation(1,2)` succeeds with the id
of the conversation made before the unmatch. -/
theorem startConversation_after_unmatch_succeeds :
    Reachable storeConversingUnmatched ∧
    hasMatch storeConversingUnmatched 1 2 = false ∧
    startConversation storeConversingUnmatched 1 2 =
      (storeConversingUnmatched, ⟨200, .conversation 1⟩) :=
  ⟨reachable_storeConversingUnmatched, by decide, by decide⟩

/-! ## The profile gate -/

/-- What the query of `getUserById` tests for a profile of visibility
`matches`: the two Likes between viewer and target. -/
theorem canView_matches_iff (db : DB) (v : Nat) (u : User)
    (hvis : u.profile_visibility = .matches_) :
    canView db v u = true ↔ (hasLike db v u.id = true ∧ hasLike db u.id v = true) := by
  unfold canView
  rw [hvis]
  simp only [List.any_eq_true, Bool.and_eq_true, beq_iff_eq, hasLike_iff]
  constructor
  · rintro ⟨l1, hl1, l2, hl2, ⟨h1, h2⟩, h3, h4⟩
    exact ⟨⟨l1, hl1, h3, h4⟩, ⟨l2, hl2, by rw [← h2, h4], by rw [← h1, h3]⟩⟩
  · rintro ⟨⟨l1, hl1, h3, h4⟩, ⟨l2, hl2, h5, h6⟩⟩
    exact ⟨l1, hl1, l2, hl2, ⟨by rw [h3, h6], by rw [h4, h5]⟩, h3, h4⟩

/-- The profile read of a target of visibility `matches` is granted exactly
when viewer and target have liked each other. -/
theorem getUserById_matches_iff (db : DB) (v t : Nat) (u : User) (us : List User)
    (hne : t ≠ v) (hu : selectUser db t = u :: us)
    (hvis : u.profile_visibility = .matches_) :
    getUserById db v t = .user u ↔ (hasLike db v t = true ∧ hasLike db t v = true) := by
  have hid : u.id = t := by
    have hmem : u ∈ selectUser db t := by rw [hu]; exact List.mem_cons_self _ _
    simp only [selectUser, List.mem_filter, beq_iff_eq] at hmem
    exact hmem.2
  rw [← hid, ← canView_matches_iff db v u hvis]
  unfold getUserById
  rw [if_neg (by rw [hid]; exact hne), hid, hu]
  cases hc : canView db v u <;> simp [hc]

/-- C13 (the code departs from the claim): after `like(1,2)`, `like(2,1)` and
`unmatch(1,2)` the store is reachable and has no Match row of users 1 and 2,
user 2 has visibility `matches`, and the profile read of user 2 by user 1 is
granted, because the query tests the two Likes and not the Match table. -/
theorem profile_visible_after_unmatch :
    Reachable storeUnmatched ∧
    bob.profile_visibility = .matches_ ∧
    hasMatch storeUnmatched 1 2 = false ∧
    getUserById storeUnmatched 1 2 = .user bob :=
  ⟨reachable_storeUnmatched, by decide, by decide, by decide⟩

/-- C14: for a viewer `v` and an existing target `t ≠ v` with row `u`, the
profile read is granted when the visibility of `u` is `public`, and is answered
with status 403 when it is `private`, whatever Likes and Match rows the store
holds. -/
theorem profile_public_private (db : DB) (v t : Nat) (u : User) (us : List User)
    (hne : t ≠ v) (hu : selectUser db t = u :: us) :
    (u.profile_visibility = .public_ → getUserById db v t = .user u) ∧
    (u.profile_visibility = .private_ → getUserById db v t = .failure 403
      "This profile is private. Try liking them to create a match and unlock their full profile!") := by
  constructor
  · intro h
    simp [getUserById, hne, hu, canView, h]
  · intro h
    simp [getUserById, hne, hu, canView, h]

theorem profile_public_private_witness :
    (ada.profile_visibility = .public_ → getUserById storeMatched 2 1 = .user ada) ∧
    (ada.profile_visibility = .private_ → getUserById storeMatched 2 1 = .failure 403
      "This profile is private. Try liking them to create a match and unlock their full profile!") :=
  profile_public_private storeMatched 2 1 ada [] (by decide) (by decide)

/-! ## Notification kinds -/

/-- C15 (the code departs from the claim): of the four kinds that the handlers
write, `like`, `match` and `message` are members of the enumeration of
`notifications.type` and `unmatch` is not; the notification insert of
`unmatch(1,2)` on the matched example store is rejected for its kind. -/
theorem unmatch_kind_outside_enumeration :
    NotifKind.ofString "like" = some .like ∧
    NotifKind.ofString "match" = some .match_ ∧
    NotifKind.ofString "message" = some .message ∧
    NotifKind.ofString "unmatch" = none ∧
    insertNotification (deleteMatch storeMatched 1) 2 "unmatch" (some 1)
      "Ada unmatched with you" = .error .dataTruncated :=
  ⟨by decide, by decide, by decide, by decide, rfl⟩

/-! ## Like of a user that does not exist -/

/-- C17, as the code has it: in a store that satisfies the schema, `like(a,b)`
by an existing user `a` of an id `b` without user row is answered with status
500 and `Failed to like user`, the foreign key of `likes` having rejected the
insert, and the store is unchanged. -/
theorem like_missing_user (db : DB) (hwf : db.WF) (a b : Nat)
    (ha : userExists db a = true) (hb : userExists db b = false) :
    like db a b = (db, ⟨500, .failure "Failed to like user"⟩) := by
  have hne : a ≠ b := by
    intro h; rw [h, hb] at ha; cases ha
  have hl : selectLike db a b = [] := by
    cases hs : selectLike db a b with
    | nil => rfl
    | cons l t =>
      exfalso
      have hmem : l ∈ selectLike db a b := by rw [hs]; exact List.mem_cons_self _ _
      simp only [selectLike, List.mem_filter, Bool.and_eq_true, beq_iff_eq] at hmem
      have hfk := (hwf.likes_fk l hmem.1).2
      rw [hmem.2.2, hb] at hfk
      cases hfk
  simp [like, hne, hl, insertLike, ha, hb]

theorem like_missing_user_witness :
    like store0 1 3 = (store0, ⟨500, .failure "Failed to like user"⟩) :=
  like_missing_user store0 (inv_of_reachable reachable_store0).wf 1 3 (by decide) (by decide)

/-- C17 fails as stated: in the example store user 1 exists, no user has id 3,
and `like(1,3)` is answered with status 500, which is no 4xx status. -/
theorem like_missing_user_status_500 :
    userExists store0 1 = true ∧ userExists store0 3 = false ∧
    (like store0 1 3).2.status = 500 ∧
    ¬ (400 ≤ (like store0 1 3).2.status ∧ (like store0 1 3).2.status < 500) := by
  decide

/-! ## Like under storage faults -/

/-- Without faults `likeWith` is `like`. -/
theorem likeWith_no_fault : likeWith (fun _ => false) = like := by
  funext db a b
  simp [likeWith, like]

theorem insertNotification_likes {db db1 : DB} {u : Nat} {t : String} {f : Option Nat}
    {msg : String} (h : insertNotification db u t f msg = .ok db1) : db1.likes = db.likes := by
  obtain ⟨k, rfl, -⟩ := insertNotification_ok_inv h
  rfl

/-- Once the Like insert has gone through, every later outcome of `likeWith`
keeps the new Like row. -/
theorem likeWith_likes (fault : Nat → Bool) (db db1 : DB) (a b : Nat) (hne : a ≠ b)
    (h0 : fault 0 = false) (h1 : fault 1 = false) (hins : insertLike db a b = .ok db1) :
    (likeWith fault db a b).1.likes = db1.likes := by
  obtain ⟨-, -, -, hsel⟩ := insertLike_ok_inv hins
  unfold likeWith
  rw [if_neg hne, h0, hsel, h1, hins]
  simp only [Bool.false_eq_true, ↓reduceIte, List.isEmpty_nil, Bool.not_true]
  split
  · rfl
  split
  · split
    · rfl
    split
    · exact insertIgnoreMatch_likes _ _ _
    split
    · exact insertIgnoreMatch_likes _ _ _
    split
    · exact insertIgnoreMatch_likes _ _ _
    rename_i db3 h3
    split
    · rw [insertNotification_likes h3]; exact insertIgnoreMatch_likes _ _ _
    split
    · rw [insertNotification_likes h3]; exact insertIgnoreMatch_likes _ _ _
    · rename_i db4 h4
      rw [insertNotification_likes h4, insertNotification_likes h3]
      exact insertIgnoreMatch_likes _ _ _
  · split
    · rfl
    split
    · rfl
    split
    · rfl
    · rename_i db2 h2
      exact insertNotification_likes h2

/-- C16, as the code has it: a `like` that ends with status 500 is atomic only
up to its first write.  When the failure is at the duplicate check or at the
Like insert the store is as before the call; when the Like insert has gone
through and a later statement fails, the new Like row stays in the store. -/
theorem like_failure_keeps_first_write (fault : Nat → Bool) (db : DB) (a b : Nat)
    (h500 : (likeWith fault db a b).2.status = 500) :
    ((fault 0 = true ∨ fault 1 = true ∨ ∃ e, insertLike db a b = .error e) →
      (likeWith fault db a b).1 = db) ∧
    (∀ db1, fault 0 = false → fault 1 = false → insertLike db a b = .ok db1 →
      (likeWith fault db a b).1.likes = db.likes ++ [⟨db.next_like_id, a, b⟩]) := by
  have hne : a ≠ b := by
    intro hab
    simp [likeWith, hab] at h500
  constructor
  · intro h
    unfold likeWith
    rw [if_neg hne]
    split
    · rfl
    split
    · rfl
    split
    · rfl
    rename_i hf0 _ hf1
    rcases h with h | h | ⟨e, h⟩
    · exact absurd h hf0
    · exact absurd h hf1
    · rw [h]
  · intro db1 h0 h1 hins
    rw [likeWith_likes fault db db1 a b hne h0 h1 hins]
    obtain ⟨rfl, -⟩ := insertLike_ok_inv hins
    rfl

theorem like_failure_keeps_first_write_witness :
    ((decide (0 = 4) = true ∨ decide (1 = 4) = true ∨
        ∃ e, insertLike store0 1 2 = .error e) →
      (likeWith (fun k => decide (k = 4)) store0 1 2).1 = store0) ∧
    (∀ db1, decide (0 = 4) = false → decide (1 = 4) = false →
      insertLike store0 1 2 = .ok db1 →
      (likeWith (fun k => decide (k = 4)) store0 1 2).1.likes =
        store0.likes ++ [⟨store0.next_like_id, 1, 2⟩]) :=
  like_failure_keeps_first_write (fun k => decide (k = 4)) store0 1 2 (by decide)

/-- C16 fails as stated: when the notification insert of a first `like(1,2)`
throws, the call ends with status 500 and leaves the new Like row without
notification; when the second notification insert of the reciprocal `like(2,1)`
throws, the call ends with status 500 and leaves the new Like row and the new
Match row with one match notification. -/
theorem like_failure_not_atomic :
    ((likeWith (fun k => decide (k = 4)) store0 1 2).2.status = 500 ∧
      store0.likes = [] ∧
      (likeWith (fun k => decide (k = 4)) store0 1 2).1.likes = [⟨1, 1, 2⟩] ∧
      (likeWith (fun k => decide (k = 4)) store0 1 2).1.notifications = []) ∧
    ((likeWith (fun k => decide (k = 6)) storeLiked 2 1).2.status = 500 ∧
      storeLiked.matches_ = [] ∧
      (likeWith (fun k => decide (k = 6)) storeLiked 2 1).1.likes =
        storeLiked.likes ++ [⟨2, 2, 1⟩] ∧
      (likeWith (fun k => decide (k = 6)) storeLiked 2 1).1.matches_ = [⟨1, 1, 2⟩] ∧
      (likeWith (fun k => decide (k = 6)) storeLiked 2 1).1.notifications =
        storeLiked.notifications ++
          [⟨2, 1, .match_, some 2, "You have a new match!", false⟩]) := by
  decide

/-! ## The list handlers -/

/-- Rows of `listMatches`: the users other than the caller that share a Match
row with the caller. -/
theorem mem_listMatches (db : DB) (u : Nat) (r : User) :
    r ∈ listMatches db u ↔ r ∈ db.users ∧ r.id ≠ u ∧ hasMatch db u r.id = true := by
  rw [hasMatch_iff]
  simp only [listMatches, List.mem_flatMap, List.mem_filter, Bool.and_eq_true,
    Bool.or_eq_true, beq_iff_eq, Bool.not_eq_true', beq_eq_false_iff_ne, ne_eq]
  constructor
  · rintro ⟨m, hm, ⟨hr, hj⟩, hw, hne⟩
    refine ⟨hr, hne, m, hm, ?_⟩
    rcases hj with hj | hj <;> rcases hw with hw | hw
    · exact absurd (hj.trans hw) hne
    · exact Or.inr ⟨hj.symm, hw⟩
    · exact Or.inl ⟨hw, hj.symm⟩
    · exact absurd (hj.trans hw) hne
  · rintro ⟨hr, hne, m, hm, hp⟩
    refine ⟨m, hm, ⟨hr, ?_⟩, ?_, hne⟩
    · rcases hp with ⟨h1, h2⟩ | ⟨h1, h2⟩
      · exact Or.inr h2.symm
      · exact Or.inl h1.symm
    · rcases hp with ⟨h1, h2⟩ | ⟨h1, h2⟩
      · exact Or.inl h1
      · exact Or.inr h2

theorem hasLike_eq_any (db : DB) (a b : Nat) :
    hasLike db a b = db.likes.any (fun k => k.liker_id == a && k.liked_id == b) := by
  rw [Bool.eq_iff_iff, hasLike_iff]
  simp only [List.any_eq_true, Bool.and_eq_true, beq_iff_eq]

/-- A Like of `u` by an existing user shows in `listReceivedLikes` of `u`, with
`liked_back` telling whether `u` has liked that user. -/
theorem mem_listReceivedLikes_of (db : DB) (u : Nat) (l : Like) (r : User)
    (hl : l ∈ db.likes) (hlu : l.liked_id = u) (hr : r ∈ db.users)
    (hrl : r.id = l.liker_id) :
    (⟨r, hasLike db u r.id⟩ : ReceivedLikeRow) ∈ listReceivedLikes db u := by
  simp only [listReceivedLikes, List.mem_flatMap, List.mem_filter, List.mem_map,
    beq_iff_eq]
  exact ⟨l, ⟨hl, hlu⟩, r, ⟨hr, hrl⟩, by rw [hasLike_eq_any]⟩

/-- The store after a first Like and the reverse Like, whatever the Match table
held before. -/
theorem like_like_back_state (db : DB) (a b : Nat) (ra : User)
    (ha : userExists db a = true) (hb : userExists db b = true) (hne : a ≠ b)
    (h1 : hasLike db a b = false) (h2 : hasLike db b a = false)
    (hra : (selectUser db a).head? = some ra) :
    (like db a b).2 = ⟨200, .liked false none⟩ ∧
    (like (like db a b).1 b a).2 = ⟨200, .liked true (some ra.summary)⟩ ∧
    (like (like db a b).1 b a).1.users = db.users ∧
    (like (like db a b).1 b a).1.likes =
      db.likes ++ [⟨db.next_like_id, a, b⟩, ⟨db.next_like_id + 1, b, a⟩] ∧
    ∃ m ∈ (like (like db a b).1 b a).1.matches_,
      m.user1_id = min b a ∧ m.user2_id = max b a := by
  rw [like_plain db a b ra ha hb hne h1 h2 hra]
  refine ⟨rfl, ?_⟩
  simp only [hasLike, Bool.not_eq_false', List.isEmpty_eq_true] at h1 h2
  rw [like_mutual _ b a (by simpa [userExists] using hb) (by simpa [userExists] using ha)
    (Ne.symm hne)
    (by unfold hasLike; rw [selectLike_snoc db _ ⟨db.next_like_id, a, b⟩ rfl]; simp [h2, hne])
    (by unfold hasLike; rw [selectLike_snoc db _ ⟨db.next_like_id, a, b⟩ rfl]; simp [h1])]
  refine ⟨?_, ?_, ?_, ?_⟩
  · have : selectUser { db with
        likes := db.likes ++ [⟨db.next_like_id, a, b⟩]
        next_like_id := db.next_like_id + 1
        notifications := db.notifications ++
          [⟨db.next_notification_id, b, .like, some a,
            firstNameOrSomeone (some ra) ++ " liked your profile!", false⟩]
        next_notification_id := db.next_notification_id + 1 } a = selectUser db a := rfl
    simp only [this, hra, Option.map_some']
  · simp only [insertIgnoreMatch_users]
  · simp only [insertIgnoreMatch_likes, List.append_assoc, List.singleton_append]
  · exact insertIgnoreMatch_has _ _ _ (userExists_min db b a hb ha)
      (userExists_max db b a hb ha)

/-- C18: for existing users `u1 ≠ u2` with no Like between them, `like` by `u1`
of `u2` answers `isMatch = false`; the following `like` by `u2` of `u1` answers
`isMatch = true` with `matchedUser` the summary of the row of `u1`; afterwards
`listMatches(u1)` has the row of `u2`, and `listReceivedLikes(u2)` has the row
of `u1` with `liked_back` true. -/
theorem like_scenario (db : DB) (u1 u2 : Nat)
    (h1 : userExists db u1 = true) (h2 : userExists db u2 = true) (hne : u1 ≠ u2)
    (hn1 : hasLike db u1 u2 = false) (hn2 : hasLike db u2 u1 = false) :
    ∃ r1 r2 : User,
      (selectUser db u1).head? = some r1 ∧ (selectUser db u2).head? = some r2 ∧
      (like db u1 u2).2 = ⟨200, .liked false none⟩ ∧
      (like (like db u1 u2).1 u2 u1).2 = ⟨200, .liked true (some r1.summary)⟩ ∧
      r2 ∈ listMatches (like (like db u1 u2).1 u2 u1).1 u1 ∧
      (⟨r1, true⟩ : ReceivedLikeRow) ∈ listReceivedLikes (like (like db u1 u2).1 u2 u1).1 u2 := by
  obtain ⟨r1, hr1⟩ := selectUser_head_of_exists db u1 h1
  obtain ⟨r2, hr2⟩ := selectUser_head_of_exists db u2 h2
  obtain ⟨hfirst, hsecond, husers, hlikes, m, hm, hm1, hm2⟩ :=
    like_like_back_state db u1 u2 r1 h1 h2 hne hn1 hn2 hr1
  have hr1m : r1 ∈ db.users ∧ r1.id = u1 := by
    have := List.mem_of_mem_head? hr1
    simpa [selectUser] using this
  have hr2m : r2 ∈ db.users ∧ r2.id = u2 := by
    have := List.mem_of_mem_head? hr2
    simpa [selectUser] using this
  refine ⟨r1, r2, hr1, hr2, hfirst, hsecond, ?_, ?_⟩
  · rw [mem_listMatches, husers, hr2m.2]
    refine ⟨hr2m.1, Ne.symm hne, ?_⟩
    rw [hasMatch_iff]
    refine ⟨m, hm, ?_⟩
    simp only [Bool.or_eq_true, Bool.and_eq_true, beq_iff_eq]
    rcases Nat.le_total u2 u1 with h | h
    · rw [Nat.min_eq_left h] at hm1; rw [Nat.max_eq_right h] at hm2
      exact Or.inr ⟨hm1, hm2⟩
    · rw [Nat.min_eq_right h] at hm1; rw [Nat.max_eq_left h] at hm2
      exact Or.inl ⟨hm1, hm2⟩
  · have hback : hasLike (like (like db u1 u2).1 u2 u1).1 u2 r1.id = true := by
      rw [hasLike_iff, hlikes, hr1m.2]
      exact ⟨⟨db.next_like_id + 1, u2, u1⟩, by simp, rfl, rfl⟩
    have hmem := mem_listReceivedLikes_of (like (like db u1 u2).1 u2 u1).1 u2
      ⟨db.next_like_id, u1, u2⟩ r1 (by rw [hlikes]; simp) rfl
      (by rw [husers]; exact hr1m.1) hr1m.2
    rw [hback] at hmem
    exact hmem

theorem like_scenario_witness :
    ∃ r1 r2 : User,
      (selectUser store0 1).head? = some r1 ∧ (selectUser store0 2).head? = some r2 ∧
      (like store0 1 2).2 = ⟨200, .liked false none⟩ ∧
      (like (like store0 1 2).1 2 1).2 = ⟨200, .liked true (some r1.summary)⟩ ∧
      r2 ∈ listMatches (like (like store0 1 2).1 2 1).1 1 ∧
      (⟨r1, true⟩ : ReceivedLikeRow) ∈ listReceivedLikes (like (like store0 1 2).1 2 1).1 2 :=
  like_scenario store0 1 2 (by decide) (by decide) (by decide) (by decide) (by decide)

/-- In a store that keeps the invariant no row comes twice in `listMatches`. -/
theorem nodup_listMatches {db : DB} (h : db.Inv) (u : Nat) : (listMatches db u).Nodup := by
  unfold listMatches
  rw [List.nodup_flatMap]
  constructor
  · intro m _
    exact ((List.Nodup.of_map User.id h.wf.users_pk).filter _).filter _
  · have hp : db.matches_.Pairwise
        (fun m1 m2 => (m1.user1_id, m1.user2_id) ≠ (m2.user1_id, m2.user2_id)) :=
      List.pairwise_map.mp h.wf.matches_unique
    refine hp.imp_of_mem ?_
    intro m1 m2 hm1 hm2 hkey
    show List.Disjoint _ _
    intro r hr1 hr2
    apply hkey
    have key : ∀ m ∈ db.matches_,
        r ∈ (db.users.filter (fun u => u.id == m.user1_id || u.id == m.user2_id)).filter
          (fun x => (m.user1_id == u || m.user2_id == u) && !(x.id == u)) →
        (m.user1_id, m.user2_id) = (min u r.id, max u r.id) := by
      intro m hm hr
      apply pair_row_canonical h u r.id m hm
      simp only [List.mem_filter, Bool.and_eq_true, Bool.or_eq_true, beq_iff_eq,
        Bool.not_eq_true', beq_eq_false_iff_ne, ne_eq] at hr
      obtain ⟨⟨-, hj⟩, hw, hne⟩ := hr
      simp only [Bool.or_eq_true, Bool.and_eq_true, beq_iff_eq]
      rcases hj with hj | hj <;> rcases hw with hw | hw
      · exact absurd (hj.trans hw) hne
      · exact Or.inr ⟨hj.symm, hw⟩
      · exact Or.inl ⟨hw, hj.symm⟩
      · exact absurd (hj.trans hw) hne
    rw [key m1 hm1 hr1, key m2 hm2 hr2]

/-- C19: in a reachable store `listMatches(u)` has no row twice, and its rows
are exactly the rows of the existing users `v ≠ u` that have a Match row with
`u`; so after `unmatch(u,v)` on a reachable store neither the list of `u` has a
row of `v` nor the list of `v` a row of `u`. -/
theorem listMatches_exact (db : DB) (h : Reachable db) (u : Nat) :
    (listMatches db u).Nodup ∧
    (∀ r : User, r ∈ listMatches db u ↔
      r ∈ db.users ∧ r.id ≠ u ∧ hasMatch db u r.id = true) ∧
    (∀ v, u ≠ v →
      (∀ r ∈ listMatches (unmatch db u v).1 u, r.id ≠ v) ∧
      (∀ r ∈ listMatches (unmatch db u v).1 v, r.id ≠ u)) := by
  have hinv := inv_of_reachable h
  refine ⟨nodup_listMatches hinv u, fun r => mem_listMatches db u r, ?_⟩
  intro v huv
  have hno := hasMatch_unmatch hinv u v huv
  constructor
  · intro r hr hrv
    rw [mem_listMatches, hrv, hno] at hr
    exact absurd hr.2.2 (by simp)
  · intro r hr hru
    rw [mem_listMatches, hru, hasMatch_comm, hno] at hr
    exact absurd hr.2.2 (by simp)

theorem listMatches_exact_witness :
    (listMatches storeMatched 1).Nodup ∧
    (∀ r : User, r ∈ listMatches storeMatched 1 ↔
      r ∈ storeMatched.users ∧ r.id ≠ 1 ∧ hasMatch storeMatched 1 r.id = true) ∧
    (∀ v, 1 ≠ v →
      (∀ r ∈ listMatches (unmatch storeMatched 1 v).1 1, r.id ≠ v) ∧
      (∀ r ∈ listMatches (unmatch storeMatched 1 v).1 v, r.id ≠ 1)) :=
  listMatches_exact storeMatched reachable_storeMatched 1

/-! ### Sent likes -/

theorem map_flatMap_singleton {α β γ : Type} (f : α → List β) (g : β → γ) (k : α → γ)
    (l : List α) (h : ∀ x ∈ l, (f x).map g = [k x]) :
    (l.flatMap f).map g = l.map k := by
  induction l with
  | nil => rfl
  | cons x t ih =>
    rw [List.flatMap_cons, List.map_append, List.map_cons,
      h x (List.mem_cons_self _ _), ih (fun y hy => h y (List.mem_cons_of_mem _ hy))]
    rfl

/-- Under the primary key of `users` an existing id selects one row. -/
theorem selectUser_singleton {db : DB} (hwf : db.WF) (i : Nat)
    (hi : userExists db i = true) : ∃ r, selectUser db i = [r] ∧ r.id = i := by
  have hlen : (selectUser db i).length ≤ 1 :=
    length_filter_le_one User.id i _ db.users hwf.users_pk
      (fun x _ hx => by simpa using hx)
  obtain ⟨r, hr⟩ := selectUser_head_of_exists db i hi
  cases hs : selectUser db i with
  | nil => rw [hs] at hr; cases hr
  | cons x t =>
    rw [hs] at hlen
    have hx : x ∈ selectUser db i := by rw [hs]; exact List.mem_cons_self _ _
    simp only [selectUser, List.mem_filter, beq_iff_eq] at hx
    cases t with
    | nil => exact ⟨x, rfl, hx.2⟩
    | cons y t2 => simp at hlen

/-- Under the invariant the lookup at `(min a b, max a b)` finds a row exactly
when the pair has a Match row. -/
theorem hasMatch_eq_selectMatch {db : DB} (h : db.Inv) (a b : Nat) :
    hasMatch db a b = !(selectMatch db (min a b) (max a b)).isEmpty := by
  rw [Bool.eq_iff_iff]
  constructor
  · intro hm
    rw [hasMatch_iff] at hm
    obtain ⟨m, hmem, hp⟩ := hm
    have hk := pair_row_canonical h a b m hmem hp
    simp only [Prod.mk.injEq] at hk
    have hsel : m ∈ selectMatch db (min a b) (max a b) := by
      simp only [selectMatch, List.mem_filter, Bool.and_eq_true, beq_iff_eq]
      exact ⟨hmem, hk⟩
    cases hs : selectMatch db (min a b) (max a b) with
    | nil => rw [hs] at hsel; cases hsel
    | cons x t => simp
  · intro hs
    cases hh : hasMatch db a b with
    | true => rfl
    | false =>
      have h0 := selectMatch_min_max_eq_nil db a b (by simpa [hasMatch] using hh)
      rw [h0] at hs
      simp at hs

/-- Under the invariant the list `listSentLikes` has one row per Like of the
caller, with `matched` telling whether the pair has a Match row; the rows stand
in the order in which the definition goes through the Like table, which is not
the order of the answer. -/
theorem listSentLikes_map {db : DB} (h : db.Inv) (u : Nat) :
    (listSentLikes db u).map (fun r => (r.user.id, r.matched)) =
      (db.likes.filter (fun l => l.liker_id == u)).map
        (fun l => (l.liked_id, hasMatch db u l.liked_id)) := by
  unfold listSentLikes
  apply map_flatMap_singleton
  intro l hl
  simp only [List.mem_filter, beq_iff_eq] at hl
  obtain ⟨hl, hlu⟩ := hl
  obtain ⟨r, hr, hrid⟩ := selectUser_singleton h.wf l.liked_id (h.wf.likes_fk l hl).2
  unfold selectUser at hr
  rw [hr, hlu, hasMatch_eq_selectMatch h u l.liked_id]
  have hlen : (selectMatch db (min u l.liked_id) (max u l.liked_id)).length ≤ 1 :=
    length_filter_le_one (fun m : Match => (m.user1_id, m.user2_id))
      (min u l.liked_id, max u l.liked_id) _ db.matches_ h.wf.matches_unique
      (fun m _ hm => by
        simp only [Bool.and_eq_true, beq_iff_eq] at hm
        show (m.user1_id, m.user2_id) = _
        rw [hm.1, hm.2])
  cases hs : selectMatch db (min u l.liked_id) (max u l.liked_id) with
  | nil => simp [hrid]
  | cons m ms =>
    rw [hs] at hlen
    cases ms with
    | nil => simp [hrid]
    | cons m2 ms2 => simp at hlen

/-- C20: in a reachable store the rows of `listSentLikes(u)` are, up to their
order, exactly one row per Like of `u`: taken as pairs of user id and `matched`
flag they are a permutation of the Likes of `u` taken as pairs of liked user
and whether the pair has a Match row; the `matched` flag of a row is true
exactly when the pair of `u` and the user of the row has a Match row; and after
`unmatch(u,v)` the flag of the row of `v` is false. -/
theorem listSentLikes_exact (db : DB) (h : Reachable db) (u : Nat) :
    List.Perm ((listSentLikes db u).map (fun r => (r.user.id, r.matched)))
      ((db.likes.filter (fun l => l.liker_id == u)).map
        (fun l => (l.liked_id, hasMatch db u l.liked_id))) ∧
    (∀ r ∈ listSentLikes db u, r.user ∈ db.users ∧ (r.matched = true ↔
      hasMatch db u r.user.id = true)) ∧
    (∀ v, u ≠ v → ∀ r ∈ listSentLikes (unmatch db u v).1 u,
      r.user.id = v → r.matched = false) := by
  have hinv := inv_of_reachable h
  have flag : ∀ db : DB, db.Inv → ∀ r ∈ listSentLikes db u,
      r.matched = hasMatch db u r.user.id := by
    intro db hinv r hr
    have hmem : (r.user.id, r.matched) ∈
        (listSentLikes db u).map (fun r => (r.user.id, r.matched)) :=
      List.mem_map_of_mem _ hr
    rw [listSentLikes_map hinv u] at hmem
    obtain ⟨l, -, hl⟩ := List.mem_map.mp hmem
    simp only [Prod.mk.injEq] at hl
    rw [← hl.2, hl.1]
  refine ⟨List.Perm.of_eq (listSentLikes_map hinv u), ?_, ?_⟩
  · intro r hr
    refine ⟨?_, by rw [flag db hinv r hr]⟩
    simp only [listSentLikes, List.mem_flatMap, List.mem_filter] at hr
    obtain ⟨l, -, x, ⟨hx, -⟩, hrx⟩ := hr
    split at hrx
    · simp only [List.mem_singleton] at hrx; rw [hrx]; exact hx
    · simp only [List.mem_map] at hrx
      obtain ⟨_, -, hrx⟩ := hrx
      rw [← hrx]; exact hx
  · intro v huv r hr hrv
    rw [flag _ (inv_unmatch hinv u v) r hr, hrv]
    exact hasMatch_unmatch hinv u v huv

theorem listSentLikes_exact_witness :
    List.Perm ((listSentLikes storeMatched 1).map (fun r => (r.user.id, r.matched)))
      ((storeMatched.likes.filter (fun l => l.liker_id == 1)).map
        (fun l => (l.liked_id, hasMatch storeMatched 1 l.liked_id))) ∧
    (∀ r ∈ listSentLikes storeMatched 1, r.user ∈ storeMatched.users ∧
      (r.matched = true ↔ hasMatch storeMatched 1 r.user.id = true)) ∧
    (∀ v, 1 ≠ v → ∀ r ∈ listSentLikes (unmatch storeMatched 1 v).1 1,
      r.user.id = v → r.matched = false) :=
  listSentLikes_exact storeMatched reachable_storeMatched 1

/-! ## Received likes -/

/-- Under the schema the list `listReceivedLikes` has one row per Like received
by the caller, with `liked_back` telling whether the caller has liked the
sender; the rows stand in the order in which the definition goes through the
Like table, which is not the order of the answer. -/
theorem listReceivedLikes_map {db : DB} (hwf : db.WF) (u : Nat) :
    (listReceivedLikes db u).map (fun r => (r.user.id, r.liked_back)) =
      (db.likes.filter (fun l => l.liked_id == u)).map
        (fun l => (l.liker_id, hasLike db u l.liker_id)) := by
  unfold listReceivedLikes
  apply map_flatMap_singleton
  intro l hl
  simp only [List.mem_filter, beq_iff_eq] at hl
  obtain ⟨r, hr, hrid⟩ := selectUser_singleton hwf l.liker_id (hwf.likes_fk l hl.1).1
  unfold selectUser at hr
  rw [hr]
  simp [hrid, hasLike_eq_any]

/-- C21, as the code has it: in a store that satisfies the schema, the rows of
`listReceivedLikes(u)` are, up to their order, exactly one row per Like
received by `u`: taken as pairs of user id and `liked_back` they are a
permutation of the Likes received by `u` taken as pairs of liker and whether
`u` has liked the liker; each row is a user row with a `liked_back` value that
is true exactly when `u` has liked that user; the rows carry no `matched`
value. -/
theorem listReceivedLikes_exact (db : DB) (hwf : db.WF) (u : Nat) :
    List.Perm ((listReceivedLikes db u).map (fun r => (r.user.id, r.liked_back)))
      ((db.likes.filter (fun l => l.liked_id == u)).map
        (fun l => (l.liker_id, hasLike db u l.liker_id))) ∧
    (∀ r ∈ listReceivedLikes db u, r.user ∈ db.users ∧
      (r.liked_back = true ↔ hasLike db u r.user.id = true)) := by
  refine ⟨List.Perm.of_eq (listReceivedLikes_map hwf u), ?_⟩
  intro r hr
  simp only [listReceivedLikes, List.mem_flatMap, List.mem_filter, List.mem_map] at hr
  obtain ⟨l, -, x, ⟨hx, -⟩, hrx⟩ := hr
  rw [← hrx]
  exact ⟨hx, by rw [hasLike_eq_any]⟩

theorem listReceivedLikes_exact_witness :
    List.Perm ((listReceivedLikes storeMatched 2).map (fun r => (r.user.id, r.liked_back)))
      ((storeMatched.likes.filter (fun l => l.liked_id == 2)).map
        (fun l => (l.liker_id, hasLike storeMatched 2 l.liker_id))) ∧
    (∀ r ∈ listReceivedLikes storeMatched 2, r.user ∈ storeMatched.users ∧
      (r.liked_back = true ↔ hasLike storeMatched 2 r.user.id = true)) :=
  listReceivedLikes_exact storeMatched (inv_of_reachable reachable_storeMatched).wf 2

/-- C21 fails as stated: the answer of `listReceivedLikes(2)` is the same, one
row of user 1 with `liked_back` true, on the store in which users 1 and 2 are
matched and on the store after `unmatch(1,2)`, although the pair has a Match
row in the first store and none in the second; so nothing in a row tells
whether the Match row exists. -/
theorem listReceivedLikes_blind_to_match :
    listReceivedLikes storeMatched 2 = [⟨ada, true⟩] ∧
    listReceivedLikes storeUnmatched 2 = [⟨ada, true⟩] ∧
    hasMatch storeMatched 2 1 = true ∧
    hasMatch storeUnmatched 2 1 = false := by
  decide

/-! ## Read flags -/

/-- C22: `markRead(u, n)` and `markAllRead(u)` keep every table but
`notifications`, keep the rows of `notifications` in id, recipient, kind, origin
and message, and change read flags only: `markRead` sets the flag of the rows
with id `n` and recipient `u`, so it changes nothing when the notification `n`
is not addressed to `u`; `markAllRead` sets the flag of the rows with recipient
`u`, after which the unread count of `u` is 0. -/
theorem read_flags_frame (db : DB) (u n : Nat) :
    ({ (markRead db u n).1 with notifications := db.notifications } = db ∧
      (markRead db u n).1.notifications.map
          (fun x => (x.id, x.user_id, x.type, x.from_user_id, x.message)) =
        db.notifications.map (fun x => (x.id, x.user_id, x.type, x.from_user_id, x.message)) ∧
      (markRead db u n).1.notifications.map (fun x => x.is_read) =
        db.notifications.map (fun x => x.is_read || (x.id == n && x.user_id == u)) ∧
      ((∀ x ∈ db.notifications, x.id = n → x.user_id ≠ u) → (markRead db u n).1 = db)) ∧
    ({ (markAllRead db u).1 with notifications := db.notifications } = db ∧
      (markAllRead db u).1.notifications.map
          (fun x => (x.id, x.user_id, x.type, x.from_user_id, x.message)) =
        db.notifications.map (fun x => (x.id, x.user_id, x.type, x.from_user_id, x.message)) ∧
      (markAllRead db u).1.notifications.map (fun x => x.is_read) =
        db.notifications.map (fun x => x.is_read || x.user_id == u) ∧
      unreadCount (markAllRead db u).1 u = 0) := by
  refine ⟨⟨rfl, ?_, ?_, ?_⟩, ⟨rfl, ?_, ?_, ?_⟩⟩
  · simp only [markRead, List.map_map]
    apply List.map_congr_left
    intro x _
    simp only [Function.comp]
    split <;> rfl
  · simp only [markRead, List.map_map]
    apply List.map_congr_left
    intro x _
    simp only [Function.comp]
    split
    · rename_i h; simp [h]
    · rename_i h
      have : (x.id == n && x.user_id == u) = false := by simpa using h
      simp [this]
  · intro h
    have hmap : db.notifications.map (fun x =>
        if (x.id == n && x.user_id == u) = true then { x with is_read := true } else x) =
        db.notifications := by
      conv_rhs => rw [← List.map_id db.notifications]
      apply List.map_congr_left
      intro x hx
      have : (x.id == n && x.user_id == u) = false := by
        rw [Bool.eq_false_iff]
        intro hc
        simp only [Bool.and_eq_true, beq_iff_eq] at hc
        exact h x hx hc.1 hc.2
      simp [this]
    simp only [markRead, hmap]
  · simp only [markAllRead, List.map_map]
    apply List.map_congr_left
    intro x _
    simp only [Function.comp]
    split <;> rfl
  · simp only [markAllRead, List.map_map]
    apply List.map_congr_left
    intro x _
    simp only [Function.comp]
    split
    · rename_i h; simp [h]
    · rename_i h
      have : (x.user_id == u) = false := by simpa using h
      simp [this]
  · simp only [unreadCount, markAllRead, List.length_eq_zero, List.filter_eq_nil_iff,
      List.mem_map]
    rintro x ⟨y, -, rfl⟩
    split
    · simp
    · rename_i h
      simp [h]

/-! ## The Like ledger -/

/-- Every outcome of `like` keeps the Like rows that were there, in place. -/
theorem like_keeps_likes (db : DB) (a b : Nat) : db.likes <+: (like db a b).1.likes := by
  have key : ∀ db1, insertLike db a b = .ok db1 → db.likes <+: db1.likes := by
    intro db1 h1
    obtain ⟨rfl, -⟩ := insertLike_ok_inv h1
    exact List.prefix_append _ _
  apply like_cases db a b (fun r => db.likes <+: r.1.likes)
  · intro _; exact List.prefix_refl _
  · intro _ _; exact List.prefix_refl _
  · intro _ _ _ _; exact List.prefix_refl _
  · intro db1 _ _ _ h1 _ _
    show db.likes <+: (insertIgnoreMatch db1 _ _).likes
    rw [insertIgnoreMatch_likes]; exact key db1 h1
  · intro db1 db3 _ _ _ h1 _ h3 _
    show db.likes <+: db3.likes
    rw [insertNotification_likes h3, insertIgnoreMatch_likes]; exact key db1 h1
  · intro db1 db3 db4 _ _ h1 _ h3 h4
    show db.likes <+: db4.likes
    rw [insertNotification_likes h4, insertNotification_likes h3, insertIgnoreMatch_likes]
    exact key db1 h1
  · intro db1 _ _ _ h1 _ _; exact key db1 h1
  · intro db1 db2 _ _ h1 _ h2
    show db.likes <+: db2.likes
    rw [insertNotification_likes h2]; exact key db1 h1

theorem startConversation_likes (db : DB) (a b : Nat) :
    (startConversation db a b).1.likes = db.likes := by
  apply startConversation_cases db a b (fun r => r.1.likes = db.likes)
  · intro _; rfl
  · intro _ _ _ _; rfl
  · intro _ _ _; rfl
  · intro _ _ _ _ _; rfl
  · intro db1 n _ _ _ hi
    obtain ⟨rfl, -⟩ := insertConversation_ok_inv hi
    rfl

/-- C23: a call of `like` keeps every Like row that was there, unchanged and
in place, and `unmatch` and `startConversation` leave the Like table as it is;
`dislike` leaves the whole store as it is. -/
theorem likes_only_grow (db : DB) (a b : Nat) :
    db.likes <+: (like db a b).1.likes ∧
    (dislike db a b).1 = db ∧
    (unmatch db a b).1.likes = db.likes ∧
    (startConversation db a b).1.likes = db.likes := by
  refine ⟨like_keeps_likes db a b, ?_, unmatch_likes db a b, startConversation_likes db a b⟩
  unfold dislike
  split <;> rfl

/-! ## A notification that fails after the Match insert -/

/-- C24: when a `like` that finds the reverse Like gets through its first five
statements and one of its two notification inserts throws, the call ends with
status 500 and the store keeps the new Like row and the Match row of the
pair. -/
theorem match_survives_failed_notification (fault : Nat → Bool) (db : DB) (a b : Nat)
    (ha : userExists db a = true) (hb : userExists db b = true) (hne : a ≠ b)
    (h1 : hasLike db a b = false) (h2 : hasLike db b a = true)
    (hf : ∀ k, k ≤ 4 → fault k = false) (hfail : fault 5 = true ∨ fault 6 = true) :
    (likeWith fault db a b).2 = ⟨500, .failure "Failed to like user"⟩ ∧
    hasLike (likeWith fault db a b).1 a b = true ∧
    ∃ m ∈ (likeWith fault db a b).1.matches_,
      m.user1_id = min a b ∧ m.user2_id = max a b := by
  simp only [hasLike, Bool.not_eq_false', Bool.not_eq_true', List.isEmpty_eq_true] at h1 h2
  have h2' : ¬ selectLike db b a = [] := by
    intro h; rw [h] at h2; simp at h2
  have hmatch := insertIgnoreMatch_has { db with
      likes := db.likes ++ [⟨db.next_like_id, a, b⟩]
      next_like_id := db.next_like_id + 1 } (min a b) (max a b)
    (userExists_min db a b ha hb) (userExists_max db a b ha hb)
  have hlike : ∀ db2 : DB, db2.likes = db.likes ++ [⟨db.next_like_id, a, b⟩] →
      hasLike db2 a b = true := by
    intro db2 h
    rw [hasLike_iff, h]
    exact ⟨⟨db.next_like_id, a, b⟩, by simp, rfl, rfl⟩
  simp only [userExists] at ha hb
  by_cases h5 : fault 5 = true
  · have hres : likeWith fault db a b =
        (insertIgnoreMatch { db with
            likes := db.likes ++ [⟨db.next_like_id, a, b⟩]
            next_like_id := db.next_like_id + 1 } (min a b) (max a b),
          ⟨500, .failure "Failed to like user"⟩) := by
      simp [likeWith, hne, hf 0, hf 1, hf 2, hf 3, hf 4, h5, h1, insertLike, userExists,
        ha, hb, selectLike_append, h2']
    rw [hres]
    exact ⟨rfl, hlike _ (insertIgnoreMatch_likes _ _ _), hmatch⟩
  · have h6 : fault 6 = true := by
      rcases hfail with h | h
      · exact absurd h h5
      · exact h
    have h5' : fault 5 = false := by simpa using h5
    have hres : likeWith fault db a b =
        ({ insertIgnoreMatch { db with
              likes := db.likes ++ [⟨db.next_like_id, a, b⟩]
              next_like_id := db.next_like_id + 1 } (min a b) (max a b) with
            notifications := db.notifications ++
              [⟨db.next_notification_id, b, .match_, some a, "You have a new match!", false⟩]
            next_notification_id := db.next_notification_id + 1 },
          ⟨500, .failure "Failed to like user"⟩) := by
      simp [likeWith, hne, hf 0, hf 1, hf 2, hf 3, hf 4, h5', h6, h1, insertLike, userExists,
        ha, hb, selectLike_append, h2', insertNotification, ofString_match,
        insertIgnoreMatch_users, insertIgnoreMatch_notifications,
        insertIgnoreMatch_next_notification_id]
    rw [hres]
    exact ⟨rfl, hlike _ (insertIgnoreMatch_likes _ _ _), hmatch⟩

theorem match_survives_failed_notification_witness :
    (likeWith (fun k => decide (k = 6)) storeLiked 2 1).2 =
      ⟨500, .failure "Failed to like user"⟩ ∧
    hasLike (likeWith (fun k => decide (k = 6)) storeLiked 2 1).1 2 1 = true ∧
    ∃ m ∈ (likeWith (fun k => decide (k = 6)) storeLiked 2 1).1.matches_,
      m.user1_id = min 2 1 ∧ m.user2_id = max 2 1 :=
  match_survives_failed_notification (fun k => decide (k = 6)) storeLiked 2 1 (by decide)
    (by decide) (by decide) (by decide) (by decide)
    (fun k hk => by
      have : k ≠ 6 := by omega
      simp [this])
    (Or.inr (by decide))

/-! ## Dispatch of `GET /matches` -/

/-- No request path is dispatched to the potential-matches handler: a path of
one non-empty segment is taken by `'/:id'`, registered before `'/matches'`. -/
theorem getPotentialMatches_unreachable (m : Method) (path : List String) :
    dispatch usersRouter m path ≠ some .getPotentialMatches := by
  intro h
  have hkey : m = .get ∧ path = ["matches"] := by
    simp only [dispatch, Option.map_eq_some'] at h
    obtain ⟨r, hr, hr2⟩ := h
    have hmem := List.mem_of_find?_eq_some hr
    have hp := List.find?_some hr
    simp only [usersRouter, List.mem_cons, List.mem_singleton, List.not_mem_nil,
      or_false] at hmem
    rcases hmem with rfl | rfl | rfl | rfl | rfl | rfl | rfl
    · cases hr2
    · cases hr2
    · cases hr2
    · cases hr2
    · simp only [Bool.and_eq_true, beq_iff_eq] at hp
      refine ⟨hp.1.symm, ?_⟩
      have hacc := hp.2
      cases path with
      | nil => simp [RoutePath.accepts] at hacc
      | cons x t =>
        cases t with
        | nil =>
          simp only [RoutePath.accepts, beq_iff_eq] at hacc
          rw [hacc]
        | cons y t2 => simp [RoutePath.accepts] at hacc
    · cases hr2
    · cases hr2
  obtain ⟨rfl, rfl⟩ := hkey
  revert h
  decide

/-- C30 (the code departs from the claim): in the users router a `GET` of
`'/matches'` is dispatched to the get-user-by-id handler, whose route `'/:id'`
is registered before `'/matches'`, and not to the potential-matches handler. -/
theorem get_matches_captured_by_id :
    dispatch usersRouter .get ["matches"] = some .getUserById ∧
    dispatch usersRouter .get ["matches"] ≠ some .getPotentialMatches := by
  decide

/-! ## Conversations in reachable stores -/

theorem insertIgnoreMatch_conversations (db : DB) (a b : Nat) :
    (insertIgnoreMatch db a b).conversations = db.conversations := by
  unfold insertIgnoreMatch; split
  · rfl
  · split <;> rfl

theorem insertNotification_conversations {db db1 : DB} {u : Nat} {t : String}
    {f : Option Nat} {msg : String} (h : insertNotification db u t f msg = .ok db1) :
    db1.conversations = db.conversations := by
  obtain ⟨k, rfl, -⟩ := insertNotification_ok_inv h
  rfl

theorem like_conversations (db : DB) (a b : Nat) :
    (like db a b).1.conversations = db.conversations := by
  have key : ∀ db1, insertLike db a b = .ok db1 → db1.conversations = db.conversations := by
    intro db1 h1
    obtain ⟨rfl, -⟩ := insertLike_ok_inv h1
    rfl
  apply like_cases db a b (fun r => r.1.conversations = db.conversations)
  · intro _; rfl
  · intro _ _; rfl
  · intro _ _ _ _; rfl
  · intro db1 _ _ _ h1 _ _
    show (insertIgnoreMatch db1 _ _).conversations = _
    rw [insertIgnoreMatch_conversations]; exact key db1 h1
  · intro db1 db3 _ _ _ h1 _ h3 _
    show db3.conversations = _
    rw [insertNotification_conversations h3, insertIgnoreMatch_conversations]
    exact key db1 h1
  · intro db1 db3 db4 _ _ h1 _ h3 h4
    show db4.conversations = _
    rw [insertNotification_conversations h4, insertNotification_conversations h3,
      insertIgnoreMatch_conversations]
    exact key db1 h1
  · intro db1 _ _ _ h1 _ _; exact key db1 h1
  · intro db1 db2 _ _ h1 _ h2
    show db2.conversations = _
    rw [insertNotification_conversations h2]; exact key db1 h1

theorem selectConversation_congr (db db1 : DB) (h : db1.conversations = db.conversations)
    (a b : Nat) : selectConversation db1 a b = selectConversation db a b := by
  simp [selectConversation, h]

/-- One request keeps the conversation table with at most one row per
unordered pair. -/
theorem one_conversation_per_pair_run (db : DB) (op : Op)
    (h : ∀ a b, (selectConversation db a b).length ≤ 1) :
    ∀ a b, (selectConversation (op.run db) a b).length ≤ 1 := by
  intro a b
  cases op with
  | like x y =>
    show (selectConversation (like db x y).1 a b).length ≤ 1
    rw [selectConversation_congr db _ (like_conversations db x y)]; exact h a b
  | unmatch x y =>
    show (selectConversation (unmatch db x y).1 a b).length ≤ 1
    rw [selectConversation_congr db _ (unmatch_frame db x y).2.2]; exact h a b
  | startConversation x y =>
    show (selectConversation (startConversation db x y).1 a b).length ≤ 1
    apply startConversation_cases db x y
      (fun r => (selectConversation r.1 a b).length ≤ 1)
    · intro _; exact h a b
    · intro _ _ _ _; exact h a b
    · intro _ _ _; exact h a b
    · intro _ _ _ _ _; exact h a b
    · intro db1 n _ hs _ hi
      obtain ⟨rfl, -⟩ := insertConversation_ok_inv hi
      show (selectConversation _ a b).length ≤ 1
      unfold selectConversation
      simp only [List.filter_append, List.length_append]
      by_cases hp : ((x == a && y == b) || (x == b && y == a)) = true
      · have hnil : selectConversation db a b = [] := by
          simp only [Bool.or_eq_true, Bool.and_eq_true, beq_iff_eq] at hp
          rcases hp with ⟨h1, h2⟩ | ⟨h1, h2⟩
          · rw [← h1, ← h2]; exact hs
          · rw [← h1, ← h2, selectConversation_comm]; exact hs
        unfold selectConversation at hnil
        rw [hnil]
        simp [List.filter_cons, hp]
      · have h0 := h a b
        unfold selectConversation at h0
        simp [List.filter_cons, hp, h0]

theorem hasConversation_iff (db : DB) (a b : Nat) :
    hasConversation db a b = true ↔ ∃ c ∈ db.conversations,
      ((c.user1_id == a && c.user2_id == b) || (c.user1_id == b && c.user2_id == a))
        = true := by
  unfold hasConversation selectConversation
  constructor
  · intro h
    cases hs : db.conversations.filter (fun c =>
        (c.user1_id == a && c.user2_id == b) || (c.user1_id == b && c.user2_id == a)) with
    | nil => rw [hs] at h; simp at h
    | cons c t =>
      have hmem : c ∈ db.conversations.filter (fun c =>
          (c.user1_id == a && c.user2_id == b) || (c.user1_id == b && c.user2_id == a)) := by
        rw [hs]; exact List.mem_cons_self _ _
      rw [List.mem_filter] at hmem
      exact ⟨c, hmem.1, hmem.2⟩
  · rintro ⟨c, hc, hp⟩
    have hmem : c ∈ db.conversations.filter (fun c =>
        (c.user1_id == a && c.user2_id == b) || (c.user1_id == b && c.user2_id == a)) := by
      rw [List.mem_filter]; exact ⟨hc, hp⟩
    cases hs : db.conversations.filter (fun c =>
        (c.user1_id == a && c.user2_id == b) || (c.user1_id == b && c.user2_id == a)) with
    | nil => rw [hs] at hmem; cases hmem
    | cons l t => simp

/-- Under the invariant both Likes of a matched pair are there. -/
theorem likes_of_hasMatch {db : DB} (h : db.Inv) (a b : Nat) (hm : hasMatch db a b = true) :
    hasLike db a b = true ∧ hasLike db b a = true := by
  rw [hasMatch_iff] at hm
  obtain ⟨m, hmem, hp⟩ := hm
  have hl := h.matches_likes m hmem
  simp only [Bool.or_eq_true, Bool.and_eq_true, beq_iff_eq] at hp
  rcases hp with ⟨h1, h2⟩ | ⟨h1, h2⟩
  · rw [h1, h2] at hl; exact hl
  · rw [h1, h2] at hl; exact ⟨hl.2, hl.1⟩

/-- One request keeps every conversation between users that have liked each
other. -/
theorem conversation_likes_run (db : DB) (hinv : db.Inv) (op : Op)
    (h : ∀ c ∈ db.conversations,
      hasLike db c.user1_id c.user2_id = true ∧ hasLike db c.user2_id c.user1_id = true) :
    ∀ c ∈ (op.run db).conversations,
      hasLike (op.run db) c.user1_id c.user2_id = true ∧
      hasLike (op.run db) c.user2_id c.user1_id = true := by
  cases op with
  | like x y =>
    intro c hc
    have hc' : c ∈ (like db x y).1.conversations := hc
    rw [like_conversations] at hc'
    have hmono : ∀ l ∈ db.likes, l ∈ (like db x y).1.likes :=
      fun l hl => (like_keeps_likes db x y).subset hl
    exact ⟨hasLike_mono db _ _ _ hmono (h c hc').1, hasLike_mono db _ _ _ hmono (h c hc').2⟩
  | unmatch x y =>
    intro c hc
    have hc' : c ∈ (unmatch db x y).1.conversations := hc
    rw [(unmatch_frame db x y).2.2] at hc'
    show hasLike (unmatch db x y).1 _ _ = true ∧ hasLike (unmatch db x y).1 _ _ = true
    rw [hasLike_congr db _ (unmatch_likes db x y), hasLike_congr db _ (unmatch_likes db x y)]
    exact h c hc'
  | startConversation x y =>
    show ∀ c ∈ (startConversation db x y).1.conversations,
      hasLike (startConversation db x y).1 c.user1_id c.user2_id = true ∧
      hasLike (startConversation db x y).1 c.user2_id c.user1_id = true
    apply startConversation_cases db x y (fun r => ∀ c ∈ r.1.conversations,
      hasLike r.1 c.user1_id c.user2_id = true ∧ hasLike r.1 c.user2_id c.user1_id = true)
    · intro _; exact h
    · intro _ _ _ _; exact h
    · intro _ _ _; exact h
    · intro _ _ _ _ _; exact h
    · intro db1 n _ _ hm hi
      obtain ⟨rfl, -⟩ := insertConversation_ok_inv hi
      intro c hc
      rcases List.mem_append.mp hc with hc | hc
      · exact h c hc
      · simp only [List.mem_singleton] at hc
        subst hc
        exact likes_of_hasMatch hinv x y hm

/-- C28: in every store reachable from an empty one by `like`, `unmatch` and
`startConversation`, a pair of users with a conversation has both Likes. -/
theorem conversation_implies_likes (db : DB) (h : Reachable db) (a b : Nat)
    (hc : hasConversation db a b = true) :
    hasLike db a b = true ∧ hasLike db b a = true := by
  have hall : ∀ c ∈ db.conversations,
      hasLike db c.user1_id c.user2_id = true ∧ hasLike db c.user2_id c.user1_id = true := by
    clear hc
    induction h with
    | empty strict users hpk => intro c hc; simp [emptyStore] at hc
    | step op hr ih => exact conversation_likes_run _ (inv_of_reachable hr) op ih
  rw [hasConversation_iff] at hc
  obtain ⟨c, hmem, hp⟩ := hc
  have hl := hall c hmem
  simp only [Bool.or_eq_true, Bool.and_eq_true, beq_iff_eq] at hp
  rcases hp with ⟨h1, h2⟩ | ⟨h1, h2⟩
  · rw [h1, h2] at hl; exact hl
  · rw [h1, h2] at hl; exact ⟨hl.2, hl.1⟩

theorem reachable_storeConversing : Reachable storeConversing :=
  Reachable.step (.startConversation 1 2) reachable_storeMatched

theorem conversation_implies_likes_witness :
    hasLike storeConversingUnmatched 1 2 = true ∧
    hasLike storeConversingUnmatched 2 1 = true :=
  conversation_implies_likes storeConversingUnmatched reachable_storeConversingUnmatched 1 2
    (by decide)

/-- C29: in every store reachable from an empty one by `like`, `unmatch` and
`startConversation`, an unordered pair of users has at most one conversation
row: at most one row is stored as `(a, b)` or as `(b, a)`. -/
theorem conversation_pair_unique (db : DB) (h : Reachable db) (a b : Nat) :
    (selectConversation db a b).length ≤ 1 := by
  have hall : ∀ a b, (selectConversation db a b).length ≤ 1 := by
    induction h with
    | empty strict users hpk => intro a b; simp [selectConversation, emptyStore]
    | step op _ ih => exact one_conversation_per_pair_run _ op ih
  exact hall a b

theorem conversation_pair_unique_witness :
    (selectConversation (startConversation storeConversing 2 1).1 1 2).length ≤ 1 :=
  conversation_pair_unique (startConversation storeConversing 2 1).1
    (Reachable.step (.startConversation 2 1) reachable_storeConversing) 1 2

/-! ## The life of a Match row -/

theorem insertIgnoreMatch_matches (db : DB) (u v : Nat) :
    (insertIgnoreMatch db u v).matches_ = db.matches_ ∨
    (insertIgnoreMatch db u v).matches_ = db.matches_ ++ [⟨db.next_match_id, u, v⟩] := by
  unfold insertIgnoreMatch; split
  · exact Or.inl rfl
  · split
    · exact Or.inl rfl
    · exact Or.inr rfl

theorem insertNotification_matches {db db1 : DB} {u : Nat} {t : String} {f : Option Nat}
    {msg : String} (h : insertNotification db u t f msg = .ok db1) :
    db1.matches_ = db.matches_ := by
  obtain ⟨k, rfl, -⟩ := insertNotification_ok_inv h
  rfl

/-- The Match table after `like`: as before, or with the row of the pair
added. -/
theorem like_matches_cases (db : DB) (x y : Nat) :
    (like db x y).1.matches_ = db.matches_ ∨
    (x ≠ y ∧ (like db x y).1.matches_ =
      db.matches_ ++ [⟨db.next_match_id, min x y, max x y⟩]) := by
  have key : ∀ db1, x ≠ y → insertLike db x y = .ok db1 →
      (insertIgnoreMatch db1 (min x y) (max x y)).matches_ = db.matches_ ∨
      (x ≠ y ∧ (insertIgnoreMatch db1 (min x y) (max x y)).matches_ =
        db.matches_ ++ [⟨db.next_match_id, min x y, max x y⟩]) := by
    intro db1 hne h1
    obtain ⟨rfl, -⟩ := insertLike_ok_inv h1
    rcases insertIgnoreMatch_matches { db with
        likes := db.likes ++ [⟨db.next_like_id, x, y⟩]
        next_like_id := db.next_like_id + 1 } (min x y) (max x y) with h | h
    · exact Or.inl h
    · exact Or.inr ⟨hne, h⟩
  apply like_cases db x y (fun r => r.1.matches_ = db.matches_ ∨
    (x ≠ y ∧ r.1.matches_ = db.matches_ ++ [(⟨db.next_match_id, min x y, max x y⟩ : Match)]))
  · intro _; exact Or.inl rfl
  · intro _ _; exact Or.inl rfl
  · intro _ _ _ _; exact Or.inl rfl
  · intro db1 _ hne _ h1 _ _; exact key db1 hne h1
  · intro db1 db3 _ hne _ h1 _ h3 _
    show db3.matches_ = _ ∨ (_ ∧ db3.matches_ = _)
    rw [insertNotification_matches h3]; exact key db1 hne h1
  · intro db1 db3 db4 hne _ h1 _ h3 h4
    show db4.matches_ = _ ∨ (_ ∧ db4.matches_ = _)
    rw [insertNotification_matches h4, insertNotification_matches h3]; exact key db1 hne h1
  · intro db1 _ _ _ h1 _ _
    obtain ⟨rfl, -⟩ := insertLike_ok_inv h1
    exact Or.inl rfl
  · intro db1 db2 _ _ h1 _ h2
    show db2.matches_ = _ ∨ (_ ∧ db2.matches_ = _)
    rw [insertNotification_matches h2]
    obtain ⟨rfl, -⟩ := insertLike_ok_inv h1
    exact Or.inl rfl

theorem hasMatch_mono (db db1 : DB) (a b : Nat) (h : ∀ m ∈ db.matches_, m ∈ db1.matches_)
    (hm : hasMatch db a b = true) : hasMatch db1 a b = true := by
  rw [hasMatch_iff] at hm ⊢
  obtain ⟨m, hmem, hp⟩ := hm
  exact ⟨m, h m hmem, hp⟩

theorem like_matches_subset (db : DB) (x y : Nat) :
    ∀ m ∈ db.matches_, m ∈ (like db x y).1.matches_ := by
  intro m hm
  rcases like_matches_cases db x y with h | ⟨-, h⟩
  · rw [h]; exact hm
  · rw [h]; exact List.mem_append_left _ hm

theorem startConversation_matches (db : DB) (a b : Nat) :
    (startConversation db a b).1.matches_ = db.matches_ := by
  apply startConversation_cases db a b (fun r => r.1.matches_ = db.matches_)
  · intro _; rfl
  · intro _ _ _ _; rfl
  · intro _ _ _; rfl
  · intro _ _ _ _ _; rfl
  · intro db1 n _ _ _ hi
    obtain ⟨rfl, -⟩ := insertConversation_ok_inv hi
    rfl

/-- The Match rows after `unmatch` are rows that were there. -/
theorem unmatch_matches_subset (db : DB) (x y : Nat) :
    ∀ m ∈ (unmatch db x y).1.matches_, m ∈ db.matches_ := by
  apply unmatch_cases db x y (fun r => ∀ m ∈ r.1.matches_, m ∈ db.matches_)
  · intro _ m hm; exact hm
  · intro _ _ m hm; exact hm
  · intro m0 _ _ _ _ _ m hm
    exact (List.mem_filter.mp hm).1
  · intro m0 _ db2 _ _ h2 m hm
    have hm' : m ∈ db2.matches_ := hm
    rw [insertNotification_matches h2] at hm'
    exact (List.mem_filter.mp hm').1

theorem min_max_eq_cases (a b x y : Nat) (h1 : min a b = min x y) (h2 : max a b = max x y) :
    (x = a ∧ y = b) ∨ (x = b ∧ y = a) := by
  simp only [Nat.min_def, Nat.max_def] at h1 h2
  split_ifs at h1 h2 <;> omega

/-- A `like` that adds its Like row next to the reverse Like leaves a Match
row of the pair. -/
theorem hasMatch_of_like_completes (db : DB) (x y : Nat) (hnew : hasLike db x y = false)
    (h1 : hasLike (like db x y).1 x y = true) (h2 : hasLike (like db x y).1 y x = true) :
    hasMatch (like db x y).1 x y = true := by
  revert h1 h2
  have key : ∀ db1, x ≠ y → insertLike db x y = .ok db1 →
      ∀ db2 : DB, db2.matches_ = (insertIgnoreMatch db1 (min x y) (max x y)).matches_ →
      hasMatch db2 x y = true := by
    intro db1 hne hins db2 hdb2
    obtain ⟨rfl, hx, hy, -⟩ := insertLike_ok_inv hins
    obtain ⟨m, hm, hm1, hm2⟩ := insertIgnoreMatch_has { db with
        likes := db.likes ++ [⟨db.next_like_id, x, y⟩]
        next_like_id := db.next_like_id + 1 } (min x y) (max x y)
      (userExists_min db x y hx hy) (userExists_max db x y hx hy)
    rw [hasMatch_iff]
    refine ⟨m, by rw [hdb2]; exact hm, ?_⟩
    simp only [Bool.or_eq_true, Bool.and_eq_true, beq_iff_eq]
    rcases Nat.le_total x y with h | h
    · rw [Nat.min_eq_left h] at hm1; rw [Nat.max_eq_right h] at hm2
      exact Or.inl ⟨hm1, hm2⟩
    · rw [Nat.min_eq_right h] at hm1; rw [Nat.max_eq_left h] at hm2
      exact Or.inr ⟨hm1, hm2⟩
  apply like_cases db x y (fun r =>
    hasLike r.1 x y = true → hasLike r.1 y x = true → hasMatch r.1 x y = true)
  · intro _ h1 _; rw [hnew] at h1; cases h1
  · intro _ _ h1 _; rw [hnew] at h1; cases h1
  · intro _ _ _ _ h1 _; rw [hnew] at h1; cases h1
  · intro db1 _ hne _ hins _ _ _ _; exact key db1 hne hins _ rfl
  · intro db1 db3 _ hne _ hins _ h3 _ _ _
    exact key db1 hne hins db3 (insertNotification_matches h3)
  · intro db1 db3 db4 hne _ hins _ h3 h4 _ _
    exact key db1 hne hins db4
      (by rw [insertNotification_matches h4, insertNotification_matches h3])
  · intro db1 _ _ _ _ hr _ _ h2
    have h2' : hasLike db1 y x = true := h2
    rw [hr] at h2'; cases h2'
  · intro db1 db2 _ _ _ hr hn _ h2
    have h2' : hasLike db2 y x = true := h2
    rw [hasLike_congr db1 db2 (insertNotification_likes hn), hr] at h2'
    cases h2'

/-- The Like table after `like`: as before, or with the new row added. -/
theorem like_likes_cases (db : DB) (x y : Nat) :
    (like db x y).1.likes = db.likes ∨
    (like db x y).1.likes = db.likes ++ [⟨db.next_like_id, x, y⟩] := by
  have key : ∀ db1, insertLike db x y = .ok db1 →
      db1.likes = db.likes ++ [⟨db.next_like_id, x, y⟩] := by
    intro db1 h1
    obtain ⟨rfl, -⟩ := insertLike_ok_inv h1
    rfl
  apply like_cases db x y (fun r => r.1.likes = db.likes ∨
    r.1.likes = db.likes ++ [(⟨db.next_like_id, x, y⟩ : Like)])
  · intro _; exact Or.inl rfl
  · intro _ _; exact Or.inl rfl
  · intro _ _ _ _; exact Or.inl rfl
  · intro db1 _ _ _ h1 _ _
    exact Or.inr (by
      show (insertIgnoreMatch db1 _ _).likes = _
      rw [insertIgnoreMatch_likes]; exact key db1 h1)
  · intro db1 db3 _ _ _ h1 _ h3 _
    exact Or.inr (by
      show db3.likes = _
      rw [insertNotification_likes h3, insertIgnoreMatch_likes]; exact key db1 h1)
  · intro db1 db3 db4 _ _ h1 _ h3 h4
    exact Or.inr (by
      show db4.likes = _
      rw [insertNotification_likes h4, insertNotification_likes h3, insertIgnoreMatch_likes]
      exact key db1 h1)
  · intro db1 _ _ _ h1 _ _; exact Or.inr (key db1 h1)
  · intro db1 db2 _ _ h1 _ h2
    exact Or.inr (by
      show db2.likes = _
      rw [insertNotification_likes h2]; exact key db1 h1)

/-- A Like seen after `like(x,y)` was there before or is the Like from `x` to
`y`. -/
theorem hasLike_after_like (db : DB) (x y a b : Nat)
    (h : hasLike (like db x y).1 a b = true) :
    hasLike db a b = true ∨ (a = x ∧ b = y) := by
  rcases like_likes_cases db x y with hl | hl
  · rw [hasLike_congr db _ hl] at h; exact Or.inl h
  · rw [hasLike_iff, hl] at h
    obtain ⟨l, hmem, h1, h2⟩ := h
    rcases List.mem_append.mp hmem with hm | hm
    · exact Or.inl ((hasLike_iff db a b).mpr ⟨l, hm, h1, h2⟩)
    · simp only [List.mem_singleton] at hm
      subst hm
      exact Or.inr ⟨h1.symm, h2.symm⟩

/-- A pair with both Likes and no Match row stays so under every request. -/
theorem stale_run (db : DB) (a b : Nat) (op : Op)
    (h1 : hasLike db a b = true) (h2 : hasLike db b a = true)
    (hm : hasMatch db a b = false) :
    hasLike (op.run db) a b = true ∧ hasLike (op.run db) b a = true ∧
    hasMatch (op.run db) a b = false := by
  cases op with
  | like x y =>
    show hasLike (like db x y).1 a b = true ∧ hasLike (like db x y).1 b a = true ∧
      hasMatch (like db x y).1 a b = false
    have hmono : ∀ l ∈ db.likes, l ∈ (like db x y).1.likes :=
      fun l hl => (like_keeps_likes db x y).subset hl
    refine ⟨hasLike_mono db _ _ _ hmono h1, hasLike_mono db _ _ _ hmono h2, ?_⟩
    rcases like_matches_cases db x y with hc | ⟨hne, hc⟩
    · unfold hasMatch selectMatchPair at hm ⊢
      rw [hc]; exact hm
    · cases hh : hasMatch (like db x y).1 a b with
      | false => rfl
      | true =>
        exfalso
        rw [hasMatch_iff, hc] at hh
        obtain ⟨m, hmem, hp⟩ := hh
        rcases List.mem_append.mp hmem with hmem | hmem
        · have : hasMatch db a b = true := (hasMatch_iff db a b).mpr ⟨m, hmem, hp⟩
          rw [hm] at this; cases this
        · simp only [List.mem_singleton] at hmem
          subst hmem
          simp only [Bool.or_eq_true, Bool.and_eq_true, beq_iff_eq] at hp
          have hxy : (x = a ∧ y = b) ∨ (x = b ∧ y = a) := by
            simp only [Nat.min_def, Nat.max_def] at hp
            split_ifs at hp <;> omega
          have hdup : hasLike db x y = true := by
            rcases hxy with ⟨rfl, rfl⟩ | ⟨rfl, rfl⟩
            · exact h1
            · exact h2
          have hsame := like_again db x y hne hdup
          rw [hsame] at hc
          have hlen := congrArg List.length hc
          simp at hlen
  | unmatch x y =>
    show hasLike (unmatch db x y).1 a b = true ∧ hasLike (unmatch db x y).1 b a = true ∧
      hasMatch (unmatch db x y).1 a b = false
    rw [hasLike_congr db _ (unmatch_likes db x y), hasLike_congr db _ (unmatch_likes db x y)]
    refine ⟨h1, h2, ?_⟩
    cases hh : hasMatch (unmatch db x y).1 a b with
    | false => rfl
    | true =>
      have := hasMatch_mono _ db a b (unmatch_matches_subset db x y) hh
      rw [hm] at this; cases this
  | startConversation x y =>
    show hasLike (startConversation db x y).1 a b = true ∧
      hasLike (startConversation db x y).1 b a = true ∧
      hasMatch (startConversation db x y).1 a b = false
    rw [hasLike_congr db _ (startConversation_likes db x y),
      hasLike_congr db _ (startConversation_likes db x y)]
    refine ⟨h1, h2, ?_⟩
    unfold hasMatch selectMatchPair at hm ⊢
    rw [startConversation_matches]; exact hm

theorem stale_runOps (ops : List Op) (db : DB) (a b : Nat)
    (h1 : hasLike db a b = true) (h2 : hasLike db b a = true)
    (hm : hasMatch db a b = false) : hasMatch (runOps db ops) a b = false := by
  induction ops generalizing db with
  | nil => exact hm
  | cons op t ih =>
    obtain ⟨k1, k2, km⟩ := stale_run db a b op h1 h2 hm
    exact ih (op.run db) k1 k2 km

theorem ne_of_hasMatch {db : DB} (h : db.Inv) (a b : Nat) (hm : hasMatch db a b = true) :
    a ≠ b := by
  rw [hasMatch_iff] at hm
  obtain ⟨m, hmem, hp⟩ := hm
  have hlt := h.matches_lt_pair m hmem
  simp only [Bool.or_eq_true, Bool.and_eq_true, beq_iff_eq] at hp
  rcases hp with ⟨h1, h2⟩ | ⟨h1, h2⟩ <;> omega

/-- C26: in a store reachable from an empty one by `like`, `unmatch` and
`startConversation`, a `like` that answers `isMatch = true` finds no Match row
of the pair before the call; and once `unmatch(a,b)` has removed the Match row
of a matched pair, no later history of these requests makes a Match row of the
pair exist again. -/
theorem match_created_once (db : DB) (h : Reachable db) (a b : Nat) :
    ((like db a b).2.isMatch = some true → hasMatch db a b = false) ∧
    (hasMatch db a b = true →
      ∀ ops, hasMatch (runOps (unmatch db a b).1 ops) a b = false) := by
  have hinv := inv_of_reachable h
  constructor
  · intro his
    cases hm : hasMatch db a b with
    | false => rfl
    | true =>
      exfalso
      have hne := ne_of_hasMatch hinv a b hm
      have hl := (likes_of_hasMatch hinv a b hm).1
      rw [like_again db a b hne hl] at his
      simp [Response.isMatch] at his
  · intro hm ops
    have hne := ne_of_hasMatch hinv a b hm
    obtain ⟨hab, hba⟩ := likes_of_hasMatch hinv a b hm
    apply stale_runOps
    · rw [hasLike_congr db _ (unmatch_likes db a b)]; exact hab
    · rw [hasLike_congr db _ (unmatch_likes db a b)]; exact hba
    · exact hasMatch_unmatch hinv a b hne

theorem match_created_once_witness :
    ((like storeMatched 1 2).2.isMatch = some true → hasMatch storeMatched 1 2 = false) ∧
    (hasMatch storeMatched 1 2 = true →
      ∀ ops, hasMatch (runOps (unmatch storeMatched 1 2).1 ops) 1 2 = false) :=
  match_created_once storeMatched reachable_storeMatched 1 2

/-- Unless the request unmatches the pair, it keeps a pair with both Likes
matched. -/
theorem both_likes_matched_run (db : DB) (hinv : db.Inv) (a b : Nat) (op : Op)
    (hop1 : op ≠ .unmatch a b) (hop2 : op ≠ .unmatch b a)
    (hJ : hasLike db a b = true → hasLike db b a = true → hasMatch db a b = true) :
    hasLike (op.run db) a b = true → hasLike (op.run db) b a = true →
      hasMatch (op.run db) a b = true := by
  cases op with
  | like x y =>
    intro k1 k2
    have k1' : hasLike (like db x y).1 a b = true := k1
    have k2' : hasLike (like db x y).1 b a = true := k2
    show hasMatch (like db x y).1 a b = true
    by_cases ho1 : hasLike db a b = true
    · by_cases ho2 : hasLike db b a = true
      · exact hasMatch_mono db _ a b (like_matches_subset db x y) (hJ ho1 ho2)
      · rcases hasLike_after_like db x y b a k2' with hc | ⟨rfl, rfl⟩
        · exact absurd hc ho2
        · rw [hasMatch_comm]
          exact hasMatch_of_like_completes db b a (by simpa using ho2) k2' k1'
    · rcases hasLike_after_like db x y a b k1' with hc | ⟨rfl, rfl⟩
      · exact absurd hc ho1
      · exact hasMatch_of_like_completes db a b (by simpa using ho1) k1' k2'
  | unmatch x y =>
    intro k1 k2
    have k1' : hasLike (unmatch db x y).1 a b = true := k1
    have k2' : hasLike (unmatch db x y).1 b a = true := k2
    rw [hasLike_congr db _ (unmatch_likes db x y)] at k1' k2'
    have hm := hJ k1' k2'
    show hasMatch (unmatch db x y).1 a b = true
    have hdel : ∀ m ms, x ≠ y → selectMatch db (min x y) (max x y) = m :: ms →
        ∀ db2 : DB, db2.matches_ = (deleteMatch db m.id).matches_ →
        hasMatch db2 a b = true := by
      intro m ms hxy hs db2 hdb2
      have hmsel : m ∈ selectMatch db (min x y) (max x y) := by
        rw [hs]; exact List.mem_cons_self _ _
      simp only [selectMatch, List.mem_filter, Bool.and_eq_true, beq_iff_eq] at hmsel
      rw [hasMatch_iff] at hm ⊢
      obtain ⟨m2, hm2, hp⟩ := hm
      refine ⟨m2, ?_, hp⟩
      rw [hdb2]
      simp only [deleteMatch, List.mem_filter, Bool.not_eq_true', beq_eq_false_iff_ne]
      refine ⟨hm2, ?_⟩
      intro hid
      have heq : m2 = m := List.inj_on_of_nodup_map hinv.wf.matches_pk hm2 hmsel.1 hid
      have hk := pair_row_canonical hinv a b m2 hm2 hp
      rw [heq, hmsel.2.1, hmsel.2.2] at hk
      simp only [Prod.mk.injEq] at hk
      rcases min_max_eq_cases a b x y hk.1.symm hk.2.symm with ⟨rfl, rfl⟩ | ⟨rfl, rfl⟩
      · exact hop1 rfl
      · exact hop2 rfl
    apply unmatch_cases db x y (fun r => hasMatch r.1 a b = true)
    · intro _; exact hm
    · intro _ _; exact hm
    · intro m ms _ hxy hs _; exact hdel m ms hxy hs _ rfl
    · intro m ms db2 hxy hs h2
      exact hdel m ms hxy hs db2 (insertNotification_matches h2)
  | startConversation x y =>
    intro k1 k2
    have k1' : hasLike (startConversation db x y).1 a b = true := k1
    have k2' : hasLike (startConversation db x y).1 b a = true := k2
    rw [hasLike_congr db _ (startConversation_likes db x y)] at k1' k2'
    show hasMatch (startConversation db x y).1 a b = true
    have hm := hJ k1' k2'
    unfold hasMatch selectMatchPair at hm ⊢
    rw [startConversation_matches]; exact hm

theorem runOps_append (db : DB) (ops : List Op) (op : Op) :
    runOps db (ops ++ [op]) = op.run (runOps db ops) := by
  simp [runOps, List.foldl_append]

theorem reachable_runOps {db : DB} (h : Reachable db) (ops : List Op) :
    Reachable (runOps db ops) := by
  induction ops generalizing db with
  | nil => exact h
  | cons op t ih => exact ih (Reachable.step op h)

/-- In a history without `unmatch` of the pair, a pair with both Likes has its
Match row. -/
theorem both_likes_matched (strict : Bool) (users : List User)
    (hpk : (users.map User.id).Nodup) (ops : List Op) (a b : Nat)
    (hno1 : Op.unmatch a b ∉ ops) (hno2 : Op.unmatch b a ∉ ops) :
    hasLike (runOps (emptyStore strict users) ops) a b = true →
    hasLike (runOps (emptyStore strict users) ops) b a = true →
    hasMatch (runOps (emptyStore strict users) ops) a b = true := by
  induction ops using List.reverseRecOn with
  | nil => intro h; simp [runOps, emptyStore, hasLike, selectLike] at h
  | append_singleton l op ih =>
    rw [runOps_append]
    have hin : op ∈ l ++ [op] := List.mem_append_right _ (List.mem_singleton.mpr rfl)
    apply both_likes_matched_run _
      (inv_of_reachable (reachable_runOps (Reachable.empty strict users hpk) l)) a b op
      (fun h => hno1 (h ▸ hin)) (fun h => hno2 (h ▸ hin))
    exact ih (fun h => hno1 (List.mem_append_left _ h))
      (fun h => hno2 (List.mem_append_left _ h))

/-- C27: in the store after any history of `like`, `unmatch` and
`startConversation` from an empty store, a pair with a Match row has both
Likes; and a pair with both Likes and no Match row has an `unmatch` of the pair
in the history. -/
theorem match_implies_likes (strict : Bool) (users : List User)
    (hpk : (users.map User.id).Nodup) (ops : List Op) (a b : Nat) :
    (hasMatch (runOps (emptyStore strict users) ops) a b = true →
      hasLike (runOps (emptyStore strict users) ops) a b = true ∧
      hasLike (runOps (emptyStore strict users) ops) b a = true) ∧
    (hasLike (runOps (emptyStore strict users) ops) a b = true →
      hasLike (runOps (emptyStore strict users) ops) b a = true →
      hasMatch (runOps (emptyStore strict users) ops) a b = false →
      Op.unmatch a b ∈ ops ∨ Op.unmatch b a ∈ ops) := by
  constructor
  · exact likes_of_hasMatch
      (inv_of_reachable (reachable_runOps (Reachable.empty strict users hpk) ops)) a b
  · intro h1 h2 hm
    by_cases hu1 : Op.unmatch a b ∈ ops
    · exact Or.inl hu1
    · by_cases hu2 : Op.unmatch b a ∈ ops
      · exact Or.inr hu2
      · have := both_likes_matched strict users hpk ops a b hu1 hu2 h1 h2
        rw [hm] at this; cases this

theorem match_implies_likes_witness :
    (hasMatch (runOps (emptyStore true [ada, bob]) [.like 1 2, .like 2 1, .unmatch 1 2]) 1 2
        = true →
      hasLike (runOps (emptyStore true [ada, bob]) [.like 1 2, .like 2 1, .unmatch 1 2]) 1 2
        = true ∧
      hasLike (runOps (emptyStore true [ada, bob]) [.like 1 2, .like 2 1, .unmatch 1 2]) 2 1
        = true) ∧
    (hasLike (runOps (emptyStore true [ada, bob]) [.like 1 2, .like 2 1, .unmatch 1 2]) 1 2
        = true →
      hasLike (runOps (emptyStore true [ada, bob]) [.like 1 2, .like 2 1, .unmatch 1 2]) 2 1
        = true →
      hasMatch (runOps (emptyStore true [ada, bob]) [.like 1 2, .like 2 1, .unmatch 1 2]) 1 2
        = false →
      Op.unmatch 1 2 ∈ [Op.like 1 2, .like 2 1, .unmatch 1 2] ∨
      Op.unmatch 2 1 ∈ [Op.like 1 2, .like 2 1, .unmatch 1 2]) :=
  match_implies_likes true [ada, bob] (by decide) [.like 1 2, .like 2 1, .unmatch 1 2] 1 2

/-! ## Two likes at the same time -/

/-- Run alone, the statements of a `like` request give the result of the
handler. -/
theorem likeRun_eq_like (db : DB) (a b : Nat) :
    likeRun a b 7 (db, likeStart a b) = ((like db a b).1, .done (like db a b).2) := by
  unfold like likeStart
  by_cases hab : a = b
  · simp [hab, likeRun, likeStep]
  rw [if_neg hab, if_neg hab]
  by_cases hd : (!(selectLike db a b).isEmpty) = true
  · simp [hd, likeRun, likeStep]
  rw [if_neg hd]
  cases h1 : insertLike db a b with
  | error e => simp [hd, h1, likeRun, likeStep]
  | ok db1 =>
    simp only
    by_cases hr : (!(selectLike db1 b a).isEmpty) = true
    · rw [if_pos hr]
      cases h2 : insertNotification (insertIgnoreMatch db1 (min a b) (max a b)) b "match"
          (some a) "You have a new match!" with
      | error e => simp [hd, h1, hr, h2, likeRun, likeStep]
      | ok db3 =>
        cases h3 : insertNotification db3 a "match" (some b) "You have a new match!" with
        | error e => simp [hd, h1, hr, h2, h3, likeRun, likeStep]
        | ok db4 => simp [hd, h1, hr, h2, h3, likeRun, likeStep]
    · rw [if_neg hr]
      cases h2 : insertNotification db1 b "like" (some a)
          (firstNameOrSomeone (selectUser db1 a).head? ++ " liked your profile!") with
      | error e => simp [hd, h1, hr, h2, likeRun, likeStep]
      | ok db2 => simp [hd, h1, hr, h2, likeRun, likeStep]

theorem foldl_invariant {σ τ : Type} (f : σ → τ → σ) (P : σ → Prop)
    (hstep : ∀ s t, P s → P (f s t)) : ∀ (l : List τ) (s : σ), P s → P (l.foldl f s) := by
  intro l
  induction l with
  | nil => intro s hs; exact hs
  | cons t rest ih => intro s hs; exact ih (f s t) (hstep s t hs)

theorem insertIgnoreMatch_matches_new (db : DB) (u v : Nat) :
    (insertIgnoreMatch db u v).matches_ = db.matches_ ∨
    (selectMatch db u v = [] ∧
      (insertIgnoreMatch db u v).matches_ = db.matches_ ++ [⟨db.next_match_id, u, v⟩]) := by
  unfold insertIgnoreMatch; split
  · exact Or.inl rfl
  · split
    · exact Or.inl rfl
    · rename_i hs
      exact Or.inr ⟨by simpa using hs, rfl⟩

/-- One statement of a `like` between two different users keeps the unique key
of `matches` and the order of its rows. -/
theorem likeStep_keeps_matches (x y : Nat) (hne : x ≠ y) (db : DB) (p : LikePoint)
    (hu : (db.matches_.map (fun m => (m.user1_id, m.user2_id))).Nodup)
    (hc : ∀ m ∈ db.matches_, m.user1_id < m.user2_id) :
    ((likeStep x y db p).1.matches_.map (fun m => (m.user1_id, m.user2_id))).Nodup ∧
    (∀ m ∈ (likeStep x y db p).1.matches_, m.user1_id < m.user2_id) := by
  have same : ∀ db1 : DB, db1.matches_ = db.matches_ →
      (db1.matches_.map (fun m => (m.user1_id, m.user2_id))).Nodup ∧
      (∀ m ∈ db1.matches_, m.user1_id < m.user2_id) := by
    intro db1 h; rw [h]; exact ⟨hu, hc⟩
  cases p with
  | checkDuplicate => simp only [likeStep]; split <;> exact ⟨hu, hc⟩
  | insertLike =>
    simp only [likeStep]
    split
    · exact ⟨hu, hc⟩
    · rename_i db1 h1
      obtain ⟨rfl, -⟩ := insertLike_ok_inv h1
      exact ⟨hu, hc⟩
  | checkReciprocal => simp only [likeStep]; split <;> exact ⟨hu, hc⟩
  | insertMatch =>
    simp only [likeStep]
    rcases insertIgnoreMatch_matches_new db (min x y) (max x y) with h | ⟨hs, h⟩
    · exact same _ h
    · show ((insertIgnoreMatch db (min x y) (max x y)).matches_.map _).Nodup ∧ _
      rw [h]
      constructor
      · apply nodup_map_snoc _ _ _ hu
        intro m hm heq
        have hmem : m ∈ selectMatch db (min x y) (max x y) := by
          simp only [selectMatch, List.mem_filter]
          simp only [Prod.mk.injEq] at heq
          exact ⟨hm, by simp [heq.1, heq.2]⟩
        rw [hs] at hmem; cases hmem
      · intro m hm
        rcases List.mem_append.mp hm with hm | hm
        · exact hc m hm
        · simp only [List.mem_singleton] at hm
          subst hm
          show min x y < max x y
          simp only [Nat.min_def, Nat.max_def]
          split_ifs <;> omega
  | selectMatchedUser => exact ⟨hu, hc⟩
  | notifyLiked mu =>
    simp only [likeStep]
    split
    · exact ⟨hu, hc⟩
    · rename_i db1 h1
      exact same _ (insertNotification_matches h1)
  | notifyLiker mu =>
    simp only [likeStep]
    split
    · exact ⟨hu, hc⟩
    · rename_i db1 h1
      exact same _ (insertNotification_matches h1)
  | selectLiker => exact ⟨hu, hc⟩
  | notifyLike name =>
    simp only [likeStep]
    split
    · exact ⟨hu, hc⟩
    · rename_i db1 h1
      exact same _ (insertNotification_matches h1)
  | done r => exact ⟨hu, hc⟩

theorem likeStep_rank (x y : Nat) (db : DB) (p : LikePoint) :
    (likeStep x y db p).2.rank ≤ p.rank - 1 := by
  cases p with
  | checkDuplicate => simp only [likeStep]; split <;> simp [LikePoint.rank]
  | insertLike => simp only [likeStep]; split <;> simp [LikePoint.rank]
  | checkReciprocal => simp only [likeStep]; split <;> simp [LikePoint.rank]
  | insertMatch => simp [likeStep, LikePoint.rank]
  | selectMatchedUser => simp [likeStep, LikePoint.rank]
  | notifyLiked mu => simp only [likeStep]; split <;> simp [LikePoint.rank]
  | notifyLiker mu => simp only [likeStep]; split <;> simp [LikePoint.rank]
  | selectLiker => simp [likeStep, LikePoint.rank]
  | notifyLike name => simp only [likeStep]; split <;> simp [LikePoint.rank]
  | done r => simp [likeStep, LikePoint.rank]

theorem likeStart_rank (x y : Nat) : (likeStart x y).rank ≤ 7 := by
  unfold likeStart; split <;> simp [LikePoint.rank]

/-- After a schedule the rank of each request has gone down by the number of
its turns. -/
theorem race_rank (a b : Nat) (schedule : List Bool) (s : Race) :
    (schedule.foldl (raceStep a b) s).first.rank ≤ s.first.rank - schedule.count true ∧
    (schedule.foldl (raceStep a b) s).second.rank ≤ s.second.rank - schedule.count false := by
  induction schedule generalizing s with
  | nil => simp
  | cons t rest ih =>
    obtain ⟨h1, h2⟩ := ih (raceStep a b s t)
    rw [List.foldl_cons]
    cases t with
    | true =>
      have hs := likeStep_rank a b s.db s.first
      have e1 : (raceStep a b s true).first = (likeStep a b s.db s.first).2 := by
        simp [raceStep]
      have e2 : (raceStep a b s true).second = s.second := by simp [raceStep]
      rw [e1] at h1; rw [e2] at h2
      simp only [List.count_cons_self, List.count_cons_of_ne (by decide : (false : Bool) ≠ true)]
      omega
    | false =>
      have hs := likeStep_rank b a s.db s.second
      have e1 : (raceStep a b s false).first = s.first := by simp [raceStep]
      have e2 : (raceStep a b s false).second = (likeStep b a s.db s.second).2 := by
        simp [raceStep]
      rw [e1] at h1; rw [e2] at h2
      simp only [List.count_cons_self, List.count_cons_of_ne (by decide : (true : Bool) ≠ false)]
      omega

theorem rank_eq_zero (p : LikePoint) (h : p.rank = 0) : ∃ r, p = .done r := by
  cases p <;> simp [LikePoint.rank] at h
  exact ⟨_, rfl⟩

/-- With the unique key of `matches` and its rows stored smaller id first, an
unordered pair has at most one Match row. -/
theorem selectMatchPair_length_le_one (db : DB)
    (hu : (db.matches_.map (fun m => (m.user1_id, m.user2_id))).Nodup)
    (hc : ∀ m ∈ db.matches_, m.user1_id < m.user2_id) (a b : Nat) :
    (selectMatchPair db a b).length ≤ 1 := by
  apply length_filter_le_one (fun m : Match => (m.user1_id, m.user2_id)) (min a b, max a b) _
    db.matches_ hu
  intro m hm hp
  have hlt := hc m hm
  simp only [Bool.or_eq_true, Bool.and_eq_true, beq_iff_eq] at hp
  show (m.user1_id, m.user2_id) = _
  rcases hp with ⟨h1, h2⟩ | ⟨h1, h2⟩
  · rw [h1, h2] at hlt ⊢
    rw [Nat.min_eq_left (Nat.le_of_lt hlt), Nat.max_eq_right (Nat.le_of_lt hlt)]
  · rw [h1, h2] at hlt ⊢
    rw [Nat.min_eq_right (Nat.le_of_lt hlt), Nat.max_eq_left (Nat.le_of_lt hlt)]

/-- Every step of the race keeps the unique key of `matches` and the order of
its rows. -/
theorem race_keeps_matches (a b : Nat) (db : DB) (schedule : List Bool)
    (hu : (db.matches_.map (fun m => (m.user1_id, m.user2_id))).Nodup)
    (hc : ∀ m ∈ db.matches_, m.user1_id < m.user2_id) :
    ((race a b db schedule).db.matches_.map (fun m => (m.user1_id, m.user2_id))).Nodup ∧
    (∀ m ∈ (race a b db schedule).db.matches_, m.user1_id < m.user2_id) := by
  by_cases hab : a = b
  · subst hab
    have hP := foldl_invariant (raceStep a a)
      (fun s : Race => (∃ r, s.first = .done r) ∧ (∃ r, s.second = .done r) ∧ s.db = db)
      (by
        rintro s t ⟨⟨r1, h1⟩, ⟨r2, h2⟩, h3⟩
        cases t
        · simp [raceStep, h1, h2, h3, likeStep]
        · simp [raceStep, h1, h2, h3, likeStep])
      schedule ⟨db, likeStart a a, likeStart a a⟩ (by simp [likeStart])
    have hdb : (race a a db schedule).db = db := hP.2.2
    rw [hdb]
    exact ⟨hu, hc⟩
  · exact foldl_invariant (raceStep a b) (fun s : Race =>
      (s.db.matches_.map (fun m => (m.user1_id, m.user2_id))).Nodup ∧
      (∀ m ∈ s.db.matches_, m.user1_id < m.user2_id))
      (by
        rintro s t ⟨h1, h2⟩
        cases t
        · simp only [raceStep, Bool.false_eq_true, ↓reduceIte]
          exact likeStep_keeps_matches b a (Ne.symm hab) s.db s.second h1 h2
        · simp only [raceStep, ↓reduceIte]
          exact likeStep_keeps_matches a b hab s.db s.first h1 h2)
      schedule ⟨db, likeStart a b, likeStart b a⟩ ⟨hu, hc⟩

/-- C25: from a reachable store, after any interleaving of the statements of
`like(a,b)` and `like(b,a)` the store holds at most one Match row of the pair;
and an interleaving that gives each of the two requests seven turns has both
requests answered. -/
theorem race_one_match_row (db : DB) (h : Reachable db) (a b : Nat) (schedule : List Bool) :
    (selectMatchPair (race a b db schedule).db a b).length ≤ 1 ∧
    (7 ≤ schedule.count true → 7 ≤ schedule.count false →
      (race a b db schedule).finished = true) := by
  have hinv := inv_of_reachable h
  constructor
  · obtain ⟨hu, hc⟩ := race_keeps_matches a b db schedule hinv.wf.matches_unique
      hinv.matches_lt_pair
    exact selectMatchPair_length_le_one _ hu hc a b
  · intro h1 h2
    obtain ⟨k1, k2⟩ := race_rank a b schedule ⟨db, likeStart a b, likeStart b a⟩
    have s1 := likeStart_rank a b
    have s2 := likeStart_rank b a
    have z1 : (race a b db schedule).first.rank = 0 := by
      unfold race; simp only at k1; omega
    have z2 : (race a b db schedule).second.rank = 0 := by
      unfold race; simp only at k2; omega
    obtain ⟨r1, e1⟩ := rank_eq_zero _ z1
    obtain ⟨r2, e2⟩ := rank_eq_zero _ z2
    simp [Race.finished, e1, e2]

theorem race_one_match_row_witness :
    (selectMatchPair (race 1 2 store0 alternating).db 1 2).length ≤ 1 ∧
    (7 ≤ alternating.count true → 7 ≤ alternating.count false →
      (race 1 2 store0 alternating).finished = true) :=
  race_one_match_row store0 reachable_store0 1 2 alternating

/-- In the alternating interleaving on the example store both requests find the
other one's Like, both answer `isMatch = true`, one Match row is stored and
four `match` notifications are written. -/
theorem race_alternating :
    (race 1 2 store0 alternating).finished = true ∧
    (race 1 2 store0 alternating).db.matches_ = [⟨1, 1, 2⟩] ∧
    (race 1 2 store0 alternating).db.notifications.map (fun n => (n.user_id, n.type)) =
      [(2, .match_), (1, .match_), (1, .match_), (2, .match_)] := by
  decide

end DesireYourLove
